import Mathlib

/-!
# wl_sample: Wayland client samples

A shallow embedding of the presentation and input code of `frame.cpp`,
`pnt_events.cpp` and `egl_window.cpp`.

* Protocol objects (`wl_surface *`, `wl_buffer *`, `wl_callback *`, ...) are
  handles: natural numbers, `0` being `NULL`.  A new proxy gets the handle
  `objects + 1`, where `objects` counts the proxies created so far, so a new
  handle is never `NULL` and never one handed out before.
* The requests a handler sends are appended to the outgoing stream `out` of the
  `World`; the system calls of the shared-memory code are appended to `sys`.
* The operating system is an explicit parameter `Os` of every function that
  calls it: what `clock_gettime`, `shm_open`, `ftruncate` and `mmap` answer.
* `uint32_t` values are natural numbers, reduced modulo `2^32` where the code
  computes with them; `int` and `wl_fixed_t` values are integers.
* `float offset` is the rational number the float holds.  Floating-point
  arithmetic is IEEE 754 binary32 (`float`) and binary64 (`double`) with
  rounding to nearest, ties to even: every operation of
  `offset += elapsed / 1000.0 * 24` is rounded on its own, the quotient, the
  product and the sum to `double`, the stored sum to `float` (no fused
  multiply-add, no excess precision).  Infinities and NaN are not modelled:
  a value beyond the largest finite one is rounded as if the exponent had no
  upper bound.
-/

namespace WlSample

/-! ## Operating system interface -/

/-- The values of `errno` the code distinguishes. -/
inductive Errno
  | EEXIST
  | EINTR
  | other
  deriving DecidableEq, Repr

/-- What a system call returns: its return value and the `errno` it leaves. -/
structure SysResult where
  ret : Int
  errno : Errno
  deriving DecidableEq, Repr

/-- The system calls the shared-memory code makes, as they appear in the trace. -/
inductive Syscall
  | clock_gettime
  | shm_open (name : String)
  | shm_unlink (name : String)
  | ftruncate (fd : Int) (size : Nat)
  | close (fd : Int)
  | mmap (fd : Int) (size : Nat)
  | munmap (size : Nat)
  deriving DecidableEq, Repr

/-- The answers of the operating system during one run of `draw_frame`.
`clock k` is `tv_nsec` of the `k`-th `clock_gettime`, `shm_open k name` the
result of the `k`-th `shm_open`; `ftruncate` is interrupted (`EINTR`)
`ftruncate_eintr` times and then answers `ftruncate_last`; `mmap_ok` tells
whether `mmap` returns a mapping rather than `MAP_FAILED`. -/
structure Os where
  clock : Nat → Nat
  shm_open : Nat → String → SysResult
  ftruncate_eintr : Nat
  ftruncate_last : SysResult
  mmap_ok : Bool

/-! ## Shared memory support code (`frame.cpp` 11-49, `pnt_events.cpp` 12-50) -/

/-- The loop of `randname`: `buf[i] = 'A' + (r & 15) + (r & 16) * 2; r >>= 5`,
`n` more times. -/
def randname_loop : Nat → Nat → List Char
  | 0, _ => []
  | n + 1, r => Char.ofNat (65 + (r &&& 15) + (r &&& 16) * 2) :: randname_loop n (r >>> 5)

/-- The six characters `randname` writes for `tv_nsec = r`. -/
def randname (r : Nat) : List Char :=
  randname_loop 6 r

/-- The name of one attempt: `"/wl_shm-XXXXXX"` with the six `X` overwritten. -/
def shm_name (r : Nat) : String :=
  "/wl_shm-" ++ String.mk (randname r)

/-- The `do ... while (retries > 0 && errno == EEXIST)` loop of
`create_shm_file`, entered with `retries` left, `k` attempts made so far.
Returns the descriptor (or `-1`) and the system calls made. -/
def create_shm_file_loop (os : Os) : Nat → Nat → Int × List Syscall
  | 0, k =>
    let name := shm_name (os.clock k)
    let r := os.shm_open k name
    if 0 ≤ r.ret then
      (r.ret, [Syscall.clock_gettime, Syscall.shm_open name, Syscall.shm_unlink name])
    else
      (-1, [Syscall.clock_gettime, Syscall.shm_open name])
  | retries + 1, k =>
    let name := shm_name (os.clock k)
    let r := os.shm_open k name
    if 0 ≤ r.ret then
      (r.ret, [Syscall.clock_gettime, Syscall.shm_open name, Syscall.shm_unlink name])
    else if 0 < retries ∧ r.errno = Errno.EEXIST then
      let rest := create_shm_file_loop os retries (k + 1)
      (rest.1, [Syscall.clock_gettime, Syscall.shm_open name] ++ rest.2)
    else
      (-1, [Syscall.clock_gettime, Syscall.shm_open name])

/-- `create_shm_file`: the loop with `retries = 100`. -/
def create_shm_file (os : Os) : Int × List Syscall :=
  create_shm_file_loop os 100 0

/-- The `do ret = ftruncate(fd, size); while (ret < 0 && errno == EINTR)` loop
of `allocate_shm_file`: `eintr` interrupted calls, then the last answer. -/
def ftruncate_loop (fd : Int) (size : Nat) (last : SysResult) : Nat → Int × List Syscall
  | 0 => (last.ret, [Syscall.ftruncate fd size])
  | eintr + 1 =>
    let rest := ftruncate_loop fd size last eintr
    (rest.1, Syscall.ftruncate fd size :: rest.2)

/-- `allocate_shm_file(size)`: the descriptor, or `-1`. -/
def allocate_shm_file (os : Os) (size : Nat) : Int × List Syscall :=
  let c := create_shm_file os
  if c.1 < 0 then
    (-1, c.2)
  else
    let t := ftruncate_loop c.1 size os.ftruncate_last os.ftruncate_eintr
    if t.1 < 0 then
      (-1, c.2 ++ t.2 ++ [Syscall.close c.1])
    else
      (c.1, c.2 ++ t.2)

/-! ## Protocol objects and requests -/

/-- A protocol object (a proxy pointer in the source); `0` is `NULL`. -/
abbrev Handle := Nat

/-- The requests the clients send.  `id` is the handle of the object the
request creates.  `callback_destroy` is `wl_callback_destroy`, which drops the
client's proxy of a callback; `egl_window_resize` is `wl_egl_window_resize` on
the native window. -/
inductive Request
  | get_registry (display id : Handle)
  | registry_bind (registry : Handle) (name : Nat) (interface : String) (version : Nat)
      (id : Handle)
  | create_surface (compositor id : Handle)
  | get_xdg_surface (wm_base surface id : Handle)
  | get_toplevel (xdg_surface id : Handle)
  | set_title (toplevel : Handle) (title : String)
  | pong (wm_base : Handle) (serial : Nat)
  | ack_configure (xdg_surface : Handle) (serial : Nat)
  | create_pool (shm : Handle) (fd : Int) (size : Nat) (id : Handle)
  | create_buffer (pool : Handle) (offset width height stride : Int) (format : Nat)
      (id : Handle)
  | pool_destroy (pool : Handle)
  | buffer_destroy (buffer : Handle)
  | attach (surface buffer : Handle) (x y : Int)
  | damage_buffer (surface : Handle) (x y width height : Int)
  | commit (surface : Handle)
  | frame (surface id : Handle)
  | callback_destroy (callback : Handle)
  | get_pointer (seat id : Handle)
  | pointer_release (pointer : Handle)
  | egl_window_resize (window : Handle) (width height dx dy : Int)
  deriving DecidableEq, Repr

/-- `WL_SHM_FORMAT_XRGB8888`. -/
def WL_SHM_FORMAT_XRGB8888 : Nat := 1

/-- `INT32_MAX`. -/
def INT32_MAX : Int := 2147483647

/-! ## Client state (`pnt_events.cpp` 52-98; `frame.cpp` 52-66 has the same
fields without the seat, the input objects and `pointer_event`) -/

/-- Bit `POINTER_EVENT_ENTER` of `enum pointer_event_mask`. -/
def POINTER_EVENT_ENTER : Nat := 1 <<< 0
/-- Bit `POINTER_EVENT_LEAVE`. -/
def POINTER_EVENT_LEAVE : Nat := 1 <<< 1
/-- Bit `POINTER_EVENT_MOTION`. -/
def POINTER_EVENT_MOTION : Nat := 1 <<< 2
/-- Bit `POINTER_EVENT_BUTTON`. -/
def POINTER_EVENT_BUTTON : Nat := 1 <<< 3
/-- Bit `POINTER_EVENT_AXIS`. -/
def POINTER_EVENT_AXIS : Nat := 1 <<< 4
/-- Bit `POINTER_EVENT_AXIS_SOURCE`. -/
def POINTER_EVENT_AXIS_SOURCE : Nat := 1 <<< 5
/-- Bit `POINTER_EVENT_AXIS_STOP`. -/
def POINTER_EVENT_AXIS_STOP : Nat := 1 <<< 6
/-- Bit `POINTER_EVENT_AXIS_DISCRETE`. -/
def POINTER_EVENT_AXIS_DISCRETE : Nat := 1 <<< 7

/-- One entry of `axes[2]` in `struct pointer_event`. -/
structure axis_entry where
  valid : Bool
  value : Int
  discrete : Int
  deriving DecidableEq, Repr

/-- `struct pointer_event`; `axes0` and `axes1` are `axes[0]` and `axes[1]`. -/
structure pointer_event where
  event_mask : Nat
  surface_x : Int
  surface_y : Int
  button : Nat
  state : Nat
  time : Nat
  serial : Nat
  axes0 : axis_entry
  axes1 : axis_entry
  axis_source : Nat
  deriving DecidableEq, Repr

/-- `struct client_state`. -/
structure client_state where
  wl_display : Handle
  wl_registry : Handle
  wl_shm : Handle
  wl_compositor : Handle
  xdg_wm_base : Handle
  wl_seat : Handle
  wl_surface : Handle
  xdg_surface : Handle
  xdg_toplevel : Handle
  wl_keyboard : Handle
  wl_pointer : Handle
  wl_touch : Handle
  offset : ℚ
  last_frame : Nat
  pointer_event : pointer_event
  deriving DecidableEq

/-- The accumulator after `memset(event, 0, sizeof(*event))`. -/
def pointer_event_zero : pointer_event :=
  { event_mask := 0, surface_x := 0, surface_y := 0, button := 0, state := 0, time := 0,
    serial := 0, axes0 := ⟨false, 0, 0⟩, axes1 := ⟨false, 0, 0⟩, axis_source := 0 }

/-- The state after `struct client_state state = {0}`. -/
def client_state_zero : client_state :=
  { wl_display := 0, wl_registry := 0, wl_shm := 0, wl_compositor := 0, xdg_wm_base := 0,
    wl_seat := 0, wl_surface := 0, xdg_surface := 0, xdg_toplevel := 0, wl_keyboard := 0,
    wl_pointer := 0, wl_touch := 0, offset := 0, last_frame := 0,
    pointer_event := pointer_event_zero }

/-- The client and its connection: the state the handlers get as `data`, the
number of proxies created so far, the requests sent and the system calls made,
both oldest first. -/
structure World (σ : Type) where
  state : σ
  objects : Nat
  out : List Request
  sys : List Syscall

/-- The world of the `frame.cpp` and `pnt_events.cpp` clients. -/
abbrev Client := World client_state

/-- The requests sent between the worlds `w` and `w1`. -/
def emitted {σ : Type} (w w1 : World σ) : List Request :=
  w1.out.drop w.out.length

/-! ## Frame producer (`frame.cpp` 78-115, `pnt_events.cpp` 110-147) -/

/-- The conversion `(int) f` of a floating-point value: the fraction is
discarded (rounding toward zero).  C defines it when the result fits in `int`;
the model is the exact value on all rationals. -/
def float_to_int (f : ℚ) : Int :=
  Int.tdiv f.num f.den

/-- The store `data[i] = v` into the mapped pixel words. -/
def store (data : Nat → Nat) (i v : Nat) : Nat → Nat :=
  fun j => if j = i then v else data j

/-- The inner loop `for (int x = 0; x < width; ++x)` of `draw_frame` on row `y`. -/
def draw_row (width : Nat) (offset : Int) (y : Nat) (data : Nat → Nat) : Nat → Nat :=
  (List.range width).foldl
    (fun (d : Nat → Nat) (x : Nat) =>
      if Int.tmod (((x : Int) + offset) + Int.tdiv ((y : Int) + offset) 8 * 8) 16 < 8 then
        store d (y * width + x) 0xFF666666
      else
        store d (y * width + x) 0xFFEEEEEE)
    data

/-- The outer loop `for (int y = 0; y < height; ++y)` of `draw_frame`. -/
def draw_rows (width height : Nat) (offset : Int) (data : Nat → Nat) : Nat → Nat :=
  (List.range height).foldl (fun d y => draw_row width offset y d) data

/-- The pixel words `draw_frame` leaves in the mapping when the phase is
`phase`: `int offset = (int)state->offset % 8`, then the two loops over the
640 x 480 words of a fresh (zero-filled) shared-memory file. -/
def draw_pixels (phase : ℚ) : Nat → Nat :=
  draw_rows 640 480 (Int.tmod (float_to_int phase) 8) (fun _ => 0)

/-- `draw_frame(state)`: the buffer (`0` for `nullptr`), the pixel words
written, and the world after.  Registering the buffer listener sends nothing. -/
def draw_frame (os : Os) (w : Client) : Handle × (Nat → Nat) × Client :=
  let width : Nat := 640
  let height : Nat := 480
  let stride : Nat := width * 4
  let size : Nat := stride * height
  let a := allocate_shm_file os size
  if a.1 = -1 then
    (0, fun _ => 0, { w with sys := w.sys ++ a.2 })
  else if os.mmap_ok = false then
    (0, fun _ => 0, { w with sys := w.sys ++ a.2 ++ [Syscall.mmap a.1 size, Syscall.close a.1] })
  else
    let pool : Handle := w.objects + 1
    let buffer : Handle := w.objects + 2
    (buffer, draw_pixels w.state.offset,
      { w with
        objects := w.objects + 2
        out := w.out ++
          [Request.create_pool w.state.wl_shm a.1 size pool,
           Request.create_buffer pool 0 width height stride WL_SHM_FORMAT_XRGB8888 buffer,
           Request.pool_destroy pool]
        sys := w.sys ++ a.2 ++
          [Syscall.mmap a.1 size, Syscall.close a.1, Syscall.munmap size] })

/-! ## Presentation handlers (`frame.cpp` 68-171, `pnt_events.cpp` 100-203)

A request on a `NULL` proxy is recorded with target `0`; what the protocol
library does with it is outside the model. -/

/-- The difference `a - b` of two `uint32_t`. -/
def u32_sub (a b : Nat) : Nat :=
  (a % 2 ^ 32 + 2 ^ 32 - b % 2 ^ 32) % 2 ^ 32

/-- The conversion of a `uint32_t` to `int` (two's complement). -/
def to_int32 (u : Nat) : Int :=
  if u % 2 ^ 32 < 2 ^ 31 then ((u % 2 ^ 32 : Nat) : Int) else ((u % 2 ^ 32 : Nat) : Int) - 2 ^ 32

/-- The integer nearest to `x`; when `x` lies half way between two integers, the
even one. -/
def round_half_even (x : ℚ) : Int :=
  let f := ⌊x⌋
  if x - f < 1 / 2 then f
  else if 1 / 2 < x - f then f + 1
  else if f % 2 = 0 then f
  else f + 1

/-- The value nearest to `q` in the binary floating-point format with `p`
significant bits and least exponent `emin`, ties to even: with `2 ^ e` the power
of two at or below `|q|` (at least `2 ^ emin`, which gives the subnormal
values), the values of the format around `q` are the multiples of
`2 ^ (e - (p - 1))`. -/
def float_round (p : Nat) (emin : Int) (q : ℚ) : ℚ :=
  let e := max (Int.log 2 |q|) emin
  let ulp : ℚ := 2 ^ (e - ((p : Int) - 1))
  (round_half_even (q / ulp) : ℚ) * ulp

/-- Rounding to `double`: 53 significant bits, least exponent -1022. -/
def round_double (q : ℚ) : ℚ :=
  float_round 53 (-1022) q

/-- Rounding to `float`: 24 significant bits, least exponent -126. -/
def round_float (q : ℚ) : ℚ :=
  float_round 24 (-126) q

/-- The statement `state->offset += elapsed / 1000.0 * 24` with `float offset`
and `int elapsed`: `elapsed` and `offset` are converted to `double` (exactly),
the quotient, the product and the sum are `double` operations, and the sum is
converted to `float` when it is stored. -/
def phase_add (offset : ℚ) (elapsed : Int) : ℚ :=
  let quotient := round_double ((elapsed : ℚ) / 1000)
  let product := round_double (quotient * 24)
  let sum := round_double (offset + product)
  round_float sum

/-- `wl_buffer_release`: destroys the released buffer. -/
def wl_buffer_release (w : Client) (wl_buffer : Handle) : Client :=
  { w with out := w.out ++ [Request.buffer_destroy wl_buffer] }

/-- `xdg_surface_configure` of `frame.cpp` and `pnt_events.cpp`. -/
def xdg_surface_configure (os : Os) (w : Client) (xdg_surface : Handle) (serial : Nat) :
    Client :=
  let w1 : Client := { w with out := w.out ++ [Request.ack_configure xdg_surface serial] }
  let d := draw_frame os w1
  let buffer := d.1
  let w2 := d.2.2
  { w2 with
    out := w2.out ++
      [Request.attach w2.state.wl_surface buffer 0 0, Request.commit w2.state.wl_surface] }

/-- `xdg_wm_base_ping`. -/
def xdg_wm_base_ping (w : Client) (xdg_wm_base : Handle) (serial : Nat) : Client :=
  { w with out := w.out ++ [Request.pong xdg_wm_base serial] }

/-- `wl_surface_frame_done`: the `done` handler of the frame callback `cb`. -/
def wl_surface_frame_done (os : Os) (w : Client) (cb : Handle) (time : Nat) : Client :=
  let w1 : Client := { w with out := w.out ++ [Request.callback_destroy cb] }
  let cb1 : Handle := w1.objects + 1
  let w2 : Client :=
    { w1 with
      objects := w1.objects + 1
      out := w1.out ++ [Request.frame w1.state.wl_surface cb1] }
  let w3 : Client :=
    if w2.state.last_frame ≠ 0 then
      let elapsed : Int := to_int32 (u32_sub time w2.state.last_frame)
      { w2 with state := { w2.state with offset := phase_add w2.state.offset elapsed } }
    else
      w2
  let d := draw_frame os w3
  let buffer := d.1
  let w4 := d.2.2
  let w5 : Client :=
    { w4 with
      out := w4.out ++
        [Request.attach w4.state.wl_surface buffer 0 0,
         Request.damage_buffer w4.state.wl_surface 0 0 INT32_MAX INT32_MAX,
         Request.commit w4.state.wl_surface] }
  { w5 with state := { w5.state with last_frame := time } }

/-- `xdg_surface_configure` of `egl_window.cpp`: it only acknowledges. -/
def egl_window.xdg_surface_configure {σ : Type} (w : World σ) (xdg_surface : Handle)
    (serial : Nat) : World σ :=
  { w with out := w.out ++ [Request.ack_configure xdg_surface serial] }

/-! ## Registry and start-up of `frame.cpp` (173-216) -/

/-- `registry_global` of `frame.cpp`. -/
def frame.registry_global (w : Client) (wl_registry : Handle) (name : Nat)
    (interface : String) (_version : Nat) : Client :=
  if interface = "wl_shm" then
    { w with
      state := { w.state with wl_shm := w.objects + 1 }
      objects := w.objects + 1
      out := w.out ++ [Request.registry_bind wl_registry name "wl_shm" 1 (w.objects + 1)] }
  else if interface = "wl_compositor" then
    { w with
      state := { w.state with wl_compositor := w.objects + 1 }
      objects := w.objects + 1
      out := w.out ++ [Request.registry_bind wl_registry name "wl_compositor" 4 (w.objects + 1)] }
  else if interface = "xdg_wm_base" then
    { w with
      state := { w.state with xdg_wm_base := w.objects + 1 }
      objects := w.objects + 1
      out := w.out ++ [Request.registry_bind wl_registry name "xdg_wm_base" 1 (w.objects + 1)] }
  else
    w

/-- `registry_global_remove`: deliberately blank. -/
def registry_global_remove (w : Client) (_wl_registry : Handle) (_name : Nat) : Client :=
  w

/-- A global the registry announces. -/
structure Global where
  name : Nat
  interface : String
  version : Nat
  deriving DecidableEq, Repr

/-- The first lines of `main` in `frame.cpp`: the zeroed state, the connection
and the registry.  `connected` tells whether `wl_display_connect` returned a
display. -/
def frame.main_connect (connected : Bool) : Client :=
  let w0 : Client :=
    { state := { client_state_zero with wl_display := if connected then 1 else 0 }
      objects := if connected then 1 else 0
      out := []
      sys := [] }
  { w0 with
    state := { w0.state with wl_registry := w0.objects + 1 }
    objects := w0.objects + 1
    out := w0.out ++ [Request.get_registry w0.state.wl_display (w0.objects + 1)] }

/-- `main` of `frame.cpp` up to the dispatch loop; `globals` are the
announcements the round-trip delivers to `registry_global`. -/
def frame.main_startup (connected : Bool) (globals : List Global) : Client :=
  let w2 : Client :=
    globals.foldl
      (fun w g => frame.registry_global w w.state.wl_registry g.name g.interface g.version)
      (frame.main_connect connected)
  let w3 : Client :=
    { w2 with
      state := { w2.state with wl_surface := w2.objects + 1 }
      objects := w2.objects + 1
      out := w2.out ++ [Request.create_surface w2.state.wl_compositor (w2.objects + 1)] }
  let w4 : Client :=
    { w3 with
      state := { w3.state with xdg_surface := w3.objects + 1 }
      objects := w3.objects + 1
      out := w3.out ++
        [Request.get_xdg_surface w3.state.xdg_wm_base w3.state.wl_surface (w3.objects + 1)] }
  let w5 : Client :=
    { w4 with
      state := { w4.state with xdg_toplevel := w4.objects + 1 }
      objects := w4.objects + 1
      out := w4.out ++ [Request.get_toplevel w4.state.xdg_surface (w4.objects + 1)] }
  let w6 : Client :=
    { w5 with
      out := w5.out ++
        [Request.set_title w5.state.xdg_toplevel "Example client",
         Request.commit w5.state.wl_surface] }
  { w6 with
    objects := w6.objects + 1
    out := w6.out ++ [Request.frame w6.state.wl_surface (w6.objects + 1)] }

/-- The events the listeners of `frame.cpp` handle. -/
inductive Event
  | global (name : Nat) (interface : String) (version : Nat)
  | global_remove (name : Nat)
  | ping (serial : Nat)
  | configure (serial : Nat)
  | frame_done (cb : Handle) (time : Nat)
  | buffer_release (buffer : Handle)
  deriving DecidableEq, Repr

/-- One event handled by its listener, as `wl_display_dispatch` calls it. -/
def frame.dispatch (os : Os) (w : Client) : Event → Client
  | Event.global name interface version =>
    frame.registry_global w w.state.wl_registry name interface version
  | Event.global_remove name => registry_global_remove w w.state.wl_registry name
  | Event.ping serial => xdg_wm_base_ping w w.state.xdg_wm_base serial
  | Event.configure serial => xdg_surface_configure os w w.state.xdg_surface serial
  | Event.frame_done cb time => wl_surface_frame_done os w cb time
  | Event.buffer_release buffer => wl_buffer_release w buffer

/-- A sequence of events handled in order, each with the answers the operating
system gives during its handler. -/
def frame.run (w : Client) (evs : List (Os × Event)) : Client :=
  evs.foldl (fun w1 oe => frame.dispatch oe.1 w1 oe.2) w

/-- The effect of one request on the frame-callback tokens the client holds. -/
def track (tokens : List Handle) : Request → List Handle
  | Request.frame _ id => tokens ++ [id]
  | Request.callback_destroy cb => tokens.erase cb
  | _ => tokens

/-- The frame-callback tokens requested and not yet destroyed after the
requests `out`. -/
def outstanding (out : List Request) : List Handle :=
  out.foldl track []

/-- The server can deliver the event: it fires only a callback that is
outstanding. -/
def deliverable (w : Client) : Event → Bool
  | Event.frame_done cb _ => decide (cb ∈ outstanding w.out)
  | _ => true

/-- Every event of the sequence is deliverable when its turn comes. -/
def frame.valid : Client → List (Os × Event) → Bool
  | _, [] => true
  | w, oe :: rest => deliverable w oe.2 && frame.valid (frame.dispatch oe.1 w oe.2) rest

/-! ## Pointer events (`pnt_events.cpp` 205-343)

The handlers take the `client_state` they get as `data`.  A handler that
indexes `axes[axis]` with an index outside the array, or the table of the axis
sources with an index outside the table, has no defined behaviour: it returns
`none`. -/

/-- The assignment through `axes[axis]`: `f` applied to that entry. -/
def set_axis (pe : pointer_event) (axis : Nat) (f : axis_entry → axis_entry) :
    Option pointer_event :=
  if axis = 0 then some { pe with axes0 := f pe.axes0 }
  else if axis = 1 then some { pe with axes1 := f pe.axes1 }
  else none

/-- `wl_pointer_enter`. -/
def wl_pointer_enter (st : client_state) (serial : Nat) (_surface : Handle)
    (surface_x surface_y : Int) : client_state :=
  let pe := st.pointer_event
  let pe := { pe with event_mask := pe.event_mask ||| POINTER_EVENT_ENTER }
  let pe := { pe with serial := serial }
  let pe := { pe with surface_x := surface_x }
  let pe := { pe with surface_y := surface_y }
  { st with pointer_event := pe }

/-- `wl_pointer_leave`. -/
def wl_pointer_leave (st : client_state) (serial : Nat) (_surface : Handle) : client_state :=
  let pe := st.pointer_event
  let pe := { pe with serial := serial }
  let pe := { pe with event_mask := pe.event_mask ||| POINTER_EVENT_LEAVE }
  { st with pointer_event := pe }

/-- `wl_pointer_motion`. -/
def wl_pointer_motion (st : client_state) (time : Nat) (surface_x surface_y : Int) :
    client_state :=
  let pe := st.pointer_event
  let pe := { pe with event_mask := pe.event_mask ||| POINTER_EVENT_MOTION }
  let pe := { pe with time := time }
  let pe := { pe with surface_x := surface_x }
  let pe := { pe with surface_y := surface_y }
  { st with pointer_event := pe }

/-- `wl_pointer_button`. -/
def wl_pointer_button (st : client_state) (serial time button state : Nat) : client_state :=
  let pe := st.pointer_event
  let pe := { pe with event_mask := pe.event_mask ||| POINTER_EVENT_BUTTON }
  let pe := { pe with time := time }
  let pe := { pe with serial := serial }
  let pe := { pe with button := button }
  let pe := { pe with state := state }
  { st with pointer_event := pe }

/-- `wl_pointer_axis`. -/
def wl_pointer_axis (st : client_state) (time axis : Nat) (value : Int) :
    Option client_state :=
  let pe := st.pointer_event
  let pe := { pe with event_mask := pe.event_mask ||| POINTER_EVENT_AXIS }
  let pe := { pe with time := time }
  (set_axis pe axis (fun a => { a with valid := true, value := value })).map
    (fun pe1 => { st with pointer_event := pe1 })

/-- `wl_pointer_axis_source`. -/
def wl_pointer_axis_source (st : client_state) (axis_source : Nat) : client_state :=
  let pe := st.pointer_event
  let pe := { pe with event_mask := pe.event_mask ||| POINTER_EVENT_AXIS_SOURCE }
  let pe := { pe with axis_source := axis_source }
  { st with pointer_event := pe }

/-- `wl_pointer_axis_stop`. -/
def wl_pointer_axis_stop (st : client_state) (time axis : Nat) : Option client_state :=
  let pe := st.pointer_event
  let pe := { pe with time := time }
  let pe := { pe with event_mask := pe.event_mask ||| POINTER_EVENT_AXIS_STOP }
  (set_axis pe axis (fun a => { a with valid := true })).map
    (fun pe1 => { st with pointer_event := pe1 })

/-- `wl_pointer_axis_discrete`. -/
def wl_pointer_axis_discrete (st : client_state) (axis : Nat) (discrete : Int) :
    Option client_state :=
  let pe := st.pointer_event
  let pe := { pe with event_mask := pe.event_mask ||| POINTER_EVENT_AXIS_DISCRETE }
  (set_axis pe axis (fun a => { a with valid := true, discrete := discrete })).map
    (fun pe1 => { st with pointer_event := pe1 })

/-- `WL_POINTER_BUTTON_STATE_RELEASED`. -/
def WL_POINTER_BUTTON_STATE_RELEASED : Nat := 0

/-- One `fprintf(stderr, ...)` of `wl_pointer_frame`, with the values it
formats.  Positions and axis values are the `wl_fixed_t` passed to
`wl_fixed_to_double`; a name is the entry of its table. -/
inductive Print
  | frame_at (time : Nat)
  | entered (surface_x surface_y : Int)
  | leave
  | motion (surface_x surface_y : Int)
  | button (button : Nat) (state : String)
  | axis (name : Option String)
  | value (value : Int)
  | discrete (discrete : Int)
  | via (name : Option String)
  | stopped
  | newline
  deriving DecidableEq, Repr

/-- The table `axis_name[2]` of `wl_pointer_frame`. -/
def axis_name : Nat → Option String
  | 0 => some "vertical"
  | 1 => some "horizontal"
  | _ => none

/-- The table `axis_source[4]` of `wl_pointer_frame`; `none` outside it. -/
def axis_source_name : Nat → Option String
  | 0 => some "wheel"
  | 1 => some "finger"
  | 2 => some "continuous"
  | 3 => some "wheel tilt"
  | _ => none

/-- The body of `for (size_t i = 0; i < 2; ++i)` in `wl_pointer_frame` for the
entry `a = event->axes[i]`.  The read `axis_source[event->axis_source]` is not
checked: outside the table the handler has no defined behaviour, `none`. -/
def print_axis (event : pointer_event) (i : Nat) (a : axis_entry) : Option (List Print) :=
  if a.valid = false then some []
  else if event.event_mask &&& POINTER_EVENT_AXIS_SOURCE ≠ 0 ∧
      axis_source_name event.axis_source = none then none
  else
    some
      ([Print.axis (axis_name i)] ++
      (if event.event_mask &&& POINTER_EVENT_AXIS ≠ 0 then [Print.value a.value] else []) ++
      (if event.event_mask &&& POINTER_EVENT_AXIS_DISCRETE ≠ 0 then [Print.discrete a.discrete]
        else []) ++
      (if event.event_mask &&& POINTER_EVENT_AXIS_SOURCE ≠ 0 then
        [Print.via (axis_source_name event.axis_source)] else []) ++
      (if event.event_mask &&& POINTER_EVENT_AXIS_STOP ≠ 0 then [Print.stopped] else []))

/-- The loop over the two axes in `wl_pointer_frame`, entered when one of the
four axis bits is set. -/
def print_axes (event : pointer_event) : Option (List Print) :=
  let axis_events :=
    POINTER_EVENT_AXIS ||| POINTER_EVENT_AXIS_SOURCE ||| POINTER_EVENT_AXIS_STOP |||
      POINTER_EVENT_AXIS_DISCRETE
  if event.event_mask &&& axis_events ≠ 0 then
    match print_axis event 0 event.axes0 with
    | none => none
    | some first =>
      match print_axis event 1 event.axes1 with
      | none => none
      | some second => some (first ++ second)
  else
    some []

/-- What `wl_pointer_frame` prints for the accumulated `event`; `none` when it
reads outside the table of the axis sources. -/
def print_frame (event : pointer_event) : Option (List Print) :=
  match print_axes event with
  | none => none
  | some axes =>
    some
      ([Print.frame_at event.time] ++
      (if event.event_mask &&& POINTER_EVENT_ENTER ≠ 0 then
        [Print.entered event.surface_x event.surface_y] else []) ++
      (if event.event_mask &&& POINTER_EVENT_LEAVE ≠ 0 then [Print.leave] else []) ++
      (if event.event_mask &&& POINTER_EVENT_MOTION ≠ 0 then
        [Print.motion event.surface_x event.surface_y] else []) ++
      (if event.event_mask &&& POINTER_EVENT_BUTTON ≠ 0 then
        [Print.button event.button
          (if event.state = WL_POINTER_BUTTON_STATE_RELEASED then "released" else "pressed")]
        else []) ++
      axes ++
      [Print.newline])

/-- `wl_pointer_frame`: prints the accumulated event and then clears the
accumulator.  Returns the state after and what was printed; `none` when the
printing reads outside the table of the axis sources, which comes before the
`memset`. -/
def wl_pointer_frame (st : client_state) : Option (client_state × List Print) :=
  let event := st.pointer_event
  match print_frame event with
  | none => none
  | some printed => some ({ st with pointer_event := pointer_event_zero }, printed)

/-- The handler `wl_pointer_frame` reads `axis_source[event->axis_source]`: one
of the axis bits is set, an axis is valid and the AXIS_SOURCE bit is set. -/
def reads_axis_source (event : pointer_event) : Bool :=
  decide (event.event_mask &&&
    (POINTER_EVENT_AXIS ||| POINTER_EVENT_AXIS_SOURCE ||| POINTER_EVENT_AXIS_STOP |||
      POINTER_EVENT_AXIS_DISCRETE) ≠ 0) &&
  (event.axes0.valid || event.axes1.valid) &&
  decide (event.event_mask &&& POINTER_EVENT_AXIS_SOURCE ≠ 0)

/-- The pointer events the listener of `pnt_events.cpp` handles. -/
inductive PointerEvent
  | enter (serial : Nat) (surface : Handle) (surface_x surface_y : Int)
  | leave (serial : Nat) (surface : Handle)
  | motion (time : Nat) (surface_x surface_y : Int)
  | button (serial time button state : Nat)
  | axis (time axis : Nat) (value : Int)
  | frame
  | axis_source (axis_source : Nat)
  | axis_stop (time axis : Nat)
  | axis_discrete (axis : Nat) (discrete : Int)
  deriving DecidableEq, Repr

/-- One pointer event handled by `wl_pointer_listener`: the state after and the
lines printed, or `none` when the handler has no defined behaviour. -/
def pointer_dispatch (st : client_state) : PointerEvent → Option (client_state × List Print)
  | PointerEvent.enter serial surface x y => some (wl_pointer_enter st serial surface x y, [])
  | PointerEvent.leave serial surface => some (wl_pointer_leave st serial surface, [])
  | PointerEvent.motion time x y => some (wl_pointer_motion st time x y, [])
  | PointerEvent.button serial time button state =>
    some (wl_pointer_button st serial time button state, [])
  | PointerEvent.axis time axis value => (wl_pointer_axis st time axis value).map (fun s => (s, []))
  | PointerEvent.frame => wl_pointer_frame st
  | PointerEvent.axis_source src => some (wl_pointer_axis_source st src, [])
  | PointerEvent.axis_stop time axis => (wl_pointer_axis_stop st time axis).map (fun s => (s, []))
  | PointerEvent.axis_discrete axis discrete =>
    (wl_pointer_axis_discrete st axis discrete).map (fun s => (s, []))

/-- A sequence of pointer events handled in order: the state after and
everything printed. -/
def pointer_run : client_state → List PointerEvent → Option (client_state × List Print)
  | st, [] => some (st, [])
  | st, e :: rest =>
    match pointer_dispatch st e with
    | none => none
    | some (st1, printed) =>
      match pointer_run st1 rest with
      | none => none
      | some (st2, printed2) => some (st2, printed ++ printed2)

/-! ## Properties of request streams -/

/-- The request is one of the three `draw_frame` sends to create a buffer. -/
def is_buffer_creation : Request → Bool
  | Request.create_pool _ _ _ _ => true
  | Request.create_buffer _ _ _ _ _ _ _ => true
  | Request.pool_destroy _ => true
  | _ => false

/-- The request creates or destroys a frame-callback token. -/
def is_token_request : Request → Bool
  | Request.frame _ _ => true
  | Request.callback_destroy _ => true
  | _ => false

/-- The request asks for a frame callback. -/
def is_frame : Request → Bool
  | Request.frame _ _ => true
  | _ => false

/-- Some frame-callback request comes after a commit in `reqs`. -/
def frame_after_commit : List Request → Bool
  | [] => false
  | Request.commit _ :: rest => rest.any is_frame || frame_after_commit rest
  | _ :: rest => frame_after_commit rest

/-- The request attaches a buffer, not `NULL`, to a surface. -/
def is_buffer_attach : Request → Bool
  | Request.attach _ buffer _ _ => decide (buffer ≠ 0)
  | _ => false

/-- The number of frame buffers the requests `reqs` attach. -/
def frames_in (reqs : List Request) : Nat :=
  (reqs.filter is_buffer_attach).length

/-- One frame in flight: `since` frame buffers were attached and committed
since the last firing of a frame callback; handling `evs` from `w` never brings
that count above one.  A firing starts the count anew. -/
def frame.in_flight : Client → Nat → List (Os × Event) → Bool
  | _, _, [] => true
  | w, since, oe :: rest =>
    let w1 := frame.dispatch oe.1 w oe.2
    let since1 :=
      (match oe.2 with
        | Event.frame_done _ _ => 0
        | _ => since) + frames_in (emitted w w1)
    decide (since1 ≤ 1) && frame.in_flight w1 since1 rest

/-- The colour the loop body of `draw_frame` stores for pixel `(x, y)`. -/
def pixel_colour (offset : Int) (x y : Nat) : Nat :=
  if Int.tmod (((x : Int) + offset) + Int.tdiv ((y : Int) + offset) 8 * 8) 16 < 8 then 0xFF666666
  else 0xFFEEEEEE

/-! ## Sample inputs -/

/-- An operating system on which every call succeeds. -/
def os_ok : Os :=
  { clock := fun _ => 0, shm_open := fun _ _ => ⟨3, Errno.other⟩, ftruncate_eintr := 0,
    ftruncate_last := ⟨0, Errno.other⟩, mmap_ok := true }

/-- An operating system on which `shm_open` fails. -/
def os_fail : Os :=
  { clock := fun _ => 0, shm_open := fun _ _ => ⟨-1, Errno.other⟩, ftruncate_eintr := 0,
    ftruncate_last := ⟨0, Errno.other⟩, mmap_ok := true }

/-- A registry that announces the three globals `frame.cpp` binds. -/
def sample_globals : List Global :=
  [⟨1, "wl_shm", 1⟩, ⟨2, "wl_compositor", 4⟩, ⟨3, "xdg_wm_base", 2⟩]

/-- The client of `frame.cpp` as `main` leaves it before the dispatch loop: the
surface is object 6, the xdg surface 7, the frame callback 9. -/
def sample_client : Client :=
  frame.main_startup true sample_globals

/-- The sample client with animation phase `phase`. -/
def sample_client_phase (phase : ℚ) : Client :=
  { sample_client with state := { sample_client.state with offset := phase } }

/-- Four events after start-up: a configure, the firing of callback 9, the
release of buffer 11, and the firing of callback 12 while `shm_open` fails. -/
def sample_events : List (Os × Event) :=
  [(os_ok, Event.configure 5), (os_ok, Event.frame_done 9 100),
   (os_ok, Event.buffer_release 11), (os_fail, Event.frame_done 12 116)]

/-! ## Seat, registry and start-up of `pnt_events.cpp` (357-428) -/

/-- `WL_SEAT_CAPABILITY_POINTER`. -/
def WL_SEAT_CAPABILITY_POINTER : Nat := 1

/-- `wl_seat_capabilities`.  The pointer is requested on `state->wl_seat`. -/
def wl_seat_capabilities (w : Client) (_wl_seat : Handle) (capabilities : Nat) : Client :=
  let have_pointer : Bool := decide (capabilities &&& WL_SEAT_CAPABILITY_POINTER ≠ 0)
  if have_pointer = true ∧ w.state.wl_pointer = 0 then
    { w with
      state := { w.state with wl_pointer := w.objects + 1 }
      objects := w.objects + 1
      out := w.out ++ [Request.get_pointer w.state.wl_seat (w.objects + 1)] }
  else if have_pointer = false ∧ w.state.wl_pointer ≠ 0 then
    { w with
      state := { w.state with wl_pointer := 0 }
      out := w.out ++ [Request.pointer_release w.state.wl_pointer] }
  else
    w

/-- `registry_global` of `pnt_events.cpp`. -/
def pnt_events.registry_global (w : Client) (wl_registry : Handle) (name : Nat)
    (interface : String) (_version : Nat) : Client :=
  if interface = "wl_shm" then
    { w with
      state := { w.state with wl_shm := w.objects + 1 }
      objects := w.objects + 1
      out := w.out ++ [Request.registry_bind wl_registry name "wl_shm" 1 (w.objects + 1)] }
  else if interface = "wl_compositor" then
    { w with
      state := { w.state with wl_compositor := w.objects + 1 }
      objects := w.objects + 1
      out := w.out ++ [Request.registry_bind wl_registry name "wl_compositor" 4 (w.objects + 1)] }
  else if interface = "xdg_wm_base" then
    { w with
      state := { w.state with xdg_wm_base := w.objects + 1 }
      objects := w.objects + 1
      out := w.out ++ [Request.registry_bind wl_registry name "xdg_wm_base" 1 (w.objects + 1)] }
  else if interface = "wl_seat" then
    { w with
      state := { w.state with wl_seat := w.objects + 1 }
      objects := w.objects + 1
      out := w.out ++ [Request.registry_bind wl_registry name "wl_seat" 5 (w.objects + 1)] }
  else
    w

/-- The announcements `globals` delivered in order to `registry_global` of
`frame.cpp`. -/
def frame.announce (w : Client) (globals : List Global) : Client :=
  globals.foldl
    (fun v g => frame.registry_global v v.state.wl_registry g.name g.interface g.version) w

/-- The announcements `globals` delivered in order to `registry_global` of
`pnt_events.cpp`. -/
def pnt_events.announce (w : Client) (globals : List Global) : Client :=
  globals.foldl
    (fun v g => pnt_events.registry_global v v.state.wl_registry g.name g.interface g.version) w

/-- `main` of `pnt_events.cpp` up to the dispatch loop: the text of `main` in
`frame.cpp`, with the registry listener of `pnt_events.cpp`. -/
def pnt_events.main_startup (connected : Bool) (globals : List Global) : Client :=
  let w2 : Client := pnt_events.announce (frame.main_connect connected) globals
  let w3 : Client :=
    { w2 with
      state := { w2.state with wl_surface := w2.objects + 1 }
      objects := w2.objects + 1
      out := w2.out ++ [Request.create_surface w2.state.wl_compositor (w2.objects + 1)] }
  let w4 : Client :=
    { w3 with
      state := { w3.state with xdg_surface := w3.objects + 1 }
      objects := w3.objects + 1
      out := w3.out ++
        [Request.get_xdg_surface w3.state.xdg_wm_base w3.state.wl_surface (w3.objects + 1)] }
  let w5 : Client :=
    { w4 with
      state := { w4.state with xdg_toplevel := w4.objects + 1 }
      objects := w4.objects + 1
      out := w4.out ++ [Request.get_toplevel w4.state.xdg_surface (w4.objects + 1)] }
  let w6 : Client :=
    { w5 with
      out := w5.out ++
        [Request.set_title w5.state.xdg_toplevel "Example client",
         Request.commit w5.state.wl_surface] }
  { w6 with
    objects := w6.objects + 1
    out := w6.out ++ [Request.frame w6.state.wl_surface (w6.objects + 1)] }

/-! ## The dispatch loop of `main` (`frame.cpp` 218-222, `pnt_events.cpp` 430-434) -/

/-- The loop `while (wl_display_dispatch(state.wl_display)) { }` followed by
`return 0`, over the values the successive calls of `wl_display_dispatch`
return (the number of events dispatched, or `-1`).  The result is the number
of calls made and the value `main` returned, `none` while the loop is still
running when the listed returns are used up. -/
def main_dispatch_loop : List Int → Nat × Option Int
  | [] => (0, none)
  | r :: rest =>
    if r ≠ 0 then
      ((main_dispatch_loop rest).1 + 1, (main_dispatch_loop rest).2)
    else
      (1, some 0)

/-- The firings of the frame callback `fs` (the answers of the operating
system, the callback and the timestamp of each) handled in order by
`wl_surface_frame_done`. -/
def fire (w : Client) (fs : List (Os × Handle × Nat)) : Client :=
  fs.foldl (fun v f => wl_surface_frame_done f.1 v f.2.1 f.2.2) w

/-- The phase after the firings with the timestamps `ts`, in order, from the
phase `phase` and the recorded timestamp `last`: each firing adds the time
elapsed since the one before with `phase_add`. -/
def phase_steps : ℚ → Nat → List Nat → ℚ
  | phase, _, [] => phase
  | phase, last, t :: ts => phase_steps (phase_add phase ((t : Int) - (last : Int))) t ts

/-! ## `egl_window.cpp` -/

/-- `struct client_state` of `egl_window.cpp`.  The EGL objects are handles. -/
structure egl_window.client_state where
  wl_display : Handle
  wl_registry : Handle
  wl_shm : Handle
  wl_compositor : Handle
  xdg_wm_base : Handle
  wl_surface : Handle
  xdg_surface : Handle
  xdg_toplevel : Handle
  egl_window : Handle
  region : Handle
  native_display : Handle
  native_window : Handle
  window_width : Nat
  window_height : Nat
  display : Handle
  context : Handle
  surface : Handle
  program_alive : Bool
  old_w : Int
  old_h : Int
  deriving DecidableEq, Repr

/-- The state after `struct client_state state = {0}` in `egl_window.cpp`. -/
def egl_window.client_state_zero : egl_window.client_state :=
  { wl_display := 0, wl_registry := 0, wl_shm := 0, wl_compositor := 0, xdg_wm_base := 0,
    wl_surface := 0, xdg_surface := 0, xdg_toplevel := 0, egl_window := 0, region := 0,
    native_display := 0, native_window := 0, window_width := 0, window_height := 0,
    display := 0, context := 0, surface := 0, program_alive := false, old_w := 0, old_h := 0 }

/-- The world of the `egl_window.cpp` client. -/
abbrev egl_window.Client := World egl_window.client_state

/-- `xdg_toplevel_handle_configure`; the array `states` is not read. -/
def egl_window.xdg_toplevel_handle_configure (v : egl_window.Client) (_xdg_toplevel : Handle)
    (w h : Int) (_states : List Nat) : egl_window.Client :=
  if w = 0 ∧ h = 0 then
    v
  else if v.state.old_w ≠ w ∧ v.state.old_h ≠ h then
    { v with
      state := { v.state with old_w := w, old_h := h }
      out := v.out ++
        [Request.egl_window_resize v.state.native_window w h 0 0,
         Request.commit v.state.wl_surface] }
  else
    v

/-- `xdg_toplevel_handle_close`. -/
def egl_window.xdg_toplevel_handle_close (v : egl_window.Client) (_xdg_toplevel : Handle) :
    egl_window.Client :=
  { v with state := { v.state with program_alive := false } }

/-- `global_registry_handler` of `egl_window.cpp` (what it prints is not
modelled). -/
def egl_window.global_registry_handler (v : egl_window.Client) (registry : Handle) (id : Nat)
    (interface : String) (_version : Nat) : egl_window.Client :=
  if interface = "wl_compositor" then
    { v with
      state := { v.state with wl_compositor := v.objects + 1 }
      objects := v.objects + 1
      out := v.out ++ [Request.registry_bind registry id "wl_compositor" 1 (v.objects + 1)] }
  else if interface = "xdg_wm_base" then
    { v with
      state := { v.state with xdg_wm_base := v.objects + 1 }
      objects := v.objects + 1
      out := v.out ++ [Request.registry_bind registry id "xdg_wm_base" 1 (v.objects + 1)] }
  else
    v

/-- The ways start-up of `egl_window.cpp` ends in `exit(1)`, named by the
message printed before. -/
inductive egl_window.Exit
  | cannot_connect
  | no_compositor_or_xdg
  | no_compositor_surface
  deriving DecidableEq, Repr

/-- `get_server_references`: the display is object 1, the registry object 2;
`globals` are the announcements delivered by the dispatch and the round-trip.
An error is `exit(1)`, with the world at that point. -/
def egl_window.get_server_references (connected : Bool) (globals : List Global)
    (v : egl_window.Client) : Except (egl_window.Exit × egl_window.Client) egl_window.Client :=
  if connected = false then
    Except.error (egl_window.Exit.cannot_connect, v)
  else
    let display : Handle := v.objects + 1
    let wl_registry : Handle := v.objects + 2
    let v1 : egl_window.Client :=
      { v with
        objects := v.objects + 2
        out := v.out ++ [Request.get_registry display wl_registry] }
    let v2 : egl_window.Client :=
      globals.foldl
        (fun u g => egl_window.global_registry_handler u wl_registry g.name g.interface g.version)
        v1
    if v2.state.wl_compositor = 0 ∨ v2.state.xdg_wm_base = 0 then
      Except.error (egl_window.Exit.no_compositor_or_xdg, v2)
    else
      Except.ok { v2 with state := { v2.state with native_display := display } }

/-- `main` of `egl_window.cpp` up to the first commit (259-277); the creation
of the EGL window and context that follows is outside the model.
`surface_created` tells whether `wl_compositor_create_surface` returned a
surface. -/
def egl_window.main_startup (connected : Bool) (globals : List Global)
    (surface_created : Bool) :
    Except (egl_window.Exit × egl_window.Client) egl_window.Client :=
  let v0 : egl_window.Client :=
    { state := egl_window.client_state_zero, objects := 0, out := [], sys := [] }
  match egl_window.get_server_references connected globals v0 with
  | Except.error e => Except.error e
  | Except.ok v1 =>
    let v2 : egl_window.Client :=
      { v1 with
        state := { v1.state with wl_surface := if surface_created then v1.objects + 1 else 0 }
        objects := v1.objects + 1
        out := v1.out ++ [Request.create_surface v1.state.wl_compositor (v1.objects + 1)] }
    if v2.state.wl_surface = 0 then
      Except.error (egl_window.Exit.no_compositor_surface, v2)
    else
      let v3 : egl_window.Client :=
        { v2 with
          state := { v2.state with xdg_surface := v2.objects + 1 }
          objects := v2.objects + 1
          out := v2.out ++
            [Request.get_xdg_surface v2.state.xdg_wm_base v2.state.wl_surface
              (v2.objects + 1)] }
      let v4 : egl_window.Client :=
        { v3 with
          state := { v3.state with xdg_toplevel := v3.objects + 1 }
          objects := v3.objects + 1
          out := v3.out ++ [Request.get_toplevel v3.state.xdg_surface (v3.objects + 1)] }
      Except.ok
        { v4 with
          out := v4.out ++
            [Request.set_title v4.state.xdg_toplevel "Wayland EGL example",
             Request.commit v4.state.wl_surface] }

/-! ## Properties of traces -/

/-- The request binds the interface `tag`. -/
def is_bind_of (tag : String) : Request → Bool
  | Request.registry_bind _ _ interface _ _ => decide (interface = tag)
  | _ => false

/-- The number of bind requests for `tag` among `reqs`. -/
def binds_of (tag : String) (reqs : List Request) : Nat :=
  (reqs.filter (is_bind_of tag)).length

/-- The number of announcements of the interface `tag` among `globals`. -/
def announced (tag : String) (globals : List Global) : Nat :=
  (globals.filter (fun g => decide (g.interface = tag))).length

/-- The interfaces `registry_global` of `frame.cpp` binds. -/
def frame.needed : List String :=
  ["wl_shm", "wl_compositor", "xdg_wm_base"]

/-- The interfaces `registry_global` of `pnt_events.cpp` binds. -/
def pnt_events.needed : List String :=
  ["wl_shm", "wl_compositor", "xdg_wm_base", "wl_seat"]

/-- The request creates a surface. -/
def is_create_surface : Request → Bool
  | Request.create_surface _ _ => true
  | _ => false

/-- The system call is an exclusive create, `shm_open`. -/
def is_shm_open : Syscall → Bool
  | Syscall.shm_open _ => true
  | _ => false

/-- The system call is a resize, `ftruncate`. -/
def is_ftruncate : Syscall → Bool
  | Syscall.ftruncate _ _ => true
  | _ => false

/-- The system calls of `k` failed attempts of `create_shm_file`, the first
being attempt number `start`. -/
def failed_attempts (os : Os) : Nat → Nat → List Syscall
  | 0, _ => []
  | k + 1, start =>
    [Syscall.clock_gettime, Syscall.shm_open (shm_name (os.clock start))] ++
      failed_attempts os k (start + 1)

/-- An operating system on which every `shm_open` reports that the name
exists. -/
def os_eexist : Os :=
  { clock := fun k => k, shm_open := fun _ _ => ⟨-1, Errno.EEXIST⟩, ftruncate_eintr := 0,
    ftruncate_last := ⟨0, Errno.other⟩, mmap_ok := true }

/-- An operating system on which the first two names exist and the third
`shm_open` returns descriptor 5. -/
def os_third : Os :=
  { clock := fun k => k
    shm_open := fun k _ => if k < 2 then ⟨-1, Errno.EEXIST⟩ else ⟨5, Errno.other⟩
    ftruncate_eintr := 0, ftruncate_last := ⟨0, Errno.other⟩, mmap_ok := true }

/-- The client of `pnt_events.cpp` after start-up on a registry that also
announces a seat (object 6); the surface is object 7. -/
def sample_pointer_client : Client :=
  pnt_events.main_startup true (sample_globals ++ [⟨4, "wl_seat", 7⟩])

/-- The client of `egl_window.cpp` with a native window (object 9) of the
recorded size 1280 x 720 on surface 5. -/
def sample_egl_client : egl_window.Client :=
  { state :=
      { egl_window.client_state_zero with
        wl_compositor := 3, xdg_wm_base := 4, wl_surface := 5, xdg_surface := 6,
        xdg_toplevel := 7, native_display := 1, native_window := 9, window_width := 1280,
        window_height := 720, program_alive := true, old_w := 1280, old_h := 720 }
    objects := 9
    out := []
    sys := [] }

/-! ## The axis handlers with the out-of-bounds store made explicit -/

/-- What a handler that stores through `axes[axis]` does: it makes its stores
inside the array and returns with the state `st`, or it comes to a store
outside the array `axes[2]`, `st` being the state it has written by then; what
that store does, and what follows it, C does not define.  The handlers have no
other path: they print nothing and report nothing. -/
inductive AxisOutcome
  | returned (st : client_state)
  | out_of_bounds (st : client_state)
  deriving DecidableEq

/-- The stores through `axes[axis]` on the accumulator `pe` of `st`. -/
def axis_outcome (st : client_state) (pe : pointer_event) (axis : Nat)
    (f : axis_entry → axis_entry) : AxisOutcome :=
  match set_axis pe axis f with
  | some pe1 => AxisOutcome.returned { st with pointer_event := pe1 }
  | none => AxisOutcome.out_of_bounds { st with pointer_event := pe }

/-- `wl_pointer_axis`, with its outcome. -/
def wl_pointer_axis_outcome (st : client_state) (time axis : Nat) (value : Int) : AxisOutcome :=
  let pe := st.pointer_event
  let pe := { pe with event_mask := pe.event_mask ||| POINTER_EVENT_AXIS }
  let pe := { pe with time := time }
  axis_outcome st pe axis (fun a => { a with valid := true, value := value })

/-- `wl_pointer_axis_stop`, with its outcome. -/
def wl_pointer_axis_stop_outcome (st : client_state) (time axis : Nat) : AxisOutcome :=
  let pe := st.pointer_event
  let pe := { pe with time := time }
  let pe := { pe with event_mask := pe.event_mask ||| POINTER_EVENT_AXIS_STOP }
  axis_outcome st pe axis (fun a => { a with valid := true })

/-- `wl_pointer_axis_discrete`, with its outcome. -/
def wl_pointer_axis_discrete_outcome (st : client_state) (axis : Nat) (discrete : Int) :
    AxisOutcome :=
  let pe := st.pointer_event
  let pe := { pe with event_mask := pe.event_mask ||| POINTER_EVENT_AXIS_DISCRETE }
  axis_outcome st pe axis (fun a => { a with valid := true, discrete := discrete })

/-- The state a handler returned with, if it returned. -/
def AxisOutcome.result : AxisOutcome → Option client_state
  | AxisOutcome.returned st => some st
  | AxisOutcome.out_of_bounds _ => none

/-! ## The encoding of `randname` -/

/-- The character that encodes five bits `bits` of the timestamp:
`'A' + (bits & 15) + 32 * bit4`. -/
def name_char (bits : Nat) : Char :=
  Char.ofNat (65 + bits % 16 + 32 * (bits / 16))

/-! ## Requests of the handlers -/

theorem emitted_append {σ : Type} (w w1 : World σ) (l : List Request)
    (h : w1.out = w.out ++ l) : emitted w w1 = l := by
  simp [emitted, h]

/-- The two outcomes of `draw_frame`: no buffer and nothing sent, or a new
buffer with the pixels of the current phase and three requests sent. -/
theorem draw_frame_cases (os : Os) (w : Client) :
    ((draw_frame os w).1 = 0 ∧ (draw_frame os w).2.2.out = w.out ∧
      (draw_frame os w).2.2.objects = w.objects ∧ (draw_frame os w).2.2.state = w.state) ∨
    ((draw_frame os w).1 = w.objects + 2 ∧
      (draw_frame os w).2.1 = draw_pixels w.state.offset ∧
      (∃ fd : Int, (draw_frame os w).2.2.out = w.out ++
        [Request.create_pool w.state.wl_shm fd 1228800 (w.objects + 1),
         Request.create_buffer (w.objects + 1) 0 640 480 2560 WL_SHM_FORMAT_XRGB8888
           (w.objects + 2),
         Request.pool_destroy (w.objects + 1)]) ∧
      (draw_frame os w).2.2.objects = w.objects + 2 ∧ (draw_frame os w).2.2.state = w.state) := by
  unfold draw_frame
  simp only []
  split
  · left; simp
  · split
    · left; simp
    · right
      refine ⟨by simp, by simp, ⟨(allocate_shm_file os (640 * 4 * 480)).1, ?_⟩, by simp, by simp⟩
      simp

/-- What `draw_frame` sends: nothing, or the requests that create the buffer. -/
theorem draw_frame_out (os : Os) (w : Client) :
    ∃ mid, (draw_frame os w).2.2.out = w.out ++ mid ∧ (∀ r ∈ mid, is_buffer_creation r = true) ∧
      (draw_frame os w).2.2.state = w.state ∧ ((draw_frame os w).1 = 0 → mid = []) := by
  rcases draw_frame_cases os w with ⟨_, h2, _, h4⟩ | ⟨h1, _, ⟨fd, h2⟩, _, h4⟩
  · exact ⟨[], by simp [h2], by simp, h4, fun _ => rfl⟩
  · refine ⟨_, h2, ?_, h4, fun h => by simp [h1] at h⟩
    intro r hr
    simp at hr
    rcases hr with rfl | rfl | rfl <;> rfl

/-- Whether `draw_frame` yields a buffer depends on the operating system only. -/
theorem draw_frame_null (os : Os) (w v : Client) (h : (draw_frame os w).1 = 0) :
    (draw_frame os v).1 = 0 := by
  unfold draw_frame at h ⊢
  simp only [] at h ⊢
  split at h
  · rename_i h1; simp [h1]
  · rename_i h1
    split at h
    · rename_i h2; simp [h1, h2]
    · simp at h

theorem xdg_surface_configure_out (os : Os) (w : Client) (xs : Handle) (s : Nat) :
    ∃ mid buffer, (xdg_surface_configure os w xs s).out = w.out ++
      (Request.ack_configure xs s ::
        (mid ++ [Request.attach w.state.wl_surface buffer 0 0,
          Request.commit w.state.wl_surface]))
      ∧ (∀ r ∈ mid, is_buffer_creation r = true)
      ∧ ((draw_frame os w).1 = 0 → mid = [] ∧ buffer = 0) := by
  obtain ⟨mid, h1, h2, h3, h5⟩ :=
    draw_frame_out os { w with out := w.out ++ [Request.ack_configure xs s] }
  refine ⟨mid, (draw_frame os { w with out := w.out ++ [Request.ack_configure xs s] }).1,
    ?_, h2, fun h => ⟨h5 (draw_frame_null os w _ h), draw_frame_null os w _ h⟩⟩
  simp only [xdg_surface_configure, h1, h3]
  simp

theorem wl_surface_frame_done_out (os : Os) (w : Client) (cb : Handle) (time : Nat) :
    ∃ mid buffer, (wl_surface_frame_done os w cb time).out = w.out ++
      (Request.callback_destroy cb :: Request.frame w.state.wl_surface (w.objects + 1) ::
        (mid ++ [Request.attach w.state.wl_surface buffer 0 0,
          Request.damage_buffer w.state.wl_surface 0 0 INT32_MAX INT32_MAX,
          Request.commit w.state.wl_surface]))
      ∧ (∀ r ∈ mid, is_buffer_creation r = true)
      ∧ ((draw_frame os w).1 = 0 → mid = [] ∧ buffer = 0) := by
  unfold wl_surface_frame_done
  simp only []
  generalize hw3 : (if w.state.last_frame ≠ 0 then _ else _ : Client) = w3
  have hout : w3.out = w.out ++ [Request.callback_destroy cb,
      Request.frame w.state.wl_surface (w.objects + 1)] := by
    subst hw3; split <;> simp
  have hsurf : w3.state.wl_surface = w.state.wl_surface := by
    subst hw3; split <;> simp
  obtain ⟨mid, h1, h2, h3, h5⟩ := draw_frame_out os w3
  refine ⟨mid, (draw_frame os w3).1, ?_, h2,
    fun h => ⟨h5 (draw_frame_null os w _ h), draw_frame_null os w _ h⟩⟩
  simp [h1, h3, hout, hsurf]

theorem frame_after_commit_creation (mid l : List Request)
    (h : ∀ r ∈ mid, is_buffer_creation r = true) :
    frame_after_commit (mid ++ l) = frame_after_commit l := by
  induction mid with
  | nil => rfl
  | cons r mid ih =>
    have hr : is_buffer_creation r = true := h r (by simp)
    have ih1 := ih (fun x hx => h x (by simp [hx]))
    cases r <;> simp [is_buffer_creation] at hr <;> simpa [frame_after_commit] using ih1

theorem outstanding_append (a b : List Request) :
    outstanding (a ++ b) = b.foldl track (outstanding a) := by
  simp [outstanding, List.foldl_append]

/-- C1: for every configure serial, `xdg_surface_configure` of the frame and
pointer clients sends `ack_configure` with exactly that serial as its first
request; the requests that create the buffer, the attach at (0,0) and the
commit all come after it.  `xdg_surface_configure` of `egl_window.cpp` sends
the acknowledgement and nothing else. -/
theorem xdg_surface_configure_acks_first (os : Os) (w : Client) (xdg_surface : Handle)
    (serial : Nat) {σ : Type} (v : World σ) :
    (∃ mid buffer, emitted w (xdg_surface_configure os w xdg_surface serial) =
        Request.ack_configure xdg_surface serial ::
          (mid ++ [Request.attach w.state.wl_surface buffer 0 0,
            Request.commit w.state.wl_surface]) ∧
        ∀ r ∈ mid, is_buffer_creation r = true) ∧
    emitted v (egl_window.xdg_surface_configure v xdg_surface serial) =
      [Request.ack_configure xdg_surface serial] := by
  constructor
  · obtain ⟨mid, buffer, h1, h2, _⟩ := xdg_surface_configure_out os w xdg_surface serial
    exact ⟨mid, buffer, emitted_append _ _ _ h1, h2⟩
  · exact emitted_append _ _ _ rfl

/-- C2, as stated, fails: when callback 9 of the sample client fires, the new
token (object 10) is requested right after the destroy, before the attach, the
damage and the commit, and no frame-callback request follows the commit. -/
theorem wl_surface_frame_done_rerequest_not_after_commit :
    emitted sample_client (wl_surface_frame_done os_ok sample_client 9 16) =
      [Request.callback_destroy 9, Request.frame 6 10,
       Request.create_pool 3 3 1228800 11,
       Request.create_buffer 11 0 640 480 2560 1 12,
       Request.pool_destroy 11,
       Request.attach 6 12 0 0,
       Request.damage_buffer 6 0 0 2147483647 2147483647,
       Request.commit 6] ∧
    frame_after_commit (emitted sample_client (wl_surface_frame_done os_ok sample_client 9 16))
      = false := by
  decide

/-- `draw_frame` in full: it yields no buffer exactly when the allocation or
the mapping fails; otherwise the buffer is the second new object, created by
the three requests it sends. -/
theorem draw_frame_exact (os : Os) (w : Client) :
    (draw_frame os w).1 =
      (if (allocate_shm_file os 1228800).1 = -1 ∨ os.mmap_ok = false then 0
        else w.objects + 2) ∧
    (draw_frame os w).2.2.out = w.out ++
      (if (allocate_shm_file os 1228800).1 = -1 ∨ os.mmap_ok = false then []
        else
          [Request.create_pool w.state.wl_shm (allocate_shm_file os 1228800).1 1228800
            (w.objects + 1),
           Request.create_buffer (w.objects + 1) 0 640 480 2560 WL_SHM_FORMAT_XRGB8888
            (w.objects + 2),
           Request.pool_destroy (w.objects + 1)]) ∧
    (draw_frame os w).2.2.state = w.state ∧
    (draw_frame os w).2.2.objects =
      (if (allocate_shm_file os 1228800).1 = -1 ∨ os.mmap_ok = false then w.objects
        else w.objects + 2) := by
  unfold draw_frame
  simp only [show (640 : Nat) * 4 * 480 = 1228800 by decide, show (640 : Nat) * 4 = 2560 by decide]
  by_cases h1 : (allocate_shm_file os 1228800).1 = -1
  · simp [h1]
  · by_cases h2 : os.mmap_ok = false
    · simp [h1, h2]
    · simp [h1, h2]

/-- C2, amended: for every firing, `wl_surface_frame_done` sends, in this
order, the destroy of the fired token, the request of the new token, the three
requests by which `draw_frame` creates its buffer (none when the allocation or
the mapping fails), the attach at (0,0) of the buffer `draw_frame` produced
(the one just created, `NULL` when it produced none), the damage of the whole
surface and the commit; the token is requested before the commit and no
frame-callback request follows the commit. -/
theorem wl_surface_frame_done_order (os : Os) (w : Client) (cb : Handle) (time : Nat) :
    emitted w (wl_surface_frame_done os w cb time) =
      Request.callback_destroy cb :: Request.frame w.state.wl_surface (w.objects + 1) ::
        ((if (allocate_shm_file os 1228800).1 = -1 ∨ os.mmap_ok = false then []
          else
            [Request.create_pool w.state.wl_shm (allocate_shm_file os 1228800).1 1228800
              (w.objects + 2),
             Request.create_buffer (w.objects + 2) 0 640 480 2560 WL_SHM_FORMAT_XRGB8888
              (w.objects + 3),
             Request.pool_destroy (w.objects + 2)]) ++
          [Request.attach w.state.wl_surface
            (if (allocate_shm_file os 1228800).1 = -1 ∨ os.mmap_ok = false then 0
              else w.objects + 3) 0 0,
           Request.damage_buffer w.state.wl_surface 0 0 INT32_MAX INT32_MAX,
           Request.commit w.state.wl_surface]) ∧
    (∀ v : Client, (draw_frame os v).1 =
      (if (allocate_shm_file os 1228800).1 = -1 ∨ os.mmap_ok = false then 0
        else v.objects + 2)) ∧
    frame_after_commit (emitted w (wl_surface_frame_done os w cb time)) = false := by
  have hout : (wl_surface_frame_done os w cb time).out = w.out ++
      (Request.callback_destroy cb :: Request.frame w.state.wl_surface (w.objects + 1) ::
        ((if (allocate_shm_file os 1228800).1 = -1 ∨ os.mmap_ok = false then []
          else
            [Request.create_pool w.state.wl_shm (allocate_shm_file os 1228800).1 1228800
              (w.objects + 2),
             Request.create_buffer (w.objects + 2) 0 640 480 2560 WL_SHM_FORMAT_XRGB8888
              (w.objects + 3),
             Request.pool_destroy (w.objects + 2)]) ++
          [Request.attach w.state.wl_surface
            (if (allocate_shm_file os 1228800).1 = -1 ∨ os.mmap_ok = false then 0
              else w.objects + 3) 0 0,
           Request.damage_buffer w.state.wl_surface 0 0 INT32_MAX INT32_MAX,
           Request.commit w.state.wl_surface])) := by
    unfold wl_surface_frame_done
    simp only []
    generalize hw3 : (if w.state.last_frame ≠ 0 then _ else _ : Client) = w3
    have hw3out : w3.out = w.out ++ [Request.callback_destroy cb,
        Request.frame w.state.wl_surface (w.objects + 1)] := by
      subst hw3; split <;> simp
    have hsurf : w3.state.wl_surface = w.state.wl_surface := by
      subst hw3; split <;> simp
    have hshm : w3.state.wl_shm = w.state.wl_shm := by
      subst hw3; split <;> simp
    have hobj : w3.objects = w.objects + 1 := by
      subst hw3; split <;> simp
    obtain ⟨e1, e2, e3, _⟩ := draw_frame_exact os w3
    simp only [e1, e2, e3, hw3out, hsurf, hshm, hobj]
    by_cases hc : (allocate_shm_file os 1228800).1 = -1 ∨ os.mmap_ok = false
    · simp [hc]
    · simp [hc]
  refine ⟨emitted_append _ _ _ hout, fun v => (draw_frame_exact os v).1, ?_⟩
  rw [emitted_append _ _ _ hout]
  by_cases hc : (allocate_shm_file os 1228800).1 = -1 ∨ os.mmap_ok = false
  · simp [hc, frame_after_commit]
  · simp [hc, frame_after_commit]

/-! ## Frame-callback tokens -/

theorem foldl_track_quiet (t : List Handle) (l : List Request)
    (h : ∀ r ∈ l, is_token_request r = false) : l.foldl track t = t := by
  induction l generalizing t with
  | nil => rfl
  | cons r l ih =>
    have hr : is_token_request r = false := h r (by simp)
    have hl : ∀ x ∈ l, is_token_request x = false := fun x hx => h x (by simp [hx])
    cases r <;> simp [is_token_request] at hr <;> simpa [track] using ih _ hl

theorem creation_quiet (mid : List Request) (h : ∀ r ∈ mid, is_buffer_creation r = true) :
    ∀ r ∈ mid, is_token_request r = false := by
  intro r hr
  have := h r hr
  cases r <;> simp [is_buffer_creation] at this <;> rfl

theorem filter_quiet (l : List Request) (h : ∀ r ∈ l, is_token_request r = false) :
    l.filter is_token_request = [] := by
  rw [List.filter_eq_nil_iff]
  intro r hr
  simp [h r hr]

/-- The requests of one handled event: none touches a frame-callback token,
except that a firing destroys the fired token and then requests one. -/
theorem dispatch_out (os : Os) (w : Client) (e : Event) :
    ∃ l, (frame.dispatch os w e).out = w.out ++ l ∧
      (((∀ cb t, e ≠ Event.frame_done cb t) ∧ ∀ r ∈ l, is_token_request r = false) ∨
       ∃ cb t rest, e = Event.frame_done cb t ∧
        l = Request.callback_destroy cb :: Request.frame w.state.wl_surface (w.objects + 1) ::
          rest ∧ ∀ r ∈ rest, is_token_request r = false) := by
  cases e with
  | global name interface version =>
    refine ⟨emitted w (frame.dispatch os w (Event.global name interface version)), ?_,
      Or.inl ⟨by simp, ?_⟩⟩
    · simp only [frame.dispatch, frame.registry_global, emitted]
      split_ifs <;> simp
    · simp only [frame.dispatch, frame.registry_global, emitted]
      split_ifs <;> simp [is_token_request]
  | global_remove name =>
    exact ⟨[], by simp [frame.dispatch, registry_global_remove], Or.inl ⟨by simp, by simp⟩⟩
  | ping serial =>
    exact ⟨_, rfl, Or.inl ⟨by simp, by simp [is_token_request]⟩⟩
  | configure serial =>
    obtain ⟨mid, buffer, h1, h2, _⟩ := xdg_surface_configure_out os w w.state.xdg_surface serial
    refine ⟨_, h1, Or.inl ⟨by simp, ?_⟩⟩
    intro r hr
    simp at hr
    rcases hr with rfl | hr | rfl | rfl
    · rfl
    · exact creation_quiet mid h2 r hr
    · rfl
    · rfl
  | frame_done cb time =>
    obtain ⟨mid, buffer, h1, h2, _⟩ := wl_surface_frame_done_out os w cb time
    refine ⟨_, h1, Or.inr ⟨cb, time, _, rfl, rfl, ?_⟩⟩
    intro r hr
    simp at hr
    rcases hr with hr | rfl | rfl | rfl
    · exact creation_quiet mid h2 r hr
    · rfl
    · rfl
    · rfl
  | buffer_release buffer =>
    exact ⟨_, rfl, Or.inl ⟨by simp, by simp [is_token_request]⟩⟩

/-- One handler keeps the single-flight invariant of the request stream. -/
theorem tokens_step (a l : List Request) (hlen : (outstanding a).length = 1)
    (hpre : ∀ n, (outstanding (a.take n)).length ≤ 1)
    (hl : (∀ r ∈ l, is_token_request r = false) ∨
      ∃ cb s id rest, cb ∈ outstanding a ∧
        l = Request.callback_destroy cb :: Request.frame s id :: rest ∧
        ∀ r ∈ rest, is_token_request r = false) :
    (outstanding (a ++ l)).length = 1 ∧ ∀ n, (outstanding ((a ++ l).take n)).length ≤ 1 := by
  have key : ∀ m, ((l.take m).foldl track (outstanding a)).length ≤ 1 ∧
      (l.foldl track (outstanding a)).length = 1 := by
    intro m
    rcases hl with hq | ⟨cb, s, id, rest, hcb, rfl, hq⟩
    · rw [foldl_track_quiet _ _ hq,
        foldl_track_quiet _ _ (fun r hr => hq r (List.mem_of_mem_take hr))]
      omega
    · have herase : ((outstanding a).erase cb).length = 0 := by
        rw [List.length_erase_of_mem hcb, hlen]
      constructor
      · rcases m with _ | _ | m
        · simp; omega
        · simp [track, herase]
        · simp only [List.take_succ_cons, List.foldl_cons, track]
          rw [foldl_track_quiet _ _ (fun r hr => hq r (List.mem_of_mem_take hr))]
          simp [herase]
      · simp only [List.foldl_cons, track]
        rw [foldl_track_quiet _ _ hq]
        simp [herase]
  constructor
  · rw [outstanding_append]; exact (key 0).2
  · intro n
    rw [List.take_append_eq_append_take, outstanding_append]
    by_cases hn : n ≤ a.length
    · have : n - a.length = 0 := by omega
      simp [this, hpre n]
    · have : a.take n = a := List.take_of_length_le (by omega)
      rw [this]
      exact (key _).1

theorem run_single_flight (evs : List (Os × Event)) :
    ∀ w : Client, (outstanding w.out).length = 1 →
      (∀ n, (outstanding (w.out.take n)).length ≤ 1) → frame.valid w evs = true →
      (outstanding (frame.run w evs).out).length = 1 ∧
        ∀ n, (outstanding ((frame.run w evs).out.take n)).length ≤ 1 := by
  induction evs with
  | nil => intro w h1 h2 _; exact ⟨h1, h2⟩
  | cons oe evs ih =>
    intro w h1 h2 hv
    simp only [frame.valid, Bool.and_eq_true] at hv
    obtain ⟨l, hl, hshape⟩ := dispatch_out oe.1 w oe.2
    have hstep := tokens_step w.out l h1 h2 (by
      rcases hshape with ⟨_, hq⟩ | ⟨cb, t, rest, he, hl1, hq⟩
      · exact Or.inl hq
      · refine Or.inr ⟨cb, _, _, rest, ?_, hl1, hq⟩
        have := hv.1
        rw [he] at this
        simpa [deliverable] using this)
    rw [← hl] at hstep
    exact ih (frame.dispatch oe.1 w oe.2) hstep.1 hstep.2 hv.2

theorem registry_fold_out (globals : List Global) :
    ∀ w : Client, ∃ l,
      (globals.foldl
        (fun w g => frame.registry_global w w.state.wl_registry g.name g.interface g.version)
        w).out = w.out ++ l ∧ ∀ r ∈ l, is_token_request r = false := by
  induction globals with
  | nil => intro w; exact ⟨[], by simp, by simp⟩
  | cons g globals ih =>
    intro w
    obtain ⟨l1, h1, hq1⟩ := dispatch_out os_ok w (Event.global g.name g.interface g.version)
    have hq1 : ∀ r ∈ l1, is_token_request r = false := by
      rcases hq1 with ⟨_, h⟩ | ⟨_, _, _, he, _⟩
      · exact h
      · cases he
    obtain ⟨l2, h2, hq2⟩ :=
      ih (frame.registry_global w w.state.wl_registry g.name g.interface g.version)
    refine ⟨l1 ++ l2, ?_, ?_⟩
    · simp only [List.foldl_cons, h2]
      simp only [frame.dispatch] at h1
      rw [h1, List.append_assoc]
    · intro r hr
      rcases List.mem_append.1 hr with h | h
      · exact hq1 r h
      · exact hq2 r h

/-- The requests of start-up: the last one asks for the first frame callback,
none before it touches a token. -/
theorem main_startup_out (connected : Bool) (globals : List Global) :
    ∃ l s id, (frame.main_startup connected globals).out = l ++ [Request.frame s id] ∧
      ∀ r ∈ l, is_token_request r = false := by
  obtain ⟨l, hl, hq⟩ := registry_fold_out globals (frame.main_connect connected)
  unfold frame.main_startup
  generalize List.foldl _ (frame.main_connect connected) globals = w2 at hl ⊢
  refine ⟨(frame.main_connect connected).out ++ l ++
    [Request.create_surface w2.state.wl_compositor (w2.objects + 1),
     Request.get_xdg_surface w2.state.xdg_wm_base (w2.objects + 1) (w2.objects + 2),
     Request.get_toplevel (w2.objects + 2) (w2.objects + 3),
     Request.set_title (w2.objects + 3) "Example client",
     Request.commit (w2.objects + 1)], w2.objects + 1, w2.objects + 4, ?_, ?_⟩
  · simp [hl]
  · intro r hr
    simp only [List.mem_append, List.mem_cons, List.mem_singleton, List.not_mem_nil,
      or_false] at hr
    rcases hr with (hr | hr) | hr
    · simp [frame.main_connect] at hr
      subst hr; rfl
    · exact hq r hr
    · rcases hr with rfl | rfl | rfl | rfl | rfl <;> rfl

theorem main_startup_single_flight (connected : Bool) (globals : List Global) :
    (outstanding (frame.main_startup connected globals).out).length = 1 ∧
      ∀ n, (outstanding ((frame.main_startup connected globals).out.take n)).length ≤ 1 := by
  obtain ⟨l, s, id, h, hq⟩ := main_startup_out connected globals
  have h0 : outstanding l = [] := by
    simpa [outstanding] using foldl_track_quiet [] l hq
  rw [h]
  constructor
  · rw [outstanding_append, h0]; simp [track]
  · intro n
    rw [List.take_append_eq_append_take, outstanding_append]
    have h1 : outstanding (l.take n) = [] := by
      simpa [outstanding] using
        foldl_track_quiet [] (l.take n) (fun r hr => hq r (List.mem_of_mem_take hr))
    rw [h1]
    rcases (n - l.length) with _ | m <;> simp [track]

/-- C3: from the state `main` leaves, for every sequence of handled events in
which the server fires only outstanding callbacks, after every request of the
client's stream at most one frame-callback token is outstanding (exactly one
once the events are handled); a firing sends the destroy of the fired token
and the request of one new token, and no other handler sends either. -/
theorem frame_callback_single_flight (connected : Bool) (globals : List Global)
    (evs : List (Os × Event))
    (h : frame.valid (frame.main_startup connected globals) evs = true) :
    (∀ n, (outstanding
        ((frame.run (frame.main_startup connected globals) evs).out.take n)).length ≤ 1) ∧
    (outstanding (frame.run (frame.main_startup connected globals) evs).out).length = 1 ∧
    (∀ (os : Os) (w : Client) (cb : Handle) (time : Nat),
      (emitted w (wl_surface_frame_done os w cb time)).filter is_token_request =
        [Request.callback_destroy cb, Request.frame w.state.wl_surface (w.objects + 1)]) ∧
    (∀ (os : Os) (w : Client) (e : Event), (∀ cb time, e ≠ Event.frame_done cb time) →
      (emitted w (frame.dispatch os w e)).filter is_token_request = []) := by
  obtain ⟨h1, h2⟩ := main_startup_single_flight connected globals
  obtain ⟨k1, k2⟩ := run_single_flight evs _ h1 h2 h
  refine ⟨k2, k1, ?_, ?_⟩
  · intro os w cb time
    obtain ⟨mid, buffer, e1, e2, _⟩ := wl_surface_frame_done_out os w cb time
    rw [emitted_append _ _ _ e1]
    have hq : ∀ r ∈ mid ++ [Request.attach w.state.wl_surface buffer 0 0,
        Request.damage_buffer w.state.wl_surface 0 0 INT32_MAX INT32_MAX,
        Request.commit w.state.wl_surface], is_token_request r = false := by
      intro r hr
      simp at hr
      rcases hr with hr | rfl | rfl | rfl
      · exact creation_quiet mid e2 r hr
      · rfl
      · rfl
      · rfl
    simp [List.filter_cons, is_token_request, filter_quiet _ hq]
  · intro os w e he
    obtain ⟨l, hl, hshape⟩ := dispatch_out os w e
    rw [emitted_append _ _ _ hl]
    rcases hshape with ⟨_, hq⟩ | ⟨cb, t, _, h3, _⟩
    · exact filter_quiet _ hq
    · exact absurd h3 (he cb t)

/-- C3 at the sample events: they are deliverable, and one token is
outstanding after them. -/
theorem frame_callback_single_flight_witness :
    frame.valid sample_client sample_events = true ∧
    (outstanding ((frame.run sample_client sample_events).out.take 27)).length ≤ 1 ∧
    (outstanding (frame.run sample_client sample_events).out).length = 1 :=
  ⟨by decide,
    (frame_callback_single_flight true sample_globals sample_events (by decide)).1 27,
    (frame_callback_single_flight true sample_globals sample_events (by decide)).2.1⟩

/-! ## Frames in flight -/

theorem frames_in_append (a b : List Request) :
    frames_in (a ++ b) = frames_in a + frames_in b := by
  simp [frames_in]

theorem frames_in_cons (r : Request) (l : List Request) :
    frames_in (r :: l) = (if is_buffer_attach r = true then 1 else 0) + frames_in l := by
  by_cases h : is_buffer_attach r = true
  · simp [frames_in, List.filter_cons, h]; omega
  · simp [frames_in, List.filter_cons, h]

theorem frames_in_nil : frames_in [] = 0 := rfl

theorem frames_in_creation (mid : List Request) (h : ∀ r ∈ mid, is_buffer_creation r = true) :
    frames_in mid = 0 := by
  unfold frames_in
  rw [List.length_eq_zero, List.filter_eq_nil_iff]
  intro r hr
  have := h r hr
  cases r <;> simp [is_buffer_creation] at this <;> simp [is_buffer_attach]

/-- A handled event attaches at most one frame buffer, and none unless it is a
configure or a firing. -/
theorem frames_in_dispatch (os : Os) (w : Client) (e : Event) :
    frames_in (emitted w (frame.dispatch os w e)) ≤ 1 ∧
    ((∀ s, e ≠ Event.configure s) → (∀ cb t, e ≠ Event.frame_done cb t) →
      frames_in (emitted w (frame.dispatch os w e)) = 0) := by
  cases e with
  | global name interface version =>
    have : frames_in (emitted w (frame.dispatch os w (Event.global name interface version)))
        = 0 := by
      simp only [frame.dispatch, frame.registry_global, emitted]
      split_ifs <;> simp [frames_in, is_buffer_attach]
    exact ⟨by omega, fun _ _ => this⟩
  | global_remove name =>
    have : frames_in (emitted w (frame.dispatch os w (Event.global_remove name))) = 0 := by
      simp [frame.dispatch, registry_global_remove, emitted, frames_in]
    exact ⟨by omega, fun _ _ => this⟩
  | ping serial =>
    have : frames_in (emitted w (frame.dispatch os w (Event.ping serial))) = 0 := by
      simp [frame.dispatch, xdg_wm_base_ping, emitted, frames_in, is_buffer_attach]
    exact ⟨by omega, fun _ _ => this⟩
  | configure serial =>
    obtain ⟨mid, buffer, h1, h2, _⟩ := xdg_surface_configure_out os w w.state.xdg_surface serial
    refine ⟨?_, fun h => absurd rfl (h serial)⟩
    simp only [frame.dispatch]
    rw [emitted_append _ _ _ h1]
    simp only [frames_in_cons, frames_in_append, frames_in_creation mid h2, frames_in_nil,
      is_buffer_attach]
    by_cases hb : buffer = 0 <;> simp [hb]
  | frame_done cb time =>
    obtain ⟨mid, buffer, h1, h2, _⟩ := wl_surface_frame_done_out os w cb time
    refine ⟨?_, fun _ h => absurd rfl (h cb time)⟩
    simp only [frame.dispatch]
    rw [emitted_append _ _ _ h1]
    simp only [frames_in_cons, frames_in_append, frames_in_creation mid h2, frames_in_nil,
      is_buffer_attach]
    by_cases hb : buffer = 0 <;> simp [hb]
  | buffer_release buffer =>
    have : frames_in (emitted w (frame.dispatch os w (Event.buffer_release buffer))) = 0 := by
      simp [frame.dispatch, wl_buffer_release, emitted, frames_in, is_buffer_attach]
    exact ⟨by omega, fun _ _ => this⟩

theorem in_flight_without_configure (evs : List (Os × Event)) :
    ∀ (w : Client) (since : Nat), since ≤ 1 →
      (∀ oe ∈ evs, ∀ s, oe.2 ≠ Event.configure s) → frame.in_flight w since evs = true := by
  induction evs with
  | nil => intro w since _ _; rfl
  | cons oe evs ih =>
    intro w since hs hc
    have hoe : ∀ s, oe.2 ≠ Event.configure s := hc oe (by simp)
    have hrest : ∀ x ∈ evs, ∀ s, x.2 ≠ Event.configure s := fun x hx => hc x (by simp [hx])
    obtain ⟨f1, f0⟩ := frames_in_dispatch oe.1 w oe.2
    have hle : (match oe.2 with
        | Event.frame_done _ _ => 0
        | _ => since) + frames_in (emitted w (frame.dispatch oe.1 w oe.2)) ≤ 1 := by
      by_cases hf : ∃ cb t, oe.2 = Event.frame_done cb t
      · obtain ⟨cb, t, hf⟩ := hf
        rw [hf] at f1 ⊢
        simpa using f1
      · have hz := f0 hoe (fun cb t h => hf ⟨cb, t, h⟩)
        rw [hz]
        split <;> omega
    simp only [frame.in_flight, Bool.and_eq_true, decide_eq_true_eq]
    exact ⟨hle, ih _ _ hle hrest⟩

/-- C4, as stated, fails: two configure events in a row, or a configure after
a firing, make the sample client attach and commit a second frame buffer with
no firing of a frame callback in between. -/
theorem one_frame_in_flight_fails_on_configure :
    frame.in_flight sample_client 0
      [(os_ok, Event.configure 1), (os_ok, Event.configure 2)] = false ∧
    frame.in_flight sample_client 0
      [(os_ok, Event.frame_done 9 16), (os_ok, Event.configure 1)] = false := by
  decide

/-- C4, amended: in every sequence of handled events without a configure event
the client never attaches and commits a second frame buffer without a firing
of a frame callback since the previous one; every handled event attaches at
most one frame buffer, and only a configure or a firing attaches one. -/
theorem one_frame_in_flight_without_configure (evs : List (Os × Event)) (w : Client)
    (since : Nat) (hs : since ≤ 1) (hc : ∀ oe ∈ evs, ∀ s, oe.2 ≠ Event.configure s) :
    frame.in_flight w since evs = true ∧
    (∀ (os : Os) (v : Client) (e : Event), frames_in (emitted v (frame.dispatch os v e)) ≤ 1) ∧
    (∀ (os : Os) (v : Client) (e : Event), (∀ s, e ≠ Event.configure s) →
      (∀ cb t, e ≠ Event.frame_done cb t) → frames_in (emitted v (frame.dispatch os v e)) = 0) :=
  ⟨in_flight_without_configure evs w since hs hc,
    fun os v e => (frames_in_dispatch os v e).1, fun os v e => (frames_in_dispatch os v e).2⟩

/-- C4, amended, at two firings with a buffer release in between. -/
theorem one_frame_in_flight_without_configure_witness :
    frame.in_flight sample_client 0
      [(os_ok, Event.frame_done 9 16), (os_ok, Event.buffer_release 12),
       (os_ok, Event.frame_done 10 32)] = true :=
  (one_frame_in_flight_without_configure
    [(os_ok, Event.frame_done 9 16), (os_ok, Event.buffer_release 12),
     (os_ok, Event.frame_done 10 32)] sample_client 0 (by decide)
    (by
      intro oe hoe s
      simp only [List.mem_cons, List.mem_singleton, List.not_mem_nil, or_false] at hoe
      rcases hoe with rfl | rfl | rfl <;> simp)).1

/-- C5, as stated, fails: when `shm_open` fails, `draw_frame` yields no buffer
and both handlers of the sample client still send the attach, of `NULL`, and
the commit. -/
theorem null_frame_not_skipped :
    (draw_frame os_fail sample_client).1 = 0 ∧
    emitted sample_client (wl_surface_frame_done os_fail sample_client 9 16) =
      [Request.callback_destroy 9, Request.frame 6 10, Request.attach 6 0 0 0,
       Request.damage_buffer 6 0 0 2147483647 2147483647, Request.commit 6] ∧
    emitted sample_client (xdg_surface_configure os_fail sample_client 7 5) =
      [Request.ack_configure 7 5, Request.attach 6 0 0 0, Request.commit 6] := by
  decide

/-- C5, amended: when `draw_frame` yields no buffer, the handlers create no
buffer and attach `NULL` at (0,0) and commit: `xdg_surface_configure` sends the
acknowledgement, the attach and the commit, `wl_surface_frame_done` the destroy
of the fired token, the request of the new token, the attach, the damage and
the commit; the new token is outstanding afterwards, so the chain stays armed. -/
theorem null_frame_attached_and_committed (os : Os) (w : Client) (xdg_surface : Handle)
    (serial : Nat) (cb : Handle) (time : Nat) (h : (draw_frame os w).1 = 0) :
    emitted w (xdg_surface_configure os w xdg_surface serial) =
      [Request.ack_configure xdg_surface serial, Request.attach w.state.wl_surface 0 0 0,
       Request.commit w.state.wl_surface] ∧
    emitted w (wl_surface_frame_done os w cb time) =
      [Request.callback_destroy cb, Request.frame w.state.wl_surface (w.objects + 1),
       Request.attach w.state.wl_surface 0 0 0,
       Request.damage_buffer w.state.wl_surface 0 0 INT32_MAX INT32_MAX,
       Request.commit w.state.wl_surface] ∧
    w.objects + 1 ∈ outstanding (wl_surface_frame_done os w cb time).out := by
  obtain ⟨mid, buffer, h1, _, h3⟩ := xdg_surface_configure_out os w xdg_surface serial
  obtain ⟨mid1, buffer1, k1, _, k3⟩ := wl_surface_frame_done_out os w cb time
  obtain ⟨rfl, rfl⟩ := h3 h
  obtain ⟨rfl, rfl⟩ := k3 h
  refine ⟨emitted_append _ _ _ h1, emitted_append _ _ _ k1, ?_⟩
  rw [k1, outstanding_append]
  simp [track]

/-- C5, amended, at the sample client when `shm_open` fails. -/
theorem null_frame_attached_and_committed_witness :
    emitted sample_client (xdg_surface_configure os_fail sample_client 7 5) =
      [Request.ack_configure 7 5, Request.attach sample_client.state.wl_surface 0 0 0,
       Request.commit sample_client.state.wl_surface] ∧
    sample_client.objects + 1 ∈
      outstanding (wl_surface_frame_done os_fail sample_client 9 16).out :=
  ⟨(null_frame_attached_and_committed os_fail sample_client 7 5 9 16 (by decide)).1,
    (null_frame_attached_and_committed os_fail sample_client 7 5 9 16 (by decide)).2.2⟩

/-! ## The checkerboard -/

theorem draw_row_fold (offset : Int) (y : Nat) (d : Nat → Nat) (n j : Nat) :
    (List.range n).foldl
      (fun (d : Nat → Nat) (x : Nat) =>
        if Int.tmod (((x : Int) + offset) + Int.tdiv ((y : Int) + offset) 8 * 8) 16 < 8 then
          store d (y * 640 + x) 0xFF666666
        else
          store d (y * 640 + x) 0xFFEEEEEE) d j =
      if y * 640 ≤ j ∧ j < y * 640 + n then pixel_colour offset (j - y * 640) y else d j := by
  induction n with
  | zero =>
    rw [if_neg (by omega)]
    rfl
  | succ n ih =>
    rw [List.range_succ, List.foldl_append]
    simp only [List.foldl_cons, List.foldl_nil]
    by_cases hj : j = y * 640 + n
    · subst hj
      have hsub : y * 640 + n - y * 640 = n := by omega
      have hc : y * 640 ≤ y * 640 + n ∧ y * 640 + n < y * 640 + (n + 1) := by omega
      rw [if_pos hc, hsub]
      unfold pixel_colour
      split <;> simp [store]
    · have hst : ∀ (c : Prop) [Decidable c] (e : Nat → Nat) (a b : Nat),
          (if c then store e (y * 640 + n) a else store e (y * 640 + n) b) j = e j := by
        intro c _ e a b
        split <;> simp [store, hj]
      rw [hst, ih]
      by_cases h1 : y * 640 ≤ j ∧ j < y * 640 + n
      · rw [if_pos h1, if_pos (by omega)]
      · rw [if_neg h1, if_neg (by omega)]

/-- Row `y` of the 640-wide frame after the inner loop. -/
theorem draw_row_at (offset : Int) (y : Nat) (d : Nat → Nat) (j : Nat) :
    draw_row 640 offset y d j =
      if y * 640 ≤ j ∧ j < y * 640 + 640 then pixel_colour offset (j - y * 640) y else d j :=
  draw_row_fold offset y d 640 j

/-- The first `m` rows after the outer loop has run `m` times. -/
theorem draw_rows_fold (offset : Int) (d : Nat → Nat) (m j : Nat) :
    (List.range m).foldl (fun d y => draw_row 640 offset y d) d j =
      if j < m * 640 then pixel_colour offset (j % 640) (j / 640) else d j := by
  induction m with
  | zero => simp
  | succ m ih =>
    rw [List.range_succ, List.foldl_append]
    simp only [List.foldl_cons, List.foldl_nil]
    rw [draw_row_at, ih]
    by_cases h1 : m * 640 ≤ j ∧ j < m * 640 + 640
    · have hx : j - m * 640 = j % 640 := by omega
      have hy : m = j / 640 := by omega
      rw [if_pos h1, if_pos (by omega), hx, ← hy]
    · rw [if_neg h1]
      by_cases h2 : j < m * 640
      · rw [if_pos h2, if_pos (by omega)]
      · rw [if_neg h2, if_neg (by omega)]

theorem draw_pixels_at (phase : ℚ) (x y : Nat) (hx : x < 640) (hy : y < 480) :
    draw_pixels phase (y * 640 + x) = pixel_colour (Int.tmod (float_to_int phase) 8) x y := by
  unfold draw_pixels draw_rows
  rw [draw_rows_fold]
  have h1 : (y * 640 + x) % 640 = x := by omega
  have h2 : (y * 640 + x) / 640 = y := by omega
  rw [if_pos (by omega), h1, h2]

/-- On a non-negative phase the conversion to `int` is the floor. -/
theorem float_to_int_nonneg (p : ℚ) (hp : 0 ≤ p) : float_to_int p = ((⌊p⌋₊ : Nat) : Int) := by
  unfold float_to_int
  have hnum : 0 ≤ p.num := Rat.num_nonneg.2 hp
  rw [Int.tdiv_eq_ediv hnum (by exact_mod_cast Nat.zero_le _), Int.natCast_floor_eq_floor hp,
    Rat.floor_def]

theorem phase_offset_nonneg (p : ℚ) (hp : 0 ≤ p) :
    Int.tmod (float_to_int p) 8 = ((⌊p⌋₊ % 8 : Nat) : Int) := by
  rw [float_to_int_nonneg p hp, Int.tmod_eq_emod (by omega) (by omega)]
  omega

theorem phase_offset_period (p : ℚ) (hp : 0 ≤ p) :
    Int.tmod (float_to_int (p + 8)) 8 = Int.tmod (float_to_int p) 8 := by
  have h8 : ⌊p + 8⌋₊ = ⌊p⌋₊ + 8 := by
    have := Nat.floor_add_nat hp 8
    simpa using this
  rw [phase_offset_nonneg p hp, phase_offset_nonneg (p + 8) (by linarith), h8]
  omega

/-- With a non-negative offset the C division and remainder of the loop body
are those of the natural numbers. -/
theorem pixel_colour_nat (o x y : Nat) :
    pixel_colour (o : Int) x y =
      if (x + o + (y + o) / 8 * 8) % 16 < 8 then 0xFF666666 else 0xFFEEEEEE := by
  unfold pixel_colour
  have h1 : Int.tdiv ((y : Int) + (o : Int)) 8 = (((y + o) / 8 : Nat) : Int) := by
    rw [Int.tdiv_eq_ediv (by omega) (by omega)]
    omega
  have h2 : Int.tmod ((x : Int) + (o : Int) + (((y + o) / 8 : Nat) : Int) * 8) 16 =
      (((x + o + (y + o) / 8 * 8) % 16 : Nat) : Int) := by
    rw [Int.tmod_eq_emod (by omega) (by omega)]
    omega
  rw [h1, h2]
  by_cases h : (x + o + (y + o) / 8 * 8) % 16 < 8
  · rw [if_pos h, if_pos (by omega)]
  · rw [if_neg h, if_neg (by omega)]

/-- C6: for every non-negative animation phase and every pixel (x, y) with
x < 640 and y < 480, the buffer `draw_frame` produces holds at index
y*640+x colour A (0xFF666666) if ((x+offset) + ((y+offset)/8)*8) mod 16 < 8 and
colour B (0xFFEEEEEE) otherwise, where offset = floor(phase) mod 8; at phase 0
pixel (0,0) is colour A and pixel (8,0) is colour B. -/
theorem draw_frame_checkerboard (os : Os) (w : Client) (x y : Nat)
    (hp : 0 ≤ w.state.offset) (hbuf : (draw_frame os w).1 ≠ 0) (hx : x < 640) (hy : y < 480) :
    (draw_frame os w).2.1 (y * 640 + x) =
      (if (x + ⌊w.state.offset⌋₊ % 8 + (y + ⌊w.state.offset⌋₊ % 8) / 8 * 8) % 16 < 8
        then 0xFF666666 else 0xFFEEEEEE) ∧
    draw_pixels 0 0 = 0xFF666666 ∧ draw_pixels 0 8 = 0xFFEEEEEE := by
  refine ⟨?_, ?_, ?_⟩
  · rcases draw_frame_cases os w with ⟨h1, _⟩ | ⟨_, h2, _⟩
    · exact absurd h1 hbuf
    · rw [h2, draw_pixels_at _ x y hx hy, phase_offset_nonneg _ hp, pixel_colour_nat]
  · have h := draw_pixels_at 0 0 0 (by omega) (by omega)
    rw [phase_offset_nonneg _ (le_refl 0), pixel_colour_nat] at h
    simpa using h
  · have h := draw_pixels_at 0 8 0 (by omega) (by omega)
    rw [phase_offset_nonneg _ (le_refl 0), pixel_colour_nat] at h
    simpa using h

/-- C6 at phase 19/2 (offset 1): pixel (7,0) is colour B. -/
theorem draw_frame_checkerboard_witness :
    (draw_frame os_ok (sample_client_phase (19 / 2))).2.1 (0 * 640 + 7) = 0xFFEEEEEE := by
  have h := (draw_frame_checkerboard os_ok (sample_client_phase (19 / 2)) 7 0
    (by norm_num [sample_client_phase]) (by decide) (by decide) (by decide)).1
  have hf : ⌊(sample_client_phase (19 / 2)).state.offset⌋₊ = 9 := by
    rw [Nat.floor_eq_iff (by norm_num [sample_client_phase])]
    norm_num [sample_client_phase]
  rw [hf] at h
  simpa using h

/-- C7: for every non-negative animation phase p, the pixels `draw_frame`
produces at phase p + 8 are, word for word, those it produces at phase p; the
pattern of phase 8 is that of phase 0. -/
theorem draw_frame_period_eight (os os1 : Os) (w v : Client) (hp : 0 ≤ w.state.offset)
    (hv : v.state.offset = w.state.offset + 8) (hbw : (draw_frame os w).1 ≠ 0)
    (hbv : (draw_frame os1 v).1 ≠ 0) :
    (∀ i, (draw_frame os1 v).2.1 i = (draw_frame os w).2.1 i) ∧
    (∀ i, draw_pixels 8 i = draw_pixels 0 i) := by
  constructor
  · intro i
    rcases draw_frame_cases os w with ⟨h1, _⟩ | ⟨_, h2, _⟩
    · exact absurd h1 hbw
    · rcases draw_frame_cases os1 v with ⟨k1, _⟩ | ⟨_, k2, _⟩
      · exact absurd k1 hbv
      · rw [h2, k2, hv]
        unfold draw_pixels
        rw [phase_offset_period _ hp]
  · intro i
    have := phase_offset_period 0 (le_refl 0)
    unfold draw_pixels
    rw [← this]
    norm_num

/-- C7 at phases 19/2 and 19/2 + 8, pixel (7,3). -/
theorem draw_frame_period_eight_witness :
    (draw_frame os_ok (sample_client_phase (19 / 2 + 8))).2.1 (3 * 640 + 7) =
      (draw_frame os_ok (sample_client_phase (19 / 2))).2.1 (3 * 640 + 7) :=
  (draw_frame_period_eight os_ok os_ok (sample_client_phase (19 / 2))
    (sample_client_phase (19 / 2 + 8)) (by norm_num [sample_client_phase]) rfl (by decide)
    (by decide)).1 (3 * 640 + 7)

/-! ## The pointer accumulator -/

/-- Where `wl_pointer_frame` is defined it clears the accumulator, changes
nothing else and prints the accumulated event. -/
theorem wl_pointer_frame_result (v : client_state) (r : client_state × List Print)
    (h : wl_pointer_frame v = some r) :
    r.1 = { v with pointer_event := pointer_event_zero } ∧
      print_frame v.pointer_event = some r.2 := by
  unfold wl_pointer_frame at h
  simp only [] at h
  cases hp : print_frame v.pointer_event with
  | none => simp [hp] at h
  | some printed =>
    simp only [hp, Option.some.injEq] at h
    subst h
    exact ⟨rfl, rfl⟩

theorem axis_source_name_none (n : Nat) : axis_source_name n = none ↔ 4 ≤ n := by
  rcases n with _ | _ | _ | _ | n <;> simp [axis_source_name]

/-- The entry of one axis is printed unless it is valid, the source is to be
printed and the source is outside the table. -/
theorem print_axis_none (event : pointer_event) (i : Nat) (a : axis_entry) :
    print_axis event i a = none ↔
      a.valid = true ∧ event.event_mask &&& POINTER_EVENT_AXIS_SOURCE ≠ 0 ∧
        4 ≤ event.axis_source := by
  unfold print_axis
  by_cases hv : a.valid = false
  · simp [hv]
  · have hv1 : a.valid = true := by simpa using hv
    rw [if_neg hv]
    by_cases hs : event.event_mask &&& POINTER_EVENT_AXIS_SOURCE ≠ 0 ∧
        axis_source_name event.axis_source = none
    · rw [if_pos hs]
      simp only [true_iff]
      exact ⟨hv1, hs.1, (axis_source_name_none _).1 hs.2⟩
    · rw [if_neg hs]
      simp only [false_iff, reduceCtorEq]
      rintro ⟨_, h1, h2⟩
      exact hs ⟨h1, (axis_source_name_none _).2 h2⟩

/-- The frame handler has no defined behaviour exactly when it reads the table
of the axis sources with an index outside it. -/
theorem wl_pointer_frame_none (v : client_state) :
    wl_pointer_frame v = none ↔
      reads_axis_source v.pointer_event = true ∧ 4 ≤ v.pointer_event.axis_source := by
  have hframe : wl_pointer_frame v = none ↔ print_axes v.pointer_event = none := by
    cases hp : print_axes v.pointer_event <;> simp [wl_pointer_frame, print_frame, hp]
  rw [hframe]
  unfold print_axes reads_axis_source
  simp only []
  by_cases hm : v.pointer_event.event_mask &&&
      (POINTER_EVENT_AXIS ||| POINTER_EVENT_AXIS_SOURCE ||| POINTER_EVENT_AXIS_STOP |||
        POINTER_EVENT_AXIS_DISCRETE) ≠ 0
  · rw [if_pos hm]
    have h0 := print_axis_none v.pointer_event 0 v.pointer_event.axes0
    have h1 := print_axis_none v.pointer_event 1 v.pointer_event.axes1
    cases hp0 : print_axis v.pointer_event 0 v.pointer_event.axes0 with
    | none =>
      have := h0.1 hp0
      simp [hm, this.1, this.2.1, this.2.2]
    | some first =>
      cases hp1 : print_axis v.pointer_event 1 v.pointer_event.axes1 with
      | none =>
        have := h1.1 hp1
        simp [hm, this.1, this.2.1, this.2.2]
      | some second =>
        simp only [reduceCtorEq, false_iff]
        rintro ⟨hr, h4⟩
        simp only [Bool.and_eq_true, Bool.or_eq_true, decide_eq_true_eq] at hr
        obtain ⟨⟨_, hv⟩, hs⟩ := hr
        rcases hv with hv | hv
        · have := h0.2 ⟨hv, hs, h4⟩
          rw [hp0] at this
          cases this
        · have := h1.2 ⟨hv, hs, h4⟩
          rw [hp1] at this
          cases this
  · rw [if_neg hm]
    simp [hm]

/-- The handler of a pointer event changes `pointer_event` only. -/
theorem pointer_dispatch_outside (st : client_state) (e : PointerEvent)
    (r : client_state × List Print) (h : pointer_dispatch st e = some r) :
    { r.1 with pointer_event := st.pointer_event } = st := by
  cases e with
  | frame =>
    simp only [pointer_dispatch] at h
    rw [(wl_pointer_frame_result st r h).1]
  | enter serial surface x y =>
    simp only [pointer_dispatch, Option.some.injEq] at h
    subst h; rfl
  | leave serial surface =>
    simp only [pointer_dispatch, Option.some.injEq] at h
    subst h; rfl
  | motion time x y =>
    simp only [pointer_dispatch, Option.some.injEq] at h
    subst h; rfl
  | button serial time button state =>
    simp only [pointer_dispatch, Option.some.injEq] at h
    subst h; rfl
  | axis_source src =>
    simp only [pointer_dispatch, Option.some.injEq] at h
    subst h; rfl
  | axis time axis value =>
    simp only [pointer_dispatch, wl_pointer_axis, Option.map_eq_some'] at h
    obtain ⟨s, ⟨pe, _, rfl⟩, rfl⟩ := h
    rfl
  | axis_stop time axis =>
    simp only [pointer_dispatch, wl_pointer_axis_stop, Option.map_eq_some'] at h
    obtain ⟨s, ⟨pe, _, rfl⟩, rfl⟩ := h
    rfl
  | axis_discrete axis discrete =>
    simp only [pointer_dispatch, wl_pointer_axis_discrete, Option.map_eq_some'] at h
    obtain ⟨s, ⟨pe, _, rfl⟩, rfl⟩ := h
    rfl

theorem pointer_run_outside (evs : List PointerEvent) :
    ∀ (st : client_state) (r : client_state × List Print), pointer_run st evs = some r →
      { r.1 with pointer_event := st.pointer_event } = st := by
  induction evs with
  | nil =>
    intro st r h
    simp only [pointer_run, Option.some.injEq] at h
    subst h; rfl
  | cons e evs ih =>
    intro st r h
    simp only [pointer_run] at h
    cases hd : pointer_dispatch st e with
    | none => simp [hd] at h
    | some r1 =>
      obtain ⟨st1, p1⟩ := r1
      simp only [hd] at h
      cases hr : pointer_run st1 evs with
      | none => simp [hr] at h
      | some r2 =>
        obtain ⟨st2, p2⟩ := r2
        simp only [hr, Option.some.injEq] at h
        subst h
        have h1 := pointer_dispatch_outside st e _ hd
        have h2 := ih st1 _ hr
        simp only at h1 h2 ⊢
        rw [← h1, ← h2]

theorem pointer_run_append (s1 s2 : List PointerEvent) :
    ∀ (st : client_state) (r1 : client_state × List Print), pointer_run st s1 = some r1 →
      pointer_run st (s1 ++ s2) =
        (pointer_run r1.1 s2).map (fun r2 => (r2.1, r1.2 ++ r2.2)) := by
  induction s1 with
  | nil =>
    intro st r1 h
    simp only [pointer_run, Option.some.injEq] at h
    subst h
    cases hr : pointer_run st s2 <;> simp [hr]
  | cons e s1 ih =>
    intro st r1 h
    simp only [pointer_run, List.cons_append] at h ⊢
    cases hd : pointer_dispatch st e with
    | none => simp [hd] at h
    | some d =>
      obtain ⟨st1, p1⟩ := d
      simp only [hd, List.append_eq] at h ⊢
      cases hr : pointer_run st1 s1 with
      | none => simp [hr] at h
      | some r =>
        obtain ⟨st2, p2⟩ := r
        simp only [hr, Option.some.injEq] at h
        subst h
        rw [ih st1 _ hr]
        cases hr2 : pointer_run st2 s2 <;> simp [hr2]

/-- C8: for every motion(t, x, y) followed by button(serial, t1, button, state)
on an empty accumulator, the record `wl_pointer_frame` finds has event_mask
exactly MOTION|BUTTON (12) and carries the position (x, y), the button and its
state, the serial and the time t1, and nothing else; the frame signal prints
exactly one record, with the motion and the button, and the accumulator is
empty after it. -/
theorem pointer_frame_atomic (st : client_state) (t : Nat) (x y : Int)
    (serial t1 button state : Nat) (h : st.pointer_event = pointer_event_zero) :
    (wl_pointer_button (wl_pointer_motion st t x y) serial t1 button state).pointer_event =
      { event_mask := POINTER_EVENT_MOTION ||| POINTER_EVENT_BUTTON, surface_x := x,
        surface_y := y, button := button, state := state, time := t1, serial := serial,
        axes0 := ⟨false, 0, 0⟩, axes1 := ⟨false, 0, 0⟩, axis_source := 0 } ∧
    POINTER_EVENT_MOTION ||| POINTER_EVENT_BUTTON = 12 ∧
    pointer_run st
        [PointerEvent.motion t x y, PointerEvent.button serial t1 button state,
         PointerEvent.frame] =
      some (st,
        [Print.frame_at t1, Print.motion x y,
         Print.button button (if state = 0 then "released" else "pressed"), Print.newline]) := by
  refine ⟨?_, by decide, ?_⟩
  · simp [wl_pointer_button, wl_pointer_motion, h, pointer_event_zero]
  · have hst : ({ st with pointer_event := pointer_event_zero } : client_state) = st := by
      rw [← h]
    have e1 : (12 &&& 2 : Nat) = 0 := by decide
    have e2 : (12 &&& 240 : Nat) = 0 := by decide
    simp [pointer_run, pointer_dispatch, wl_pointer_frame, wl_pointer_button,
      wl_pointer_motion, h, hst, print_frame, print_axes, print_axis, e1, e2, pointer_event_zero,
      POINTER_EVENT_MOTION, POINTER_EVENT_BUTTON,
      POINTER_EVENT_ENTER, POINTER_EVENT_LEAVE, POINTER_EVENT_AXIS, POINTER_EVENT_AXIS_SOURCE,
      POINTER_EVENT_AXIS_STOP, POINTER_EVENT_AXIS_DISCRETE, WL_POINTER_BUTTON_STATE_RELEASED]
    exact hst

/-- C8 at motion(t=1, x=10, y=20), button(serial=3, t=1, button=1, pressed),
frame(). -/
theorem pointer_frame_atomic_witness :
    pointer_run client_state_zero
        [PointerEvent.motion 1 10 20, PointerEvent.button 3 1 1 1, PointerEvent.frame] =
      some (client_state_zero,
        [Print.frame_at 1, Print.motion 10 20, Print.button 1 "pressed", Print.newline]) :=
  (pointer_frame_atomic client_state_zero 1 10 20 3 1 1 1 rfl).2.2

/-- The events of `s1` followed by those of `s2` are handled only if those of
`s1` are. -/
theorem pointer_run_append_none (s1 s2 : List PointerEvent) :
    ∀ st : client_state, pointer_run st s1 = none → pointer_run st (s1 ++ s2) = none := by
  induction s1 with
  | nil =>
    intro st h
    simp [pointer_run] at h
  | cons e s1 ih =>
    intro st h
    simp only [pointer_run, List.cons_append] at h ⊢
    cases hd : pointer_dispatch st e with
    | none => simp
    | some d =>
      obtain ⟨st1, p1⟩ := d
      simp only [hd, List.append_eq] at h ⊢
      cases hr : pointer_run st1 s1 with
      | none => simp [ih st1 hr]
      | some r => simp [hr] at h

/-- C9 fails as stated: after axis_source(7) and axis(t=1, vertical, 5) the
accumulator holds a valid axis, the AXIS_SOURCE bit and the source 7, so
`wl_pointer_frame` reads `axis_source[7]` of a table of four entries before it
reaches the `memset`: the handler has no defined result and no state follows
the frame signal, while the empty accumulator handles button(3, 4, 1, 1). -/
theorem pointer_frame_reset_undefined :
    pointer_run client_state_zero [PointerEvent.axis_source 7, PointerEvent.axis 1 0 5] =
      some ({ client_state_zero with
              pointer_event :=
                { event_mask := 48, surface_x := 0, surface_y := 0, button := 0, state := 0,
                  time := 1, serial := 0, axes0 := ⟨true, 5, 0⟩, axes1 := ⟨false, 0, 0⟩,
                  axis_source := 7 } }, []) ∧
    wl_pointer_frame
        { client_state_zero with
          pointer_event :=
            { event_mask := 48, surface_x := 0, surface_y := 0, button := 0, state := 0,
              time := 1, serial := 0, axes0 := ⟨true, 5, 0⟩, axes1 := ⟨false, 0, 0⟩,
              axis_source := 7 } } = none ∧
    pointer_run client_state_zero
        ([PointerEvent.axis_source 7, PointerEvent.axis 1 0 5] ++
          PointerEvent.frame :: [PointerEvent.button 3 4 1 1]) = none ∧
    (pointer_run { client_state_zero with pointer_event := pointer_event_zero }
        [PointerEvent.button 3 4 1 1]).isSome = true := by
  decide

/-- C9, amended: `wl_pointer_frame` has a defined result for every accumulator
state except those where it reads the table of the axis sources (one of the
four axis bits set, an axis valid, the AXIS_SOURCE bit set) with a source of 4
or more; wherever it has one, the accumulator after it is all-zero
(event_mask 0, both axes invalid, every value 0) and nothing else of the state
has changed; hence, for all sequences of pointer events s1 and s2 such that
the handlers are defined on s1 followed by frame(), the state after s1,
frame(), s2 is the state after s2 on the empty accumulator. -/
theorem pointer_frame_resets_where_defined (st : client_state) (s1 s2 : List PointerEvent)
    (h : (pointer_run st (s1 ++ [PointerEvent.frame])).isSome = true) :
    (∀ v : client_state, wl_pointer_frame v = none ↔
      (reads_axis_source v.pointer_event = true ∧ 4 ≤ v.pointer_event.axis_source)) ∧
    (∀ (v : client_state) (r : client_state × List Print), wl_pointer_frame v = some r →
      r.1 = { v with
              pointer_event :=
                { event_mask := 0, surface_x := 0, surface_y := 0, button := 0, state := 0,
                  time := 0, serial := 0, axes0 := ⟨false, 0, 0⟩, axes1 := ⟨false, 0, 0⟩,
                  axis_source := 0 } }) ∧
    (pointer_run st (s1 ++ PointerEvent.frame :: s2)).map (fun r => r.1) =
      (pointer_run { st with pointer_event := pointer_event_zero } s2).map (fun r => r.1) := by
  refine ⟨wl_pointer_frame_none, fun v r hr => (wl_pointer_frame_result v r hr).1, ?_⟩
  cases hr1 : pointer_run st s1 with
  | none =>
    rw [pointer_run_append_none s1 _ st hr1] at h
    simp at h
  | some r1 =>
    have hout := pointer_run_outside s1 st r1 hr1
    have hzero : ({ r1.1 with pointer_event := pointer_event_zero } : client_state) =
        { st with pointer_event := pointer_event_zero } := by
      rw [← hout]
    rw [pointer_run_append s1 _ st r1 hr1] at h ⊢
    cases hf : wl_pointer_frame r1.1 with
    | none =>
      simp [pointer_run, pointer_dispatch, hf] at h
    | some f =>
      have hres := (wl_pointer_frame_result r1.1 f hf).1
      obtain ⟨f1, f2⟩ := f
      simp only at hres
      subst hres
      simp only [pointer_run, pointer_dispatch, hf, hzero]
      cases hr2 : pointer_run { st with pointer_event := pointer_event_zero } s2 with
      | none => simp
      | some r2 => obtain ⟨st2, p2⟩ := r2; simp

/-- C9 amended, at s1 = motion, axis_source(finger), axis and s2 = button: the
handlers are defined on s1 followed by frame(). -/
theorem pointer_frame_resets_where_defined_witness :
    (pointer_run client_state_zero
        ([PointerEvent.motion 1 10 20, PointerEvent.axis_source 1, PointerEvent.axis 2 0 5] ++
          [PointerEvent.frame])).isSome = true ∧
    (pointer_run client_state_zero
        ([PointerEvent.motion 1 10 20, PointerEvent.axis_source 1, PointerEvent.axis 2 0 5] ++
          PointerEvent.frame :: [PointerEvent.button 3 4 1 1])).map (fun r => r.1) =
      (pointer_run { client_state_zero with pointer_event := pointer_event_zero }
        [PointerEvent.button 3 4 1 1]).map (fun r => r.1) :=
  ⟨by decide,
   (pointer_frame_resets_where_defined client_state_zero
    [PointerEvent.motion 1 10 20, PointerEvent.axis_source 1, PointerEvent.axis 2 0 5]
    [PointerEvent.button 3 4 1 1] (by decide)).2.2⟩

/-- C10: each of the eight pointer handlers (enter, leave, motion, button,
axis, axis_source, axis_stop, axis_discrete; the axis ones with index 0 or 1)
leaves event_mask equal to the event_mask before OR-ed with its own bit:
ENTER=1, LEAVE=2, MOTION=4, BUTTON=8, AXIS=16, AXIS_SOURCE=32, AXIS_STOP=64,
AXIS_DISCRETE=128. -/
theorem pointer_handlers_set_own_bit (st : client_state) (serial time button state : Nat)
    (source : Nat) (surface : Handle) (x y value discrete : Int) (axis : Nat)
    (haxis : axis < 2) :
    (wl_pointer_enter st serial surface x y).pointer_event.event_mask =
      st.pointer_event.event_mask ||| 1 ∧
    (wl_pointer_leave st serial surface).pointer_event.event_mask =
      st.pointer_event.event_mask ||| 2 ∧
    (wl_pointer_motion st time x y).pointer_event.event_mask =
      st.pointer_event.event_mask ||| 4 ∧
    (wl_pointer_button st serial time button state).pointer_event.event_mask =
      st.pointer_event.event_mask ||| 8 ∧
    (wl_pointer_axis st time axis value).map (fun s => s.pointer_event.event_mask) =
      some (st.pointer_event.event_mask ||| 16) ∧
    (wl_pointer_axis_source st source).pointer_event.event_mask =
      st.pointer_event.event_mask ||| 32 ∧
    (wl_pointer_axis_stop st time axis).map (fun s => s.pointer_event.event_mask) =
      some (st.pointer_event.event_mask ||| 64) ∧
    (wl_pointer_axis_discrete st axis discrete).map (fun s => s.pointer_event.event_mask) =
      some (st.pointer_event.event_mask ||| 128) := by
  have hax : axis = 0 ∨ axis = 1 := by omega
  refine ⟨rfl, rfl, rfl, rfl, ?_, rfl, ?_, ?_⟩
  · rcases hax with rfl | rfl <;> rfl
  · rcases hax with rfl | rfl <;> rfl
  · rcases hax with rfl | rfl <;> rfl

/-- C10 at a state whose mask is MOTION, for the axis handler with index 1. -/
theorem pointer_handlers_set_own_bit_witness :
    (wl_pointer_axis (wl_pointer_motion client_state_zero 1 10 20) 2 1 5).map
        (fun s => s.pointer_event.event_mask) = some (4 ||| 16) ∧
    (wl_pointer_enter (wl_pointer_motion client_state_zero 1 10 20) 3 6 10
        20).pointer_event.event_mask = 4 ||| 1 :=
  ⟨(pointer_handlers_set_own_bit (wl_pointer_motion client_state_zero 1 10 20) 3 2 1 1 0 6 10
      20 5 1 1 (by decide)).2.2.2.2.1,
    (pointer_handlers_set_own_bit (wl_pointer_motion client_state_zero 1 10 20) 3 2 1 1 0 6 10
      20 5 1 1 (by decide)).1⟩

/-! ## Axis index -/

/-- The handlers with explicit outcome agree with the handlers: they return
the same state, when they return. -/
theorem axis_outcome_result (st : client_state) (time axis : Nat) (value discrete : Int) :
    (wl_pointer_axis_outcome st time axis value).result = wl_pointer_axis st time axis value ∧
    (wl_pointer_axis_stop_outcome st time axis).result = wl_pointer_axis_stop st time axis ∧
    (wl_pointer_axis_discrete_outcome st axis discrete).result =
      wl_pointer_axis_discrete st axis discrete := by
  simp only [wl_pointer_axis_outcome, wl_pointer_axis_stop_outcome,
    wl_pointer_axis_discrete_outcome, wl_pointer_axis, wl_pointer_axis_stop,
    wl_pointer_axis_discrete, axis_outcome, set_axis]
  refine ⟨?_, ?_, ?_⟩ <;> split_ifs <;> rfl

/-- C11, as stated, fails: with axis index 2 the handlers report nothing; they
store outside `axes[2]`, and by then `wl_pointer_axis` has set the AXIS bit and
the time in the accumulator, `wl_pointer_axis_stop` the time and the AXIS_STOP
bit, `wl_pointer_axis_discrete` the AXIS_DISCRETE bit. -/
theorem axis_index_unchecked :
    wl_pointer_axis_outcome client_state_zero 7 2 5 =
      AxisOutcome.out_of_bounds
        { client_state_zero with
          pointer_event := { pointer_event_zero with event_mask := 16, time := 7 } } ∧
    wl_pointer_axis_stop_outcome client_state_zero 7 2 =
      AxisOutcome.out_of_bounds
        { client_state_zero with
          pointer_event := { pointer_event_zero with event_mask := 64, time := 7 } } ∧
    wl_pointer_axis_discrete_outcome client_state_zero 2 3 =
      AxisOutcome.out_of_bounds
        { client_state_zero with
          pointer_event := { pointer_event_zero with event_mask := 128 } } ∧
    wl_pointer_axis client_state_zero 7 2 5 = none := by
  decide

/-- C11, amended: with axis index 0 or 1 the handlers axis, axis_stop and
axis_discrete set their bit in event_mask (and the time, for axis and
axis_stop), mark exactly axes[index] valid, with the given value or discrete
step count, and leave the other entry, the other fields of that entry and the
rest of the state unchanged.  They do not check the index and report nothing:
with any other index the handler has set its bit (and the time) in the
accumulator, nothing else, when it stores through axes[index] outside the
two-entry array. -/
theorem axis_handlers_index (st : client_state) (time axis : Nat) (value discrete : Int) :
    wl_pointer_axis st time 0 value =
      some { st with pointer_event :=
        { st.pointer_event with
          event_mask := st.pointer_event.event_mask ||| 16, time := time,
          axes0 := { st.pointer_event.axes0 with valid := true, value := value } } } ∧
    wl_pointer_axis st time 1 value =
      some { st with pointer_event :=
        { st.pointer_event with
          event_mask := st.pointer_event.event_mask ||| 16, time := time,
          axes1 := { st.pointer_event.axes1 with valid := true, value := value } } } ∧
    wl_pointer_axis_stop st time 0 =
      some { st with pointer_event :=
        { st.pointer_event with
          event_mask := st.pointer_event.event_mask ||| 64, time := time,
          axes0 := { st.pointer_event.axes0 with valid := true } } } ∧
    wl_pointer_axis_stop st time 1 =
      some { st with pointer_event :=
        { st.pointer_event with
          event_mask := st.pointer_event.event_mask ||| 64, time := time,
          axes1 := { st.pointer_event.axes1 with valid := true } } } ∧
    wl_pointer_axis_discrete st 0 discrete =
      some { st with pointer_event :=
        { st.pointer_event with
          event_mask := st.pointer_event.event_mask ||| 128,
          axes0 := { st.pointer_event.axes0 with valid := true, discrete := discrete } } } ∧
    wl_pointer_axis_discrete st 1 discrete =
      some { st with pointer_event :=
        { st.pointer_event with
          event_mask := st.pointer_event.event_mask ||| 128,
          axes1 := { st.pointer_event.axes1 with valid := true, discrete := discrete } } } ∧
    (wl_pointer_axis_outcome st time axis value).result = wl_pointer_axis st time axis value ∧
    (wl_pointer_axis_stop_outcome st time axis).result = wl_pointer_axis_stop st time axis ∧
    (wl_pointer_axis_discrete_outcome st axis discrete).result =
      wl_pointer_axis_discrete st axis discrete ∧
    (2 ≤ axis →
      wl_pointer_axis_outcome st time axis value =
        AxisOutcome.out_of_bounds { st with pointer_event :=
          { st.pointer_event with
            event_mask := st.pointer_event.event_mask ||| 16, time := time } } ∧
      wl_pointer_axis_stop_outcome st time axis =
        AxisOutcome.out_of_bounds { st with pointer_event :=
          { st.pointer_event with
            event_mask := st.pointer_event.event_mask ||| 64, time := time } } ∧
      wl_pointer_axis_discrete_outcome st axis discrete =
        AxisOutcome.out_of_bounds { st with pointer_event :=
          { st.pointer_event with event_mask := st.pointer_event.event_mask ||| 128 } }) := by
  have hres : ∀ (pe : pointer_event) (f : axis_entry → axis_entry),
      (axis_outcome st pe axis f).result =
        (set_axis pe axis f).map (fun pe1 => { st with pointer_event := pe1 }) := by
    intro pe f
    unfold axis_outcome
    cases set_axis pe axis f <;> rfl
  refine ⟨rfl, rfl, rfl, rfl, rfl, rfl, hres _ _, hres _ _, hres _ _, ?_⟩
  intro h2
  have h0 : axis ≠ 0 := by omega
  have h1 : axis ≠ 1 := by omega
  simp only [wl_pointer_axis_outcome, wl_pointer_axis_stop_outcome,
    wl_pointer_axis_discrete_outcome, axis_outcome, set_axis, h0, h1, if_false]
  exact ⟨rfl, rfl, rfl⟩

/-- C11, amended, at index 1 and at index 5 on the empty accumulator. -/
theorem axis_handlers_index_witness :
    wl_pointer_axis client_state_zero 7 1 5 =
      some { client_state_zero with pointer_event :=
        { pointer_event_zero with
          event_mask := 16, time := 7, axes1 := ⟨true, 5, 0⟩ } } ∧
    wl_pointer_axis_outcome client_state_zero 7 5 9 =
      AxisOutcome.out_of_bounds { client_state_zero with pointer_event :=
        { client_state_zero.pointer_event with
          event_mask := client_state_zero.pointer_event.event_mask ||| 16, time := 7 } } :=
  ⟨(axis_handlers_index client_state_zero 7 1 5 0).2.1,
    ((axis_handlers_index client_state_zero 7 5 9 0).2.2.2.2.2.2.2.2.2 (by decide)).1⟩

/-! ## Seat capabilities -/

/-- C12: for every client state and capability bitmask, handling
`wl_seat_capabilities` a second time leaves the world as the first handling left
it and sends nothing; after handling, a pointer is held if and only if the
bitmask has the pointer bit; a pointer is requested only when none is held and
released only when one is held, and it is the held one that is released. -/
theorem wl_seat_capabilities_idempotent (w : Client) (wl_seat : Handle) (capabilities : Nat) :
    wl_seat_capabilities (wl_seat_capabilities w wl_seat capabilities) wl_seat capabilities =
      wl_seat_capabilities w wl_seat capabilities ∧
    emitted (wl_seat_capabilities w wl_seat capabilities)
      (wl_seat_capabilities (wl_seat_capabilities w wl_seat capabilities) wl_seat
        capabilities) = [] ∧
    ((wl_seat_capabilities w wl_seat capabilities).state.wl_pointer ≠ 0 ↔
      capabilities &&& 1 ≠ 0) ∧
    (∀ seat id, Request.get_pointer seat id ∈
        emitted w (wl_seat_capabilities w wl_seat capabilities) →
      w.state.wl_pointer = 0 ∧ capabilities &&& 1 ≠ 0) ∧
    (∀ pointer, Request.pointer_release pointer ∈
        emitted w (wl_seat_capabilities w wl_seat capabilities) →
      w.state.wl_pointer ≠ 0 ∧ pointer = w.state.wl_pointer ∧ capabilities &&& 1 = 0) := by
  have hidem : wl_seat_capabilities (wl_seat_capabilities w wl_seat capabilities) wl_seat
      capabilities = wl_seat_capabilities w wl_seat capabilities := by
    unfold wl_seat_capabilities
    simp only [WL_SEAT_CAPABILITY_POINTER]
    by_cases hc : capabilities &&& 1 = 0 <;> by_cases hp : w.state.wl_pointer = 0 <;>
      simp [-Nat.and_one_is_mod, hc, hp]
  refine ⟨hidem, ?_, ?_, ?_, ?_⟩
  · rw [hidem]; simp [emitted]
  · unfold wl_seat_capabilities
    simp only [WL_SEAT_CAPABILITY_POINTER]
    by_cases hc : capabilities &&& 1 = 0 <;> by_cases hp : w.state.wl_pointer = 0 <;>
      simp [-Nat.and_one_is_mod, hc, hp]
  · intro seat id
    unfold wl_seat_capabilities
    simp only [WL_SEAT_CAPABILITY_POINTER, emitted]
    by_cases hc : capabilities &&& 1 = 0 <;> by_cases hp : w.state.wl_pointer = 0 <;>
      simp [-Nat.and_one_is_mod, hc, hp]
  · intro pointer
    unfold wl_seat_capabilities
    simp only [WL_SEAT_CAPABILITY_POINTER, emitted]
    by_cases hc : capabilities &&& 1 = 0 <;> by_cases hp : w.state.wl_pointer = 0 <;>
      simp [-Nat.and_one_is_mod, hc, hp]

/-- C12 on the sample pointer client: the seat gains the pointer capability
(a pointer is requested once), then the same capabilities arrive again. -/
theorem wl_seat_capabilities_idempotent_witness :
    emitted sample_pointer_client (wl_seat_capabilities sample_pointer_client 6 3) =
      [Request.get_pointer 6 11] ∧
    emitted (wl_seat_capabilities sample_pointer_client 6 3)
      (wl_seat_capabilities (wl_seat_capabilities sample_pointer_client 6 3) 6 3) = [] :=
  ⟨by decide, (wl_seat_capabilities_idempotent sample_pointer_client 6 3).2.1⟩

/-! ## The toplevel of `egl_window.cpp` -/

/-- C14: for every client state, `xdg_toplevel_handle_configure` with w = 0 and
h = 0 leaves the world, the recorded size included, as it was and sends
nothing: no resize and no commit. -/
theorem zero_geometry_configure_noop (v : egl_window.Client) (xdg_toplevel : Handle)
    (states : List Nat) :
    egl_window.xdg_toplevel_handle_configure v xdg_toplevel 0 0 states = v ∧
    (egl_window.xdg_toplevel_handle_configure v xdg_toplevel 0 0 states).state.old_w =
      v.state.old_w ∧
    (egl_window.xdg_toplevel_handle_configure v xdg_toplevel 0 0 states).state.old_h =
      v.state.old_h ∧
    emitted v (egl_window.xdg_toplevel_handle_configure v xdg_toplevel 0 0 states) = [] := by
  have h : egl_window.xdg_toplevel_handle_configure v xdg_toplevel 0 0 states = v := by
    simp [egl_window.xdg_toplevel_handle_configure]
  rw [h]
  exact ⟨rfl, rfl, rfl, by simp [emitted]⟩

/-- C20 on the failing input: the recorded size is 1280 x 720 and the toplevel
is configured to 1000 x 720, another width and the same height; the handler
keeps the recorded size and sends nothing.  It does the same for 1280 x 500. -/
theorem resize_needs_both_dimensions :
    (egl_window.xdg_toplevel_handle_configure sample_egl_client 7 1000 720 []).state =
      sample_egl_client.state ∧
    emitted sample_egl_client
      (egl_window.xdg_toplevel_handle_configure sample_egl_client 7 1000 720 []) = [] ∧
    (egl_window.xdg_toplevel_handle_configure sample_egl_client 7 1280 500 []).state =
      sample_egl_client.state ∧
    emitted sample_egl_client
      (egl_window.xdg_toplevel_handle_configure sample_egl_client 7 1000 500 []) =
      [Request.egl_window_resize 9 1000 500 0 0, Request.commit 5] := by
  decide

/-- The handler of `xdg_toplevel.configure` resizes exactly when the size is
not (0, 0) and both dimensions differ from the recorded ones. -/
theorem xdg_toplevel_handle_configure_cases (v : egl_window.Client) (xdg_toplevel : Handle)
    (w h : Int) (states : List Nat) :
    ((w = 0 ∧ h = 0) ∨ v.state.old_w = w ∨ v.state.old_h = h →
      egl_window.xdg_toplevel_handle_configure v xdg_toplevel w h states = v) ∧
    (¬ (w = 0 ∧ h = 0) → v.state.old_w ≠ w → v.state.old_h ≠ h →
      (egl_window.xdg_toplevel_handle_configure v xdg_toplevel w h states).state.old_w = w ∧
      (egl_window.xdg_toplevel_handle_configure v xdg_toplevel w h states).state.old_h = h ∧
      emitted v (egl_window.xdg_toplevel_handle_configure v xdg_toplevel w h states) =
        [Request.egl_window_resize v.state.native_window w h 0 0,
         Request.commit v.state.wl_surface]) := by
  constructor
  · intro hc
    unfold egl_window.xdg_toplevel_handle_configure
    split_ifs with h1 h2
    · rfl
    · rcases hc with hc | hc | hc
      · exact absurd hc h1
      · exact absurd hc h2.1
      · exact absurd hc h2.2
    · rfl
  · intro h0 hw hh
    simp [egl_window.xdg_toplevel_handle_configure, h0, hw, hh, emitted]

/-! ## Start-up without the mandatory globals -/

/-- C15 on the failing input: the registry announces only `wl_shm`.  `main` of
`frame.cpp` and of `pnt_events.cpp` makes no test after the round-trip: it
creates the surface on the `NULL` compositor (target 0), the xdg surface on the
`NULL` shell, the toplevel, and requests the frame callback.  On the same
announcements `egl_window.cpp` exits with "No compositor or XDG" before any
surface is created. -/
theorem startup_without_compositor_goes_on :
    (frame.main_startup true [⟨1, "wl_shm", 1⟩]).out =
      [Request.get_registry 1 2, Request.registry_bind 2 1 "wl_shm" 1 3,
       Request.create_surface 0 4, Request.get_xdg_surface 0 4 5, Request.get_toplevel 5 6,
       Request.set_title 6 "Example client", Request.commit 4, Request.frame 4 7] ∧
    (pnt_events.main_startup true [⟨1, "wl_shm", 1⟩]).out =
      [Request.get_registry 1 2, Request.registry_bind 2 1 "wl_shm" 1 3,
       Request.create_surface 0 4, Request.get_xdg_surface 0 4 5, Request.get_toplevel 5 6,
       Request.set_title 6 "Example client", Request.commit 4, Request.frame 4 7] ∧
    (match egl_window.main_startup true [⟨1, "wl_shm", 1⟩] true with
      | Except.error e => (some e.1, e.2.out)
      | Except.ok v => (none, v.out)) =
      (some egl_window.Exit.no_compositor_or_xdg, [Request.get_registry 1 2]) := by
  decide

/-- The registry handler of `egl_window.cpp` sets the compositor and the shell
only on their announcements, and sends bind requests only. -/
theorem egl_registry_fold (registry : Handle) (globals : List Global) :
    ∀ v : egl_window.Client,
      ((∀ g ∈ globals, g.interface ≠ "wl_compositor") →
        (globals.foldl (fun u g =>
          egl_window.global_registry_handler u registry g.name g.interface g.version)
          v).state.wl_compositor = v.state.wl_compositor) ∧
      ((∀ g ∈ globals, g.interface ≠ "xdg_wm_base") →
        (globals.foldl (fun u g =>
          egl_window.global_registry_handler u registry g.name g.interface g.version)
          v).state.xdg_wm_base = v.state.xdg_wm_base) ∧
      ((∀ r ∈ v.out, is_create_surface r = false) →
        ∀ r ∈ (globals.foldl (fun u g =>
          egl_window.global_registry_handler u registry g.name g.interface g.version)
          v).out, is_create_surface r = false) := by
  induction globals with
  | nil => intro v; exact ⟨fun _ => rfl, fun _ => rfl, fun h => h⟩
  | cons g globals ih =>
    intro v
    obtain ⟨ih1, ih2, ih3⟩ :=
      ih (egl_window.global_registry_handler v registry g.name g.interface g.version)
    simp only [List.foldl_cons]
    refine ⟨?_, ?_, ?_⟩
    · intro h
      rw [ih1 (fun x hx => h x (by simp [hx]))]
      have hg : g.interface ≠ "wl_compositor" := h g (by simp)
      unfold egl_window.global_registry_handler
      rw [if_neg hg]
      by_cases h2 : g.interface = "xdg_wm_base"
      · rw [if_pos h2]
      · rw [if_neg h2]
    · intro h
      rw [ih2 (fun x hx => h x (by simp [hx]))]
      have hg : g.interface ≠ "xdg_wm_base" := h g (by simp)
      unfold egl_window.global_registry_handler
      by_cases h1 : g.interface = "wl_compositor"
      · rw [if_pos h1]
      · rw [if_neg h1, if_neg hg]
    · intro h
      apply ih3
      unfold egl_window.global_registry_handler
      split_ifs
      · intro r hr
        simp only [List.mem_append, List.mem_singleton] at hr
        rcases hr with hr | rfl
        · exact h r hr
        · rfl
      · intro r hr
        simp only [List.mem_append, List.mem_singleton] at hr
        rcases hr with hr | rfl
        · exact h r hr
        · rfl
      · exact h

/-- What C15 asks holds in `egl_window.cpp`: whenever the announced globals
lack the compositor or the shell, start-up ends in `exit(1)`, on a failed
connection or with "No compositor or XDG", and no surface has been created. -/
theorem egl_window_startup_missing_capability (connected : Bool) (globals : List Global)
    (surface_created : Bool)
    (h : (∀ g ∈ globals, g.interface ≠ "wl_compositor") ∨
      (∀ g ∈ globals, g.interface ≠ "xdg_wm_base")) :
    ∃ e v, egl_window.main_startup connected globals surface_created = Except.error (e, v) ∧
      (e = egl_window.Exit.cannot_connect ∨ e = egl_window.Exit.no_compositor_or_xdg) ∧
      ∀ r ∈ v.out, is_create_surface r = false := by
  unfold egl_window.main_startup egl_window.get_server_references
  cases connected with
  | false => exact ⟨_, _, rfl, Or.inl rfl, by simp⟩
  | true =>
    simp only [Bool.true_eq_false, if_false]
    obtain ⟨f1, f2, f3⟩ := egl_registry_fold 2 globals
      { state := egl_window.client_state_zero, objects := 0 + 2,
        out := [] ++ [Request.get_registry (0 + 1) (0 + 2)], sys := [] }
    have hz : (List.foldl (fun u g =>
        egl_window.global_registry_handler u (0 + 2) g.name g.interface g.version)
        ({ state := egl_window.client_state_zero, objects := 0 + 2,
           out := [] ++ [Request.get_registry (0 + 1) (0 + 2)], sys := [] } :
          egl_window.Client) globals).state.wl_compositor = 0 ∨
        (List.foldl (fun u g =>
        egl_window.global_registry_handler u (0 + 2) g.name g.interface g.version)
        ({ state := egl_window.client_state_zero, objects := 0 + 2,
           out := [] ++ [Request.get_registry (0 + 1) (0 + 2)], sys := [] } :
          egl_window.Client) globals).state.xdg_wm_base = 0 := by
      rcases h with h | h
      · exact Or.inl (f1 h)
      · exact Or.inr (f2 h)
    rw [if_pos hz]
    refine ⟨_, _, rfl, Or.inr rfl, ?_⟩
    apply f3
    intro r hr
    simp at hr
    subst hr
    rfl

/-! ## The dispatch loop -/

/-- C17 on the failing input: the first call of `wl_display_dispatch` returns
-1, the connection is severed.  The loop goes on: it calls dispatch again, and
`main` returns only when a call returns 0; while the calls return -1 it has not
returned. -/
theorem dispatch_loop_goes_on_after_error :
    main_dispatch_loop [-1, -1, 3, 0] = (4, some 0) ∧
    main_dispatch_loop [-1] = (1, none) ∧
    main_dispatch_loop [-1, -1, -1, -1, -1] = (5, none) := by
  decide

/-- The loop ends at the first call of dispatch that returns 0, and at no
other: a return of -1 does not end it. -/
theorem main_dispatch_loop_returns (rs : List Int) :
    ((main_dispatch_loop rs).2 = some 0 ↔ (0 : Int) ∈ rs) ∧
    ((main_dispatch_loop rs).2 = none ↔ (0 : Int) ∉ rs) ∧
    ((0 : Int) ∉ rs → (main_dispatch_loop rs).1 = rs.length) := by
  induction rs with
  | nil => simp [main_dispatch_loop]
  | cons r rs ih =>
    obtain ⟨ih1, ih2, ih3⟩ := ih
    unfold main_dispatch_loop
    by_cases hr : r = 0
    · subst hr; simp
    · have hr' : ¬ (0 : Int) = r := fun h => hr h.symm
      simp only [ne_eq, hr, not_false_eq_true, if_true, List.mem_cons, hr', false_or,
        List.length_cons]
      refine ⟨ih1, ih2, fun h => ?_⟩
      rw [ih3 h]

/-! ## Binds per interface -/

theorem binds_of_append (tag : String) (a b : List Request) :
    binds_of tag (a ++ b) = binds_of tag a + binds_of tag b := by
  simp [binds_of]

/-- One announcement handled by `registry_global` of `pnt_events.cpp`: a bind of
the announced interface if it is one of the four, and nothing otherwise. -/
theorem pnt_registry_global_out (w : Client) (registry : Handle) (name : Nat)
    (interface : String) (version : Nat) (tag : String) :
    ∃ l, (pnt_events.registry_global w registry name interface version).out = w.out ++ l ∧
      binds_of tag l = if interface = tag ∧ tag ∈ pnt_events.needed then 1 else 0 := by
  unfold pnt_events.registry_global
  by_cases h1 : interface = "wl_shm"
  · rw [if_pos h1]
    subst h1
    refine ⟨_, rfl, ?_⟩
    by_cases ht : "wl_shm" = tag
    · subst ht; simp [binds_of, is_bind_of, pnt_events.needed]
    · simp [binds_of, is_bind_of, ht]
  rw [if_neg h1]
  by_cases h2 : interface = "wl_compositor"
  · rw [if_pos h2]
    subst h2
    refine ⟨_, rfl, ?_⟩
    by_cases ht : "wl_compositor" = tag
    · subst ht; simp [binds_of, is_bind_of, pnt_events.needed]
    · simp [binds_of, is_bind_of, ht]
  rw [if_neg h2]
  by_cases h3 : interface = "xdg_wm_base"
  · rw [if_pos h3]
    subst h3
    refine ⟨_, rfl, ?_⟩
    by_cases ht : "xdg_wm_base" = tag
    · subst ht; simp [binds_of, is_bind_of, pnt_events.needed]
    · simp [binds_of, is_bind_of, ht]
  rw [if_neg h3]
  by_cases h4 : interface = "wl_seat"
  · rw [if_pos h4]
    subst h4
    refine ⟨_, rfl, ?_⟩
    by_cases ht : "wl_seat" = tag
    · subst ht; simp [binds_of, is_bind_of, pnt_events.needed]
    · simp [binds_of, is_bind_of, ht]
  rw [if_neg h4]
  refine ⟨[], by simp, ?_⟩
  have : ¬ (interface = tag ∧ tag ∈ pnt_events.needed) := by
    rintro ⟨rfl, hm⟩
    simp [pnt_events.needed] at hm
    rcases hm with hm | hm | hm | hm
    · exact h1 hm
    · exact h2 hm
    · exact h3 hm
    · exact h4 hm
  rw [if_neg this]
  rfl

/-- One announcement handled by `registry_global` of `frame.cpp`. -/
theorem frame_registry_global_out (w : Client) (registry : Handle) (name : Nat)
    (interface : String) (version : Nat) (tag : String) :
    ∃ l, (frame.registry_global w registry name interface version).out = w.out ++ l ∧
      binds_of tag l = if interface = tag ∧ tag ∈ frame.needed then 1 else 0 := by
  unfold frame.registry_global
  by_cases h1 : interface = "wl_shm"
  · rw [if_pos h1]
    subst h1
    refine ⟨_, rfl, ?_⟩
    by_cases ht : "wl_shm" = tag
    · subst ht; simp [binds_of, is_bind_of, frame.needed]
    · simp [binds_of, is_bind_of, ht]
  rw [if_neg h1]
  by_cases h2 : interface = "wl_compositor"
  · rw [if_pos h2]
    subst h2
    refine ⟨_, rfl, ?_⟩
    by_cases ht : "wl_compositor" = tag
    · subst ht; simp [binds_of, is_bind_of, frame.needed]
    · simp [binds_of, is_bind_of, ht]
  rw [if_neg h2]
  by_cases h3 : interface = "xdg_wm_base"
  · rw [if_pos h3]
    subst h3
    refine ⟨_, rfl, ?_⟩
    by_cases ht : "xdg_wm_base" = tag
    · subst ht; simp [binds_of, is_bind_of, frame.needed]
    · simp [binds_of, is_bind_of, ht]
  rw [if_neg h3]
  refine ⟨[], by simp, ?_⟩
  have : ¬ (interface = tag ∧ tag ∈ frame.needed) := by
    rintro ⟨rfl, hm⟩
    simp [frame.needed] at hm
    rcases hm with hm | hm | hm
    · exact h1 hm
    · exact h2 hm
    · exact h3 hm
  rw [if_neg this]
  rfl

theorem announced_cons (tag : String) (g : Global) (globals : List Global) :
    announced tag (g :: globals) = (if g.interface = tag then 1 else 0) + announced tag globals := by
  by_cases h : g.interface = tag
  · simp [announced, List.filter_cons, h]; omega
  · simp [announced, List.filter_cons, h]

theorem pnt_announce_out (tag : String) (globals : List Global) :
    ∀ w : Client, ∃ l, (pnt_events.announce w globals).out = w.out ++ l ∧
      binds_of tag l = if tag ∈ pnt_events.needed then announced tag globals else 0 := by
  induction globals with
  | nil =>
    intro w
    refine ⟨[], by simp [pnt_events.announce], ?_⟩
    split_ifs <;> rfl
  | cons g globals ih =>
    intro w
    obtain ⟨l1, h1, b1⟩ :=
      pnt_registry_global_out w w.state.wl_registry g.name g.interface g.version tag
    obtain ⟨l2, h2, b2⟩ :=
      ih (pnt_events.registry_global w w.state.wl_registry g.name g.interface g.version)
    refine ⟨l1 ++ l2, ?_, ?_⟩
    · simp only [pnt_events.announce, List.foldl_cons] at h2 ⊢
      rw [h2, h1, List.append_assoc]
    · rw [binds_of_append, b1, b2, announced_cons]
      by_cases hm : tag ∈ pnt_events.needed <;> by_cases hg : g.interface = tag <;>
        simp [hm, hg]

theorem frame_announce_out (tag : String) (globals : List Global) :
    ∀ w : Client, ∃ l, (frame.announce w globals).out = w.out ++ l ∧
      binds_of tag l = if tag ∈ frame.needed then announced tag globals else 0 := by
  induction globals with
  | nil =>
    intro w
    refine ⟨[], by simp [frame.announce], ?_⟩
    split_ifs <;> rfl
  | cons g globals ih =>
    intro w
    obtain ⟨l1, h1, b1⟩ :=
      frame_registry_global_out w w.state.wl_registry g.name g.interface g.version tag
    obtain ⟨l2, h2, b2⟩ :=
      ih (frame.registry_global w w.state.wl_registry g.name g.interface g.version)
    refine ⟨l1 ++ l2, ?_, ?_⟩
    · simp only [frame.announce, List.foldl_cons] at h2 ⊢
      rw [h2, h1, List.append_assoc]
    · rw [binds_of_append, b1, b2, announced_cons]
      by_cases hm : tag ∈ frame.needed <;> by_cases hg : g.interface = tag <;>
        simp [hm, hg]

/-- C16, as stated, fails: a registry that announces `wl_seat` under the names
1 and 2 makes the pointer client bind `wl_seat` twice, and one that announces
`wl_shm` twice makes the frame client bind `wl_shm` twice. -/
theorem interface_bound_twice :
    emitted (frame.main_connect true)
        (pnt_events.announce (frame.main_connect true)
          [⟨1, "wl_seat", 5⟩, ⟨2, "wl_seat", 5⟩]) =
      [Request.registry_bind 2 1 "wl_seat" 5 3, Request.registry_bind 2 2 "wl_seat" 5 4] ∧
    binds_of "wl_seat"
      (emitted (frame.main_connect true)
        (pnt_events.announce (frame.main_connect true)
          [⟨1, "wl_seat", 5⟩, ⟨2, "wl_seat", 5⟩])) = 2 ∧
    binds_of "wl_shm"
      (emitted (frame.main_connect true)
        (frame.announce (frame.main_connect true)
          [⟨1, "wl_shm", 1⟩, ⟨7, "wl_shm", 1⟩])) = 2 := by
  decide

/-- C16, amended: for every sequence of announcements delivered to
`registry_global`, the client issues exactly one bind request for each
announcement of an interface it binds (wl_shm, wl_compositor, xdg_wm_base, and
wl_seat in the pointer client) and none for another interface; hence at most
one bind request for an interface that is announced at most once. -/
theorem binds_follow_announcements (w : Client) (globals : List Global) (tag : String) :
    binds_of tag (emitted w (pnt_events.announce w globals)) =
      (if tag ∈ pnt_events.needed then announced tag globals else 0) ∧
    binds_of tag (emitted w (frame.announce w globals)) =
      (if tag ∈ frame.needed then announced tag globals else 0) ∧
    (announced tag globals ≤ 1 →
      binds_of tag (emitted w (pnt_events.announce w globals)) ≤ 1 ∧
      binds_of tag (emitted w (frame.announce w globals)) ≤ 1) := by
  obtain ⟨l1, h1, b1⟩ := pnt_announce_out tag globals w
  obtain ⟨l2, h2, b2⟩ := frame_announce_out tag globals w
  rw [emitted_append _ _ _ h1, emitted_append _ _ _ h2, b1, b2]
  refine ⟨rfl, rfl, fun h => ⟨?_, ?_⟩⟩
  · split_ifs
    · exact h
    · omega
  · split_ifs
    · exact h
    · omega

/-- C16, amended, on the registry of the sample pointer client, where each
interface is announced once. -/
theorem binds_follow_announcements_witness :
    binds_of "wl_seat"
      (emitted (frame.main_connect true)
        (pnt_events.announce (frame.main_connect true)
          (sample_globals ++ [⟨4, "wl_seat", 7⟩]))) ≤ 1 ∧
    binds_of "wl_seat"
      (emitted (frame.main_connect true)
        (frame.announce (frame.main_connect true)
          (sample_globals ++ [⟨4, "wl_seat", 7⟩]))) ≤ 1 := by
  have h := (binds_follow_announcements (frame.main_connect true)
    (sample_globals ++ [⟨4, "wl_seat", 7⟩]) "wl_seat").2.2
  have ha : announced "wl_seat" (sample_globals ++ [⟨4, "wl_seat", 7⟩]) ≤ 1 := by decide
  exact h ha

/-! ## The shared-memory file -/

theorem failed_attempts_opens (os : Os) (n k : Nat) :
    ((failed_attempts os n k).filter is_shm_open).length = n ∧
    (failed_attempts os n k).filter is_ftruncate = [] := by
  induction n generalizing k with
  | zero => simp [failed_attempts]
  | succ n ih =>
    obtain ⟨h1, h2⟩ := ih (k + 1)
    simp [failed_attempts, List.filter_cons, is_shm_open, is_ftruncate, h1, h2]

/-- When every `shm_open` reports `EEXIST`, the loop entered with `n + 1`
retries makes `n + 1` attempts and fails. -/
theorem create_shm_file_loop_eexist (os : Os)
    (h : ∀ k name, (os.shm_open k name).ret < 0 ∧ (os.shm_open k name).errno = Errno.EEXIST)
    (n : Nat) : ∀ k, create_shm_file_loop os (n + 1) k = (-1, failed_attempts os (n + 1) k) := by
  induction n with
  | zero =>
    intro k
    have hk := h k (shm_name (os.clock k))
    simp [create_shm_file_loop, failed_attempts, not_le.2 hk.1]
  | succ n ih =>
    intro k
    have hk := h k (shm_name (os.clock k))
    rw [create_shm_file_loop]
    simp only [not_le.2 hk.1, if_false, hk.2, and_true, Nat.succ_pos, if_true, ih (k + 1)]
    simp [failed_attempts]

/-- C18: if every exclusive create reports that the name exists, then
`create_shm_file` makes exactly 100 create attempts and returns -1, and
`allocate_shm_file` returns -1 without any resize. -/
theorem retry_bound (os : Os) (size : Nat)
    (h : ∀ k name, (os.shm_open k name).ret < 0 ∧ (os.shm_open k name).errno = Errno.EEXIST) :
    (create_shm_file os).1 = -1 ∧
    ((create_shm_file os).2.filter is_shm_open).length = 100 ∧
    (create_shm_file os).2 = failed_attempts os 100 0 ∧
    (allocate_shm_file os size).1 = -1 ∧
    (allocate_shm_file os size).2.filter is_ftruncate = [] := by
  have hc : create_shm_file os = (-1, failed_attempts os 100 0) :=
    create_shm_file_loop_eexist os h 99 0
  have ha : allocate_shm_file os size = (-1, failed_attempts os 100 0) := by
    simp [allocate_shm_file, hc]
  rw [hc, ha]
  exact ⟨rfl, (failed_attempts_opens os 100 0).1, rfl, rfl, (failed_attempts_opens os 100 0).2⟩

/-- C18 on an operating system where every name exists. -/
theorem retry_bound_witness :
    (create_shm_file os_eexist).1 = -1 ∧
    ((create_shm_file os_eexist).2.filter is_shm_open).length = 100 ∧
    (allocate_shm_file os_eexist 1228800).1 = -1 :=
  ⟨(retry_bound os_eexist 1228800 (fun _ _ => ⟨show ((-1 : Int) < 0) by decide, rfl⟩)).1,
    (retry_bound os_eexist 1228800 (fun _ _ => ⟨show ((-1 : Int) < 0) by decide, rfl⟩)).2.1,
    (retry_bound os_eexist 1228800 (fun _ _ => ⟨show ((-1 : Int) < 0) by decide, rfl⟩)).2.2.2.1⟩

/-- A run of the loop that returns a descriptor: some failed attempts, then the
successful create and at once the unlink of its name. -/
theorem create_shm_file_loop_success (os : Os) (n : Nat) :
    ∀ k, 0 ≤ (create_shm_file_loop os n k).1 →
      ∃ j, j ≤ n - 1 ∧
        (∀ i, i < j → (os.shm_open (k + i) (shm_name (os.clock (k + i)))).ret < 0) ∧
        (create_shm_file_loop os n k).1 =
          (os.shm_open (k + j) (shm_name (os.clock (k + j)))).ret ∧
        (create_shm_file_loop os n k).2 = failed_attempts os j k ++
          [Syscall.clock_gettime, Syscall.shm_open (shm_name (os.clock (k + j))),
           Syscall.shm_unlink (shm_name (os.clock (k + j)))] := by
  induction n with
  | zero =>
    intro k h
    rw [create_shm_file_loop] at h ⊢
    by_cases hr : 0 ≤ (os.shm_open k (shm_name (os.clock k))).ret
    · simp only [hr, if_true]
      exact ⟨0, by omega, by simp, rfl, by simp [failed_attempts]⟩
    · simp [hr] at h
  | succ n ih =>
    intro k h
    rw [create_shm_file_loop] at h ⊢
    by_cases hr : 0 ≤ (os.shm_open k (shm_name (os.clock k))).ret
    · simp only [hr, if_true]
      exact ⟨0, by omega, by simp, rfl, by simp [failed_attempts]⟩
    · by_cases hc : 0 < n ∧ (os.shm_open k (shm_name (os.clock k))).errno = Errno.EEXIST
      · simp only [hr, if_false, hc, and_self, if_true] at h ⊢
        obtain ⟨j, hj, hfail, hfd, htrace⟩ := ih (k + 1) h
        refine ⟨j + 1, by omega, ?_, ?_, ?_⟩
        · intro i hi
          rcases i with _ | i
          · simpa using not_le.1 hr
          · have := hfail i (by omega)
            rwa [show k + 1 + i = k + (i + 1) by omega] at this
        · rw [hfd, show k + 1 + j = k + (j + 1) by omega]
        · rw [htrace, failed_attempts, show k + 1 + j = k + (j + 1) by omega]
          simp
      · simp [hr, hc] at h

/-- C19: for every run of `create_shm_file` that returns a descriptor, the run
is some failed creates (fewer than 100, none of which created a name) followed
by the successful create and, immediately after it and last before the return,
the unlink of the very name that was created. -/
theorem unlink_before_return (os : Os) (h : 0 ≤ (create_shm_file os).1) :
    ∃ k, k < 100 ∧
      (∀ i, i < k → (os.shm_open i (shm_name (os.clock i))).ret < 0) ∧
      (create_shm_file os).1 = (os.shm_open k (shm_name (os.clock k))).ret ∧
      (create_shm_file os).2 = failed_attempts os k 0 ++
        [Syscall.clock_gettime, Syscall.shm_open (shm_name (os.clock k)),
         Syscall.shm_unlink (shm_name (os.clock k))] := by
  obtain ⟨j, hj, hfail, hfd, htrace⟩ := create_shm_file_loop_success os 100 0 h
  refine ⟨j, by omega, ?_, ?_, ?_⟩
  · intro i hi
    simpa using hfail i hi
  · simpa using hfd
  · simpa using htrace

/-- C19 on an operating system where the third name is free: the trace ends
with the create and the unlink of that name. -/
theorem unlink_before_return_witness :
    0 ≤ (create_shm_file os_third).1 ∧
    ∃ k, k < 100 ∧
      (∀ i, i < k → (os_third.shm_open i (shm_name (os_third.clock i))).ret < 0) ∧
      (create_shm_file os_third).1 = (os_third.shm_open k (shm_name (os_third.clock k))).ret ∧
      (create_shm_file os_third).2 = failed_attempts os_third k 0 ++
        [Syscall.clock_gettime, Syscall.shm_open (shm_name (os_third.clock k)),
         Syscall.shm_unlink (shm_name (os_third.clock k))] :=
  ⟨by decide, unlink_before_return os_third (by decide)⟩

/-! ## The animation phase -/

theorem round_half_even_err (x : ℚ) : |((round_half_even x : Int) : ℚ) - x| ≤ 1 / 2 := by
  unfold round_half_even
  simp only []
  have h1 := Int.floor_le x
  have h2 := Int.lt_floor_add_one x
  rw [abs_le]
  by_cases a : x - (⌊x⌋ : ℚ) < 1 / 2
  · rw [if_pos a]
    constructor <;> linarith
  · rw [if_neg a]
    by_cases b : 1 / 2 < x - (⌊x⌋ : ℚ)
    · rw [if_pos b]
      push_cast
      constructor <;> linarith
    · rw [if_neg b]
      by_cases c : ⌊x⌋ % 2 = 0
      · rw [if_pos c]
        constructor <;> linarith
      · rw [if_neg c]
        push_cast
        constructor <;> linarith

theorem float_round_zero (p : Nat) (emin : Int) : float_round p emin 0 = 0 := by
  simp [float_round, round_half_even]

theorem float_round_err (p : Nat) (emin : Int) (q : ℚ) :
    |float_round p emin q - q| ≤ |q| * 2 ^ (-(p : Int)) + 2 ^ (emin - (p : Int)) := by
  have hpos1 : (0 : ℚ) < 2 ^ (-(p : Int)) := zpow_pos (by norm_num) _
  have hpos2 : (0 : ℚ) < 2 ^ (emin - (p : Int)) := zpow_pos (by norm_num) _
  by_cases hq : q = 0
  · subst hq
    rw [float_round_zero]
    simp only [sub_self, abs_zero, zero_mul, zero_add]
    exact hpos2.le
  have hqa : 0 < |q| := abs_pos.2 hq
  unfold float_round
  simp only []
  generalize he : max (Int.log 2 |q|) emin = e
  have hulp : (0 : ℚ) < 2 ^ (e - ((p : Int) - 1)) := zpow_pos (by norm_num) _
  have hr := round_half_even_err (q / 2 ^ (e - ((p : Int) - 1)))
  have hfac : ((round_half_even (q / 2 ^ (e - ((p : Int) - 1))) : Int) : ℚ) *
      2 ^ (e - ((p : Int) - 1)) - q =
      (((round_half_even (q / 2 ^ (e - ((p : Int) - 1))) : Int) : ℚ) -
        q / 2 ^ (e - ((p : Int) - 1))) * 2 ^ (e - ((p : Int) - 1)) := by
    field_simp
  have hhalf : (2 : ℚ) ^ (e - ((p : Int) - 1)) = 2 ^ (e - (p : Int)) * 2 := by
    rw [show e - ((p : Int) - 1) = (e - (p : Int)) + 1 by ring, zpow_add_one₀ (by norm_num)]
  have h1 : |((round_half_even (q / 2 ^ (e - ((p : Int) - 1))) : Int) : ℚ) *
      2 ^ (e - ((p : Int) - 1)) - q| ≤ 2 ^ (e - (p : Int)) := by
    rw [hfac, abs_mul, abs_of_pos hulp]
    calc _ ≤ 1 / 2 * (2 : ℚ) ^ (e - ((p : Int) - 1)) :=
          mul_le_mul_of_nonneg_right hr hulp.le
      _ = 2 ^ (e - (p : Int)) := by rw [hhalf]; ring
  refine h1.trans ?_
  rcases le_total (Int.log 2 |q|) emin with h | h
  · rw [max_eq_right h] at he
    subst he
    have := mul_nonneg hqa.le hpos1.le
    linarith
  · rw [max_eq_left h] at he
    subst he
    have hlog : (2 : ℚ) ^ Int.log 2 |q| ≤ |q| := by
      have := Int.zpow_log_le_self (b := 2) (r := |q|) (by norm_num) hqa
      exact_mod_cast this
    have : (2 : ℚ) ^ (Int.log 2 |q| - (p : Int)) = 2 ^ Int.log 2 |q| * 2 ^ (-(p : Int)) := by
      rw [sub_eq_add_neg, zpow_add₀ (by norm_num)]
    rw [this]
    have := mul_le_mul_of_nonneg_right hlog hpos1.le
    linarith

theorem round_double_err (q : ℚ) : |round_double q - q| ≤ |q| / 2 ^ 53 + 1 / 2 ^ 1075 := by
  have h := float_round_err 53 (-1022) q
  have e1 : (2 : ℚ) ^ (-((53 : Nat) : Int)) = 1 / 2 ^ 53 := by
    rw [zpow_neg, zpow_natCast, one_div]
  have e2 : (2 : ℚ) ^ ((-1022 : Int) - ((53 : Nat) : Int)) = 1 / 2 ^ 1075 := by
    rw [show ((-1022 : Int) - ((53 : Nat) : Int)) = -((1075 : Nat) : Int) by norm_num, zpow_neg,
      zpow_natCast, one_div]
  rw [e1, e2] at h
  unfold round_double
  rw [div_eq_mul_one_div]
  exact h

theorem round_float_err (q : ℚ) : |round_float q - q| ≤ |q| / 2 ^ 24 + 1 / 2 ^ 150 := by
  have h := float_round_err 24 (-126) q
  have e1 : (2 : ℚ) ^ (-((24 : Nat) : Int)) = 1 / 2 ^ 24 := by
    rw [zpow_neg, zpow_natCast, one_div]
  have e2 : (2 : ℚ) ^ ((-126 : Int) - ((24 : Nat) : Int)) = 1 / 2 ^ 150 := by
    rw [show ((-126 : Int) - ((24 : Nat) : Int)) = -((150 : Nat) : Int) by norm_num, zpow_neg,
      zpow_natCast, one_div]
  rw [e1, e2] at h
  unfold round_float
  rw [div_eq_mul_one_div]
  exact h

theorem abs_le_add_abs_sub (x y : ℚ) : |x| ≤ |y| + |x - y| := by
  have h := abs_add y (x - y)
  rwa [add_sub_cancel] at h

/-- One `offset += elapsed / 1000.0 * 24` moves the phase by `elapsed / 1000 * 24`
up to the rounding of the four operations. -/
theorem phase_add_err (p : ℚ) (d : Int) :
    |phase_add p d - (p + (d : ℚ) / 1000 * 24)| ≤
      (|p| + |(d : ℚ) / 1000 * 24|) / 2 ^ 23 + 1 / 2 ^ 149 := by
  unfold phase_add
  simp only []
  have hm0 : |(d : ℚ) / 1000 * 24| = |(d : ℚ) / 1000| * 24 := by
    rw [abs_mul, abs_of_pos (by norm_num : (0 : ℚ) < 24)]
  rw [hm0]
  generalize (d : ℚ) / 1000 = a
  have h1 := round_double_err a
  generalize round_double a = x1 at h1 ⊢
  have h2 := round_double_err (x1 * 24)
  generalize round_double (x1 * 24) = x2 at h2 ⊢
  have h3 := round_double_err (p + x2)
  generalize round_double (p + x2) = x3 at h3 ⊢
  have h4 := round_float_err x3
  generalize round_float x3 = x4 at h4 ⊢
  have hm : |x1 * 24| = |x1| * 24 := by
    rw [abs_mul, abs_of_pos (by norm_num : (0 : ℚ) < 24)]
  rw [hm] at h2
  have hη : (1 : ℚ) / 2 ^ 1075 ≤ 1 / 2 ^ 200 := by
    apply one_div_le_one_div_of_le (by positivity)
    exact pow_le_pow_right₀ (by norm_num) (by norm_num)
  have hη0 : (0 : ℚ) ≤ 1 / 2 ^ 1075 := by positivity
  generalize (1 : ℚ) / 2 ^ 1075 = η at *
  have t1 := abs_le_add_abs_sub x1 a
  have t2 := abs_le_add_abs_sub x2 (x1 * 24)
  rw [hm] at t2
  have t3 := abs_le_add_abs_sub x3 (p + x2)
  have t3a := abs_add p x2
  have key : |x4 - (p + a * 24)| ≤
      |x4 - x3| + |x3 - (p + x2)| + |x2 - x1 * 24| + 24 * |x1 - a| := by
    have e : x4 - (p + a * 24) = (x4 - x3) + (x3 - (p + x2)) + ((x2 - x1 * 24) + 24 * (x1 - a)) := by
      ring
    have e24 : |24 * (x1 - a)| = 24 * |x1 - a| := by
      rw [abs_mul, abs_of_pos (by norm_num : (0 : ℚ) < 24)]
    rw [e]
    have s1 := abs_add_three (x4 - x3) (x3 - (p + x2)) ((x2 - x1 * 24) + 24 * (x1 - a))
    have s2 := abs_add (x2 - x1 * 24) (24 * (x1 - a))
    rw [e24] at s2
    linarith
  have ha0 := abs_nonneg a
  have hp0 := abs_nonneg p
  have n1 := abs_nonneg (x1 - a)
  have n2 := abs_nonneg (x2 - x1 * 24)
  have n3 := abs_nonneg (x3 - (p + x2))
  norm_num at h1 h2 h3 h4 hη ⊢
  linarith

theorem round_half_even_eq (x : ℚ) (m : Int) (h : |x - (m : ℚ)| < 1 / 2) :
    round_half_even x = m := by
  rw [abs_lt] at h
  obtain ⟨h1, h2⟩ := h
  unfold round_half_even
  simp only []
  rcases le_or_lt (m : ℚ) x with hx | hx
  · have hf : ⌊x⌋ = m := by
      rw [Int.floor_eq_iff]
      constructor
      · exact hx
      · linarith
    rw [hf, if_pos (by linarith)]
  · have hf : ⌊x⌋ = m - 1 := by
      rw [Int.floor_eq_iff]
      push_cast
      constructor <;> linarith
    rw [hf]
    push_cast
    rw [if_neg (by linarith), if_pos (by linarith)]
    ring

theorem round_half_even_tie (x : ℚ) (m : Int)
    (h : x = (m : ℚ) + 1 / 2 ∨ x = (m : ℚ) - 1 / 2) (hm : m % 2 = 0) :
    round_half_even x = m := by
  unfold round_half_even
  simp only []
  rcases h with h | h
  · have hf : ⌊x⌋ = m := by
      rw [Int.floor_eq_iff]
      constructor <;> linarith
    rw [hf, if_neg (by linarith), if_neg (by linarith), if_pos hm]
  · have hf : ⌊x⌋ = m - 1 := by
      rw [Int.floor_eq_iff]
      push_cast
      constructor <;> linarith
    rw [hf]
    push_cast
    rw [if_neg (by linarith), if_neg (by linarith), if_neg (by omega)]
    ring

theorem int_log_two_eq (q : ℚ) (e : Int) (h1 : (2 : ℚ) ^ e ≤ |q|)
    (h2 : |q| < (2 : ℚ) ^ (e + 1)) : Int.log 2 |q| = e := by
  have hq : 0 < |q| := lt_of_lt_of_le (zpow_pos (by norm_num) _) h1
  apply le_antisymm
  · have := (Int.lt_zpow_iff_log_lt (R := ℚ) (b := 2) (by norm_num) (x := e + 1) hq).1
      (by exact_mod_cast h2)
    omega
  · exact (Int.zpow_le_iff_le_log (R := ℚ) (b := 2) (by norm_num) hq).1 (by exact_mod_cast h1)

/-- A rounding is settled by the power of two at or below `|q|` and the nearest
multiple of the unit in the last place. -/
theorem float_round_eq (p : Nat) (emin : Int) (q : ℚ) (e m : Int)
    (h1 : (2 : ℚ) ^ e ≤ |q|) (h2 : |q| < (2 : ℚ) ^ (e + 1)) (he : emin ≤ e)
    (hm : |q / 2 ^ (e - ((p : Int) - 1)) - (m : ℚ)| < 1 / 2) :
    float_round p emin q = (m : ℚ) * 2 ^ (e - ((p : Int) - 1)) := by
  unfold float_round
  simp only []
  rw [int_log_two_eq q e h1 h2, max_eq_left he, round_half_even_eq _ m hm]

/-- A rounding of a value half way between two values of the format. -/
theorem float_round_tie (p : Nat) (emin : Int) (q : ℚ) (e m : Int)
    (h1 : (2 : ℚ) ^ e ≤ |q|) (h2 : |q| < (2 : ℚ) ^ (e + 1)) (he : emin ≤ e)
    (ht : q / 2 ^ (e - ((p : Int) - 1)) = (m : ℚ) + 1 / 2 ∨
      q / 2 ^ (e - ((p : Int) - 1)) = (m : ℚ) - 1 / 2) (hm : m % 2 = 0) :
    float_round p emin q = (m : ℚ) * 2 ^ (e - ((p : Int) - 1)) := by
  unfold float_round
  simp only []
  rw [int_log_two_eq q e h1 h2, max_eq_left he, round_half_even_tie _ m ht hm]

/-- The addition for an elapsed time of -2^31 ms, on the phase 0. -/
theorem phase_add_gap : phase_add 0 (-2147483648) = -51539608 := by
  have r1 : round_double ((((-2147483648) : Int) : ℚ) / 1000) = -1152921504606847 / 536870912 := by
    unfold round_double
    rw [float_round_eq 53 (-1022) _ 21 (-4611686018427388) (by norm_num [abs_of_neg])
      (by norm_num [abs_of_neg])
      (by norm_num) (by norm_num [abs_lt])]
    norm_num
  have r2 : round_double ((-1152921504606847 / 536870912 : ℚ) * 24) =
      -3458764513820541 / 67108864 := by
    unfold round_double
    rw [float_round_eq 53 (-1022) _ 25 (-6917529027641082) (by norm_num [abs_of_neg])
      (by norm_num [abs_of_neg])
      (by norm_num) (by norm_num [abs_lt])]
    norm_num
  have r3 : round_double ((0 : ℚ) + (-3458764513820541 / 67108864)) =
      -3458764513820541 / 67108864 := by
    unfold round_double
    rw [float_round_eq 53 (-1022) _ 25 (-6917529027641082) (by norm_num [abs_of_neg])
      (by norm_num [abs_of_neg])
      (by norm_num) (by norm_num [abs_lt])]
    norm_num
  have r4 : round_float ((-3458764513820541 / 67108864 : ℚ)) = -51539608 := by
    unfold round_float
    rw [float_round_eq 24 (-126) _ 25 (-12884902) (by norm_num [abs_of_neg])
      (by norm_num [abs_of_neg])
      (by norm_num) (by norm_num [abs_lt])]
    norm_num
  unfold phase_add
  simp only []
  rw [r1, r2, r3, r4]

/-- The addition for 1000 ms on the phase 0: every operation is exact. -/
theorem phase_add_second : phase_add 0 1000 = 24 := by
  have r1 : round_double (((1000 : Int) : ℚ) / 1000) = 1 := by
    unfold round_double
    rw [float_round_eq 53 (-1022) _ 0 4503599627370496 (by norm_num [abs_of_pos])
      (by norm_num [abs_of_pos])
      (by norm_num) (by norm_num [abs_lt])]
    norm_num
  have r2 : round_double ((1 : ℚ) * 24) = 24 := by
    unfold round_double
    rw [float_round_eq 53 (-1022) _ 4 6755399441055744 (by norm_num [abs_of_pos])
      (by norm_num [abs_of_pos])
      (by norm_num) (by norm_num [abs_lt])]
    norm_num
  have r3 : round_double ((0 : ℚ) + 24) = 24 := by
    unfold round_double
    rw [float_round_eq 53 (-1022) _ 4 6755399441055744 (by norm_num [abs_of_pos])
      (by norm_num [abs_of_pos])
      (by norm_num) (by norm_num [abs_lt])]
    norm_num
  have r4 : round_float ((24 : ℚ)) = 24 := by
    unfold round_float
    rw [float_round_eq 24 (-126) _ 4 12582912 (by norm_num [abs_of_pos]) (by norm_num [abs_of_pos])
      (by norm_num) (by norm_num [abs_lt])]
    norm_num
  unfold phase_add
  simp only []
  rw [r1, r2, r3, r4]

/-- The addition for 500 ms on the phase 24: every operation is exact. -/
theorem phase_add_half : phase_add 24 500 = 36 := by
  have r1 : round_double (((500 : Int) : ℚ) / 1000) = 1 / 2 := by
    unfold round_double
    rw [float_round_eq 53 (-1022) _ (-1) 4503599627370496 (by norm_num [abs_of_pos])
      (by norm_num [abs_of_pos])
      (by norm_num) (by norm_num [abs_lt])]
    norm_num
  have r2 : round_double ((1 / 2 : ℚ) * 24) = 12 := by
    unfold round_double
    rw [float_round_eq 53 (-1022) _ 3 6755399441055744 (by norm_num [abs_of_pos])
      (by norm_num [abs_of_pos])
      (by norm_num) (by norm_num [abs_lt])]
    norm_num
  have r3 : round_double ((24 : ℚ) + 12) = 36 := by
    unfold round_double
    rw [float_round_eq 53 (-1022) _ 5 5066549580791808 (by norm_num [abs_of_pos])
      (by norm_num [abs_of_pos])
      (by norm_num) (by norm_num [abs_lt])]
    norm_num
  have r4 : round_float ((36 : ℚ)) = 36 := by
    unfold round_float
    rw [float_round_eq 24 (-126) _ 5 9437184 (by norm_num [abs_of_pos]) (by norm_num [abs_of_pos])
      (by norm_num) (by norm_num [abs_lt])]
    norm_num
  unfold phase_add
  simp only []
  rw [r1, r2, r3, r4]

/-- Ten additions for 100 ms each, from the phase 0: 2.4 is no `float`, and the
sum after ten of them is 23.999998. -/
theorem phase_add_tenths :
    phase_add 0 100 = 5033165 / 2097152 ∧
    phase_add (5033165 / 2097152) 100 = 5033165 / 1048576 ∧
    phase_add (5033165 / 1048576) 100 = 15099495 / 2097152 ∧
    phase_add (15099495 / 2097152) 100 = 5033165 / 524288 ∧
    phase_add (5033165 / 524288) 100 = 12 ∧
    phase_add 12 100 = 7549747 / 524288 ∧
    phase_add (7549747 / 524288) 100 = 4404019 / 262144 ∧
    phase_add (4404019 / 262144) 100 = 10066329 / 524288 ∧
    phase_add (10066329 / 524288) 100 = 2831155 / 131072 ∧
    phase_add (2831155 / 131072) 100 = 12582911 / 524288 := by
  have r1 : round_double (((100 : Int) : ℚ) / 1000) = 3602879701896397 / 36028797018963968 := by
    unfold round_double
    rw [float_round_eq 53 (-1022) _ (-4) 7205759403792794 (by norm_num [abs_of_pos])
      (by norm_num [abs_of_pos])
      (by norm_num) (by norm_num [abs_lt])]
    norm_num
  have r2 : round_double ((3602879701896397 / 36028797018963968 : ℚ) * 24) =
      1351079888211149 / 562949953421312 := by
    unfold round_double
    rw [float_round_tie 53 (-1022) _ 1 5404319552844596 (by norm_num [abs_of_pos])
      (by norm_num [abs_of_pos])
      (by norm_num) (Or.inr (by norm_num)) (by decide)]
    norm_num
  refine ⟨?_, ?_, ?_, ?_, ?_, ?_, ?_, ?_, ?_, ?_⟩
  · have r3 : round_double ((0 : ℚ) + 1351079888211149 / 562949953421312) =
      1351079888211149 / 562949953421312 := by
      unfold round_double
      rw [float_round_eq 53 (-1022) _ 1 5404319552844596 (by norm_num [abs_of_pos])
        (by norm_num [abs_of_pos])
        (by norm_num) (by norm_num [abs_lt])]
      norm_num
    have r4 : round_float ((1351079888211149 / 562949953421312 : ℚ)) = 5033165 / 2097152 := by
      unfold round_float
      rw [float_round_eq 24 (-126) _ 1 10066330 (by norm_num [abs_of_pos])
        (by norm_num [abs_of_pos])
        (by norm_num) (by norm_num [abs_lt])]
      norm_num
    unfold phase_add
    simp only []
    rw [r1, r2, r3, r4]
  · have r3 : round_double ((5033165 / 2097152 : ℚ) + 1351079888211149 / 562949953421312) =
      2702159830109389 / 562949953421312 := by
      unfold round_double
      rw [float_round_eq 53 (-1022) _ 2 5404319660218778 (by norm_num [abs_of_pos])
        (by norm_num [abs_of_pos])
        (by norm_num) (by norm_num [abs_lt])]
      norm_num
    have r4 : round_float ((2702159830109389 / 562949953421312 : ℚ)) = 5033165 / 1048576 := by
      unfold round_float
      rw [float_round_eq 24 (-126) _ 2 10066330 (by norm_num [abs_of_pos])
        (by norm_num [abs_of_pos])
        (by norm_num) (by norm_num [abs_lt])]
      norm_num
    unfold phase_add
    simp only []
    rw [r1, r2, r3, r4]
  · have r3 : round_double ((5033165 / 1048576 : ℚ) + 1351079888211149 / 562949953421312) =
      4053239772007629 / 562949953421312 := by
      unfold round_double
      rw [float_round_eq 53 (-1022) _ 2 8106479544015258 (by norm_num [abs_of_pos])
        (by norm_num [abs_of_pos])
        (by norm_num) (by norm_num [abs_lt])]
      norm_num
    have r4 : round_float ((4053239772007629 / 562949953421312 : ℚ)) = 15099495 / 2097152 := by
      unfold round_float
      rw [float_round_eq 24 (-126) _ 2 15099495 (by norm_num [abs_of_pos])
        (by norm_num [abs_of_pos])
        (by norm_num) (by norm_num [abs_lt])]
      norm_num
    unfold phase_add
    simp only []
    rw [r1, r2, r3, r4]
  · have r3 : round_double ((15099495 / 2097152 : ℚ) + 1351079888211149 / 562949953421312) =
      5404319713905869 / 562949953421312 := by
      unfold round_double
      rw [float_round_eq 53 (-1022) _ 3 5404319713905869 (by norm_num [abs_of_pos])
        (by norm_num [abs_of_pos])
        (by norm_num) (by norm_num [abs_lt])]
      norm_num
    have r4 : round_float ((5404319713905869 / 562949953421312 : ℚ)) = 5033165 / 524288 := by
      unfold round_float
      rw [float_round_eq 24 (-126) _ 3 10066330 (by norm_num [abs_of_pos])
        (by norm_num [abs_of_pos])
        (by norm_num) (by norm_num [abs_lt])]
      norm_num
    unfold phase_add
    simp only []
    rw [r1, r2, r3, r4]
  · have r3 : round_double ((5033165 / 524288 : ℚ) + 1351079888211149 / 562949953421312) =
      6755399655804109 / 562949953421312 := by
      unfold round_double
      rw [float_round_eq 53 (-1022) _ 3 6755399655804109 (by norm_num [abs_of_pos])
        (by norm_num [abs_of_pos])
        (by norm_num) (by norm_num [abs_lt])]
      norm_num
    have r4 : round_float ((6755399655804109 / 562949953421312 : ℚ)) = 12 := by
      unfold round_float
      rw [float_round_eq 24 (-126) _ 3 12582912 (by norm_num [abs_of_pos])
        (by norm_num [abs_of_pos])
        (by norm_num) (by norm_num [abs_lt])]
      norm_num
    unfold phase_add
    simp only []
    rw [r1, r2, r3, r4]
  · have r3 : round_double ((12 : ℚ) + 1351079888211149 / 562949953421312) =
      8106479329266893 / 562949953421312 := by
      unfold round_double
      rw [float_round_eq 53 (-1022) _ 3 8106479329266893 (by norm_num [abs_of_pos])
        (by norm_num [abs_of_pos])
        (by norm_num) (by norm_num [abs_lt])]
      norm_num
    have r4 : round_float ((8106479329266893 / 562949953421312 : ℚ)) = 7549747 / 524288 := by
      unfold round_float
      rw [float_round_eq 24 (-126) _ 3 15099494 (by norm_num [abs_of_pos])
        (by norm_num [abs_of_pos])
        (by norm_num) (by norm_num [abs_lt])]
      norm_num
    unfold phase_add
    simp only []
    rw [r1, r2, r3, r4]
  · have r3 : round_double ((7549747 / 524288 : ℚ) + 1351079888211149 / 562949953421312) =
      2364389750682419 / 140737488355328 := by
      unfold round_double
      rw [float_round_tie 53 (-1022) _ 4 4728779501364838 (by norm_num [abs_of_pos])
        (by norm_num [abs_of_pos])
        (by norm_num) (Or.inl (by norm_num)) (by decide)]
      norm_num
    have r4 : round_float ((2364389750682419 / 140737488355328 : ℚ)) = 4404019 / 262144 := by
      unfold round_float
      rw [float_round_eq 24 (-126) _ 4 8808038 (by norm_num [abs_of_pos]) (by norm_num [abs_of_pos])
        (by norm_num) (by norm_num [abs_lt])]
      norm_num
    unfold phase_add
    simp only []
    rw [r1, r2, r3, r4]
  · have r3 : round_double ((4404019 / 262144 : ℚ) + 1351079888211149 / 562949953421312) =
      2702159669048115 / 140737488355328 := by
      unfold round_double
      rw [float_round_tie 53 (-1022) _ 4 5404319338096230 (by norm_num [abs_of_pos])
        (by norm_num [abs_of_pos])
        (by norm_num) (Or.inl (by norm_num)) (by decide)]
      norm_num
    have r4 : round_float ((2702159669048115 / 140737488355328 : ℚ)) = 10066329 / 524288 := by
      unfold round_float
      rw [float_round_eq 24 (-126) _ 4 10066329 (by norm_num [abs_of_pos])
        (by norm_num [abs_of_pos])
        (by norm_num) (by norm_num [abs_lt])]
      norm_num
    unfold phase_add
    simp only []
    rw [r1, r2, r3, r4]
  · have r3 : round_double ((10066329 / 524288 : ℚ) + 1351079888211149 / 562949953421312) =
      3039929587413811 / 140737488355328 := by
      unfold round_double
      rw [float_round_tie 53 (-1022) _ 4 6079859174827622 (by norm_num [abs_of_pos])
        (by norm_num [abs_of_pos])
        (by norm_num) (Or.inl (by norm_num)) (by decide)]
      norm_num
    have r4 : round_float ((3039929587413811 / 140737488355328 : ℚ)) = 2831155 / 131072 := by
      unfold round_float
      rw [float_round_eq 24 (-126) _ 4 11324620 (by norm_num [abs_of_pos])
        (by norm_num [abs_of_pos])
        (by norm_num) (by norm_num [abs_lt])]
      norm_num
    unfold phase_add
    simp only []
    rw [r1, r2, r3, r4]
  · have r3 : round_double ((2831155 / 131072 : ℚ) + 1351079888211149 / 562949953421312) =
      3377699505779507 / 140737488355328 := by
      unfold round_double
      rw [float_round_tie 53 (-1022) _ 4 6755399011559014 (by norm_num [abs_of_pos])
        (by norm_num [abs_of_pos])
        (by norm_num) (Or.inl (by norm_num)) (by decide)]
      norm_num
    have r4 : round_float ((3377699505779507 / 140737488355328 : ℚ)) = 12582911 / 524288 := by
      unfold round_float
      rw [float_round_eq 24 (-126) _ 4 12582911 (by norm_num [abs_of_pos])
        (by norm_num [abs_of_pos])
        (by norm_num) (by norm_num [abs_lt])]
      norm_num
    unfold phase_add
    simp only []
    rw [r1, r2, r3, r4]

/-- The state `wl_surface_frame_done` leaves: the timestamp is recorded, and
the phase has moved by the elapsed time unless the recorded timestamp was 0. -/
theorem wl_surface_frame_done_state (os : Os) (w : Client) (cb : Handle) (time : Nat) :
    (wl_surface_frame_done os w cb time).state.last_frame = time ∧
    (wl_surface_frame_done os w cb time).state.offset =
      if w.state.last_frame ≠ 0 then
        phase_add w.state.offset (to_int32 (u32_sub time w.state.last_frame))
      else w.state.offset := by
  unfold wl_surface_frame_done
  simp only []
  generalize hw3 : (if w.state.last_frame ≠ 0 then _ else _ : Client) = w3
  have hoff : w3.state.offset =
      if w.state.last_frame ≠ 0 then
        phase_add w.state.offset (to_int32 (u32_sub time w.state.last_frame))
      else w.state.offset := by
    subst hw3; split <;> simp
  have hst : (draw_frame os w3).2.2.state = w3.state := by
    rcases draw_frame_cases os w3 with ⟨_, _, _, h⟩ | ⟨_, _, _, _, h⟩ <;> exact h
  simp [hst, hoff]

/-- The elapsed time the handler computes is the difference of the timestamps
when that difference is below 2^31. -/
theorem elapsed_exact (last time : Nat) (h1 : last ≤ time) (h2 : time - last < 2 ^ 31)
    (h3 : time < 2 ^ 32) : to_int32 (u32_sub time last) = (time : Int) - (last : Int) := by
  have hs : u32_sub time last = time - last := by
    unfold u32_sub
    omega
  rw [hs]
  unfold to_int32
  have hm : (time - last) % 2 ^ 32 = time - last := by omega
  rw [hm, if_pos h2]
  omega

/-- One firing after a recorded timestamp that is not 0. -/
theorem frame_done_adds (os : Os) (v : Client) (cb : Handle) (time : Nat)
    (h0 : v.state.last_frame ≠ 0) (h1 : v.state.last_frame ≤ time)
    (h2 : time - v.state.last_frame < 2 ^ 31) (h3 : time < 2 ^ 32) :
    (wl_surface_frame_done os v cb time).state.offset =
      phase_add v.state.offset ((time : Int) - (v.state.last_frame : Int)) := by
  rw [(wl_surface_frame_done_state os v cb time).2, if_pos h0, elapsed_exact _ _ h1 h2 h3]

theorem fire_chain (fs : List (Os × Handle × Nat)) :
    ∀ v : Client, v.state.last_frame ≠ 0 →
      List.Chain (fun a b => a ≤ b ∧ b - a < 2 ^ 31) v.state.last_frame
        (fs.map (fun g => g.2.2)) →
      (∀ g ∈ fs, g.2.2 < 2 ^ 32) →
      (fire v fs).state.offset =
        phase_steps v.state.offset v.state.last_frame (fs.map (fun g => g.2.2)) ∧
      (fire v fs).state.last_frame = (fs.map (fun g => g.2.2)).getLastD v.state.last_frame := by
  induction fs with
  | nil =>
    intro v _ _ _
    simp [fire, phase_steps]
  | cons f fs ih =>
    intro v h0 hch hlt
    simp only [List.map_cons, List.chain_cons] at hch
    obtain ⟨⟨h1, h2⟩, hrest⟩ := hch
    have h3 : f.2.2 < 2 ^ 32 := hlt f (by simp)
    have hl := (wl_surface_frame_done_state f.1 v f.2.1 f.2.2).1
    have ho := frame_done_adds f.1 v f.2.1 f.2.2 h0 h1 h2 h3
    have hne : (wl_surface_frame_done f.1 v f.2.1 f.2.2).state.last_frame ≠ 0 := by
      rw [hl]; omega
    obtain ⟨i1, i2⟩ := ih (wl_surface_frame_done f.1 v f.2.1 f.2.2) hne (by rw [hl]; exact hrest)
      (fun g hg => hlt g (by simp [hg]))
    have hfire : fire v (f :: fs) = fire (wl_surface_frame_done f.1 v f.2.1 f.2.2) fs := by
      simp [fire]
    rw [hfire, i1, i2, ho, hl]
    simp only [List.map_cons, List.getLastD_cons, phase_steps]
    exact ⟨trivial, trivial⟩

/-- The firings from a state with no recorded timestamp: the first one records
its timestamp and leaves the phase, the later ones add. -/
theorem fire_first (w : Client) (f : Os × Handle × Nat) (fs : List (Os × Handle × Nat))
    (h0 : w.state.last_frame = 0) (hpos : 0 < f.2.2)
    (hch : List.Chain (fun a b => a ≤ b ∧ b - a < 2 ^ 31) f.2.2 (fs.map (fun g => g.2.2)))
    (hlt : ∀ g ∈ fs, g.2.2 < 2 ^ 32) :
    (fire w [f]).state.offset = w.state.offset ∧
    (fire w (f :: fs)).state.offset =
      phase_steps w.state.offset f.2.2 (fs.map (fun g => g.2.2)) ∧
    (fire w (f :: fs)).state.last_frame = (fs.map (fun g => g.2.2)).getLastD f.2.2 := by
  have hl := (wl_surface_frame_done_state f.1 w f.2.1 f.2.2).1
  have ho : (wl_surface_frame_done f.1 w f.2.1 f.2.2).state.offset = w.state.offset := by
    rw [(wl_surface_frame_done_state f.1 w f.2.1 f.2.2).2]
    simp [h0]
  have hne : (wl_surface_frame_done f.1 w f.2.1 f.2.2).state.last_frame ≠ 0 := by
    rw [hl]; omega
  obtain ⟨i1, i2⟩ := fire_chain fs (wl_surface_frame_done f.1 w f.2.1 f.2.2) hne
    (by rw [hl]; exact hch) hlt
  have hfire : fire w (f :: fs) = fire (wl_surface_frame_done f.1 w f.2.1 f.2.2) fs := by
    simp [fire]
  refine ⟨by simpa [fire] using ho, ?_, ?_⟩
  · rw [hfire, i1, ho, hl]
  · rw [hfire, i2, hl]

/-- C13, as stated, fails.  The phase is a `float` and every `+=` rounds: after
the firings at 100 and 200 ms it is 5033165 / 2097152 (2.4000001), not 2.4, and
after the firings at 100, 200, ..., 1100 ms it is 12582911 / 524288
(23.999998), not 24, so that the next frame is drawn with offset 7 where the
exact phase gives offset 0.  When the first timestamp is 0 the second firing
changes nothing, although 1000 ms have elapsed (24 units); and when 2^31 ms
lie between two firings the phase moves backwards. -/
theorem phase_update_fails :
    (fire sample_client [(os_ok, 9, 100), (os_ok, 10, 200)]).state.offset =
      5033165 / 2097152 ∧
    (5033165 / 2097152 : ℚ) ≠ sample_client.state.offset + ((200 : ℚ) - 100) / 1000 * 24 ∧
    (fire sample_client
      [(os_ok, 9, 100), (os_ok, 10, 200), (os_ok, 13, 300), (os_ok, 16, 400), (os_ok, 19, 500),
       (os_ok, 22, 600), (os_ok, 25, 700), (os_ok, 28, 800), (os_ok, 31, 900),
       (os_ok, 34, 1000), (os_ok, 37, 1100)]).state.offset = 12582911 / 524288 ∧
    (12582911 / 524288 : ℚ) ≠ sample_client.state.offset + ((1100 : ℚ) - 100) / 1000 * 24 ∧
    Int.tmod (float_to_int (12582911 / 524288)) 8 = 7 ∧
    Int.tmod (float_to_int (sample_client.state.offset + ((1100 : ℚ) - 100) / 1000 * 24)) 8 = 0 ∧
    (fire sample_client [(os_ok, 9, 0), (os_ok, 10, 1000)]).state.offset =
      sample_client.state.offset ∧
    sample_client.state.offset ≠ sample_client.state.offset + ((1000 : ℚ) - 0) / 1000 * 24 ∧
    (fire sample_client [(os_ok, 9, 1), (os_ok, 10, 2147483649)]).state.offset = -51539608 ∧
    (-51539608 : ℚ) ≠ sample_client.state.offset + ((2147483649 : ℚ) - 1) / 1000 * 24 := by
  have h0 : sample_client.state.last_frame = 0 := by decide
  have hp : sample_client.state.offset = 0 := rfl
  obtain ⟨t1, t2, t3, t4, t5, t6, t7, t8, t9, t10⟩ := phase_add_tenths
  refine ⟨?_, by norm_num [hp], ?_, by norm_num [hp], ?_, ?_, ?_, by norm_num [hp], ?_,
    by norm_num [hp]⟩
  · rw [(fire_first sample_client (os_ok, 9, 100) [(os_ok, 10, 200)] h0 (by decide)
      (by simp) (by simp)).2.1, hp]
    simp only [List.map_cons, List.map_nil, phase_steps]
    norm_num
    exact t1
  · rw [(fire_first sample_client (os_ok, 9, 100)
      [(os_ok, 10, 200), (os_ok, 13, 300), (os_ok, 16, 400), (os_ok, 19, 500),
       (os_ok, 22, 600), (os_ok, 25, 700), (os_ok, 28, 800), (os_ok, 31, 900),
       (os_ok, 34, 1000), (os_ok, 37, 1100)] h0 (by decide) (by simp) (by simp)).2.1, hp]
    simp only [List.map_cons, List.map_nil, phase_steps]
    norm_num
    rw [t1, t2, t3, t4, t5, t6, t7, t8, t9, t10]
  · rw [phase_offset_nonneg _ (by norm_num)]
    have hf : ⌊(12582911 / 524288 : ℚ)⌋₊ = 23 := by
      rw [Nat.floor_eq_iff (by norm_num)]
      norm_num
    rw [hf]
    rfl
  · rw [hp, phase_offset_nonneg _ (by norm_num)]
    have hf : ⌊(0 + ((1100 : ℚ) - 100) / 1000 * 24 : ℚ)⌋₊ = 24 := by
      rw [Nat.floor_eq_iff (by norm_num)]
      norm_num
    rw [hf]
    rfl
  · simp only [fire, List.foldl_cons, List.foldl_nil]
    rw [(wl_surface_frame_done_state _ _ _ _).2, (wl_surface_frame_done_state _ _ _ _).1,
      (wl_surface_frame_done_state _ _ _ _).2]
    simp [h0]
  · simp only [fire, List.foldl_cons, List.foldl_nil]
    rw [(wl_surface_frame_done_state _ _ _ _).2, (wl_surface_frame_done_state _ _ _ _).1,
      (wl_surface_frame_done_state _ _ _ _).2]
    have he : to_int32 (u32_sub 2147483649 1) = -2147483648 := by decide
    simp only [h0, ne_eq, not_true_eq_false, if_false, he, hp, OfNat.ofNat_ne_zero,
      not_false_eq_true, if_true, one_ne_zero]
    exact phase_add_gap

/-- C13, amended: for frame-callback firings with timestamps
0 < t1 ≤ t2 ≤ ... ≤ tn < 2^32 whose successive differences are below 2^31,
starting with no recorded timestamp, the first firing leaves the phase as it
is and every later firing k adds (t_k - t_{k-1}) / 1000 * 24 to it in
floating-point arithmetic: the quotient, the product and the sum are rounded
to `double` and the sum is rounded to `float` when it is stored, so that the
new phase differs from the old one plus (t_k - t_{k-1}) / 1000 * 24 by at most
(|old| + (t_k - t_{k-1}) / 1000 * 24) / 2^23 + 2^-149.  After the n-th firing
the phase is the result of these n - 1 rounded additions, in order, and the
recorded timestamp is t_n. -/
theorem phase_update (w : Client) (f : Os × Handle × Nat) (fs : List (Os × Handle × Nat))
    (h0 : w.state.last_frame = 0) (hpos : 0 < f.2.2)
    (hch : List.Chain (fun a b => a ≤ b ∧ b - a < 2 ^ 31) f.2.2 (fs.map (fun g => g.2.2)))
    (hlt : ∀ g ∈ fs, g.2.2 < 2 ^ 32) :
    (fire w [f]).state.offset = w.state.offset ∧
    (fire w (f :: fs)).state.offset =
      phase_steps w.state.offset f.2.2 (fs.map (fun g => g.2.2)) ∧
    (fire w (f :: fs)).state.last_frame = (fs.map (fun g => g.2.2)).getLastD f.2.2 ∧
    (∀ (os : Os) (v : Client) (cb : Handle) (time : Nat), v.state.last_frame ≠ 0 →
      v.state.last_frame ≤ time → time - v.state.last_frame < 2 ^ 31 → time < 2 ^ 32 →
      (wl_surface_frame_done os v cb time).state.offset =
        round_float (round_double (v.state.offset +
          round_double (round_double (((time : ℚ) - (v.state.last_frame : ℚ)) / 1000) * 24))) ∧
      |(wl_surface_frame_done os v cb time).state.offset -
          (v.state.offset + ((time : ℚ) - (v.state.last_frame : ℚ)) / 1000 * 24)| ≤
        (|v.state.offset| + ((time : ℚ) - (v.state.last_frame : ℚ)) / 1000 * 24) / 2 ^ 23 +
          1 / 2 ^ 149) ∧
    (∀ (phase : ℚ) (last t : Nat) (ts : List Nat),
      phase_steps phase last [] = phase ∧
      phase_steps phase last (t :: ts) =
        phase_steps
          (round_float (round_double (phase +
            round_double (round_double (((t : ℚ) - (last : ℚ)) / 1000) * 24)))) t ts) := by
  obtain ⟨a1, a2, a3⟩ := fire_first w f fs h0 hpos hch hlt
  refine ⟨a1, a2, a3, ?_, ?_⟩
  · intro os v cb time hv0 hv1 hv2 hv3
    have hadd := frame_done_adds os v cb time hv0 hv1 hv2 hv3
    have hcast : (((time : Int) - (v.state.last_frame : Int) : Int) : ℚ) =
        (time : ℚ) - (v.state.last_frame : ℚ) := by
      push_cast
      rfl
    have hnn : (0 : ℚ) ≤ ((time : ℚ) - (v.state.last_frame : ℚ)) / 1000 * 24 := by
      have : (v.state.last_frame : ℚ) ≤ (time : ℚ) := by exact_mod_cast hv1
      have : (0 : ℚ) ≤ (time : ℚ) - (v.state.last_frame : ℚ) := by linarith
      positivity
    constructor
    · rw [hadd]
      unfold phase_add
      simp only []
      rw [hcast]
    · have herr := phase_add_err v.state.offset ((time : Int) - (v.state.last_frame : Int))
      rw [hcast, abs_of_nonneg hnn] at herr
      rw [hadd]
      exact herr
  · intro phase last t ts
    refine ⟨rfl, ?_⟩
    have hcast : (((t : Int) - (last : Int) : Int) : ℚ) = (t : ℚ) - (last : ℚ) := by
      push_cast
      rfl
    simp only [phase_steps]
    unfold phase_add
    simp only []
    rw [hcast]

/-- C13, amended, at the timestamps 100, 1100, 1600, where every operation is
exact: the phase after the three firings is 36 and the recorded timestamp is
1600. -/
theorem phase_update_witness :
    (fire sample_client [(os_ok, 9, 100), (os_ok, 10, 1100), (os_ok, 13, 1600)]).state.offset =
      36 ∧
    (fire sample_client
      [(os_ok, 9, 100), (os_ok, 10, 1100), (os_ok, 13, 1600)]).state.last_frame = 1600 := by
  have h := phase_update sample_client (os_ok, 9, 100) [(os_ok, 10, 1100), (os_ok, 13, 1600)]
    (by decide) (by decide) (by simp) (by simp)
  refine ⟨?_, h.2.2.1⟩
  rw [h.2.1]
  have hp : sample_client.state.offset = 0 := rfl
  simp only [List.map_cons, List.map_nil, phase_steps, hp]
  norm_num
  rw [phase_add_second, phase_add_half]

/-! ## The names of the shared-memory file -/

/-- The character `randname` writes depends on the low five bits of `r` only:
it is `'A'` plus the low four bits, plus 32 when bit 4 is set. -/
theorem randname_char_code (r : Nat) :
    Char.ofNat (65 + (r &&& 15) + (r &&& 16) * 2) = name_char (r % 32) := by
  have h31 : r &&& 31 = r % 32 := Nat.and_pow_two_sub_one_eq_mod r 5
  have e15 : (31 &&& 15 : Nat) = 15 := by decide
  have e16 : (31 &&& 16 : Nat) = 16 := by decide
  have h15 : r &&& 15 = (r &&& 31) &&& 15 := by
    rw [Nat.and_assoc, e15]
  have h16 : r &&& 16 = (r &&& 31) &&& 16 := by
    rw [Nat.and_assoc, e16]
  rw [h15, h16, h31]
  have hm : r % 32 < 32 := Nat.mod_lt _ (by decide)
  generalize r % 32 = m at hm
  have key : ∀ m, m < 32 →
      Char.ofNat (65 + (m &&& 15) + (m &&& 16) * 2) = name_char m := by
    decide
  exact key m hm

/-- The 32 characters are letters of `'A'..'P'` or `'a'..'p'`, and different
bits give different characters. -/
theorem name_char_range (m : Nat) (hm : m < 32) :
    (('A' ≤ name_char m ∧ name_char m ≤ 'P') ∨ ('a' ≤ name_char m ∧ name_char m ≤ 'p')) ∧
    (name_char m).toNat = 65 + m % 16 + 32 * (m / 16) := by
  revert m
  decide

theorem name_char_injective (m1 m2 : Nat) (h1 : m1 < 32) (h2 : m2 < 32)
    (h : name_char m1 = name_char m2) : m1 = m2 := by
  have e1 := (name_char_range m1 h1).2
  have e2 := (name_char_range m2 h2).2
  rw [h] at e1
  omega

/-- The characters of the loop, one for each group of five bits. -/
theorem randname_loop_get (n : Nat) :
    ∀ (r i : Nat), i < n → (randname_loop n r)[i]? = some (name_char (r / 32 ^ i % 32)) := by
  induction n with
  | zero => intro r i hi; omega
  | succ n ih =>
    intro r i hi
    rw [randname_loop, randname_char_code]
    rcases i with _ | i
    · simp
    · have e : r >>> 5 / 32 ^ i = r / 32 ^ (i + 1) := by
        rw [Nat.shiftRight_eq_div_pow, Nat.div_div_eq_div_mul, show (2 : Nat) ^ 5 = 32 by decide,
          pow_succ, Nat.mul_comm]
      rw [List.getElem?_cons_succ, ih (r >>> 5) i (by omega), e]

theorem randname_loop_length (n r : Nat) : (randname_loop n r).length = n := by
  induction n generalizing r with
  | zero => rfl
  | succ n ih => simp [randname_loop, ih]

theorem randname_loop_mem (n : Nat) :
    ∀ (r : Nat) (c : Char), c ∈ randname_loop n r →
      ('A' ≤ c ∧ c ≤ 'P') ∨ ('a' ≤ c ∧ c ≤ 'p') := by
  induction n with
  | zero => intro r c hc; simp [randname_loop] at hc
  | succ n ih =>
    intro r c hc
    rw [randname_loop, randname_char_code, List.mem_cons] at hc
    rcases hc with rfl | hc
    · exact (name_char_range (r % 32) (Nat.mod_lt _ (by decide))).1
    · exact ih _ c hc

/-- Equal names come from timestamps with the same low `5 * n` bits. -/
theorem randname_loop_injective (n : Nat) :
    ∀ r1 r2 : Nat, randname_loop n r1 = randname_loop n r2 → r1 % 32 ^ n = r2 % 32 ^ n := by
  induction n with
  | zero => intro r1 r2 _; simp [Nat.mod_one]
  | succ n ih =>
    intro r1 r2 h
    rw [randname_loop, randname_loop, randname_char_code, randname_char_code,
      List.cons.injEq] at h
    have hlow : r1 % 32 = r2 % 32 :=
      name_char_injective _ _ (Nat.mod_lt _ (by decide)) (Nat.mod_lt _ (by decide)) h.1
    have hhigh := ih _ _ h.2
    rw [Nat.shiftRight_eq_div_pow, Nat.shiftRight_eq_div_pow] at hhigh
    have e : (32 : Nat) ^ (n + 1) = 32 * 32 ^ n := by rw [pow_succ, Nat.mul_comm]
    rw [e, Nat.mod_mul, Nat.mod_mul, hlow]
    simp only [show (2 : Nat) ^ 5 = 32 by decide] at hhigh
    rw [hhigh]

/-- C21: for every nanosecond value r below 2^30, `randname` writes exactly six
characters, each in 'A'..'P' or 'a'..'p'; character i encodes the bits
5i..5i+4 of r as 'A' + (bits & 15) + 32 * bit4; and two different values below
2^30 give different six-character names, hence different file names. -/
theorem randname_injective (r1 r2 : Nat) (h1 : r1 < 2 ^ 30) (h2 : r2 < 2 ^ 30) :
    (randname r1).length = 6 ∧
    (∀ i, i < 6 → (randname r1)[i]? = some (name_char (r1 / 32 ^ i % 32))) ∧
    (∀ c ∈ randname r1, ('A' ≤ c ∧ c ≤ 'P') ∨ ('a' ≤ c ∧ c ≤ 'p')) ∧
    (r1 ≠ r2 → randname r1 ≠ randname r2) ∧
    (r1 ≠ r2 → shm_name r1 ≠ shm_name r2) := by
  have hinj : randname r1 = randname r2 → r1 = r2 := by
    intro h
    have := randname_loop_injective 6 r1 r2 h
    have e : (32 : Nat) ^ 6 = 2 ^ 30 := by decide
    rw [e, Nat.mod_eq_of_lt h1, Nat.mod_eq_of_lt h2] at this
    exact this
  refine ⟨randname_loop_length 6 r1, fun i hi => randname_loop_get 6 r1 i hi,
    fun c hc => randname_loop_mem 6 r1 c hc, fun hne h => hne (hinj h), fun hne h => ?_⟩
  apply hne
  apply hinj
  unfold shm_name at h
  have hd := congrArg String.data h
  simp only [String.data_append] at hd
  exact List.append_cancel_left hd

/-- C21 at two timestamps that differ in the last bit, and at two that differ
in bit 29 only. -/
theorem randname_injective_witness :
    (randname 123456789).length = 6 ∧
    randname 123456789 ≠ randname 123456788 ∧
    shm_name 5 ≠ shm_name (5 + 2 ^ 29) := by
  have h := randname_injective 123456789 123456788 (by decide) (by decide)
  have k := randname_injective 5 (5 + 2 ^ 29) (by decide) (by decide)
  exact ⟨h.1, h.2.2.2.1 (by decide), k.2.2.2.2 (by decide)⟩

end WlSample
